import Mathlib

/-!
# oidentd, `src/kernel/linux.c`: the Linux user lookup facility

A shallow embedding of the socket-table scanner (`get_user4`, `get_user6`),
the kernel diagnostics client (`lookup_tcp_diag`) and the backend selection
(`core_init`), followed by the properties proved about them.

Conventions of the embedding.

* Machine integers are natural numbers; a cast to `in_port_t` is `% 65536`.
* What the operating system answers during a call (the result of `sendmsg`, the
  successive results of `recvmsg`, the result of `fopen` and of `sscanf` on each
  line read by `fgets`) is an explicit argument of the function that makes the
  call.
* The static variable `netlink_sock` is passed in and handed back.
* Every system call that matters for the properties below is recorded, in
  program order, in a list of events.
-/

namespace Oidentd

/-! ## Constants of the platform -/

/-- The errno value "No such file or directory". -/
def ENOENT : Nat := 2
/-- The errno value "Interrupted system call". -/
def EINTR : Nat := 4
/-- The errno value "Resource temporarily unavailable". -/
def EAGAIN : Nat := 11
/-- The errno value "Connection refused". -/
def ECONNREFUSED : Nat := 111

/-- Address family of IPv4. -/
def AF_INET : Nat := 2
/-- Address family of IPv6. -/
def AF_INET6 : Nat := 10

/-- Netlink message type of an error reply. -/
def NLMSG_ERROR : Nat := 2
/-- Netlink message type that ends a multipart reply. -/
def NLMSG_DONE : Nat := 3

/-- Modelled from the spec: the sentinel "missing" lookup result; `missing.h`, which
defines `MISSING_UID` as `(uid_t) -1`, is not among the sources. -/
def MISSING_UID : Nat := 4294967295

/-! ## Addresses, options, byte order -/

/-- A `struct sockaddr_storage`, seen through `SIN4` (field `s_addr`, the 32-bit value
`sin_addr.s_addr`) and through `SIN6` (field `s6_addr32`, the four 32-bit words of
`sin6_addr`). -/
structure sockaddr_storage where
  ss_family : Nat
  s_addr : Nat
  s6_addr32 : List Nat
deriving DecidableEq, Repr

/-- Modelled from the spec: the address of an endpoint is "a 32-bit or 128-bit address"
chosen by its family tag; `sin_addr` of `inet_util.c` (not among the sources) points at
it. The address is given as its 32-bit words. -/
def sin_addr (ss : sockaddr_storage) : List Nat :=
  if ss.ss_family = AF_INET6 then ss.s6_addr32 else [ss.s_addr]

/-- Modelled from the spec: the byte length of the address `sin_addr` points at
(`sin_addr_len` of `inet_util.c`, not among the sources). -/
def sin_addr_len (ss : sockaddr_storage) : Nat :=
  if ss.ss_family = AF_INET6 then 16 else 4

/-- The test `!memcmp(a, b, len)` on two areas given as 32-bit words (`len` a multiple
of 4): the first `len / 4` words agree. -/
def memcmp_eq (a b : List Nat) (len : Nat) : Prop :=
  a.take (len / 4) = b.take (len / 4)

instance (a b : List Nat) (len : Nat) :
    Decidable (memcmp_eq a b len) := by
  delta memcmp_eq; exact inferInstance

/-- What the lookups read of the process configuration: the byte order of the host,
`opt_enabled(PROXY)` and the global `proxy`. -/
structure Config where
  big_endian : Bool
  opt_PROXY : Bool
  proxy : sockaddr_storage
deriving Repr

/-- The function `ntohs` on a 16-bit value: the identity on a big-endian host, a swap
of the two bytes on a little-endian one. -/
def ntohs (big_endian : Bool) (x : Nat) : Nat :=
  if big_endian then x % 65536 else (x % 256) * 256 + (x / 256) % 256

/-- The arguments of `get_user4` / `get_user6`: both ports in network byte order and
both addresses. -/
structure query where
  lport : Nat
  fport : Nat
  laddr : sockaddr_storage
  faddr : sockaddr_storage
deriving Repr

/-! ## Events -/

/-- The files this module opens. -/
inductive ProcFile where
  | CFILE
  | CFILE6
  | MASQFILE
  | IPCONNTRACK
  | NFCONNTRACK
deriving DecidableEq, Repr

/-- The system calls recorded in a trace. -/
inductive Event where
  | sendmsg
  | recvmsg
  | close_netlink
  | fopen (f : ProcFile)
deriving DecidableEq, Repr

/-! ## The socket-table scanner -/

/-- The outcome of the `sscanf` call of `get_user4` on one line returned by `fgets`:
the return value and the six variables in the order of the format; only the first
`ret` of them are assigned by the call. -/
structure scan4 where
  ret : Int
  local_ : Nat
  portl_temp : Nat
  remote : Nat
  portf_temp : Nat
  uid : Nat
  inode : Nat
deriving DecidableEq, Repr

/-- The code at the label `out_success` of `get_user4` (after `fclose`). -/
def out_success (uid inode : Nat) : Nat :=
  if inode = 0 ∧ uid = 0 then MISSING_UID else uid

/-- The first test of the loop body of `get_user4`, under `opt_enabled(PROXY)`. -/
def proxy_rule (cfg : Config) (faddr4 lport fport : Nat) (l : scan4) : Prop :=
  faddr4 = cfg.proxy.s_addr ∧ l.remote ≠ cfg.proxy.s_addr ∧
    lport = l.portl_temp % 65536 ∧ fport = l.portf_temp % 65536

instance (cfg : Config) (faddr4 lport fport : Nat) (l : scan4) :
    Decidable (proxy_rule cfg faddr4 lport fport l) := by
  delta proxy_rule; exact inferInstance

/-- The second test of the loop body of `get_user4`. -/
def exact_rule (laddr4 faddr4 lport fport : Nat) (l : scan4) : Prop :=
  l.local_ = laddr4 ∧ l.remote = faddr4 ∧
    l.portl_temp % 65536 = lport ∧ l.portf_temp % 65536 = fport

instance (laddr4 faddr4 lport fport : Nat) (l : scan4) :
    Decidable (exact_rule laddr4 faddr4 lport fport l) := by
  delta exact_rule; exact inferInstance

/-- The `while (fgets(...))` loop of `get_user4` over the lines that follow the header.
`uid` and `inode` are the function-level variables the `sscanf` call writes to;
`lport` and `fport` are in host byte order. -/
def get_user4_loop (cfg : Config) (laddr4 faddr4 lport fport : Nat) :
    List scan4 → Nat → Nat → Nat
  | [], _, _ => MISSING_UID
  | l :: rest, uid, inode =>
    let uid := if 5 ≤ l.ret then l.uid else uid
    let inode := if 6 ≤ l.ret then l.inode else inode
    if l.ret ≠ 6 then get_user4_loop cfg laddr4 faddr4 lport fport rest uid inode
    else if cfg.opt_PROXY = true ∧ proxy_rule cfg faddr4 lport fport l then
      out_success uid inode
    else if exact_rule laddr4 faddr4 lport fport l then out_success uid inode
    else get_user4_loop cfg laddr4 faddr4 lport fport rest uid inode

/-- The part of `get_user4` from `laddr4 = ...` on: `cfile` is `none` when
`fopen(CFILE)` fails and otherwise the `sscanf` outcomes of the lines of the file, the
header line included. -/
def get_user4_scan (cfg : Config) (cfile : Option (List scan4)) (q : query)
    (uid inode : Nat) : Nat :=
  let laddr4 := q.laddr.s_addr
  let faddr4 := q.faddr.s_addr
  let lport := ntohs cfg.big_endian q.lport
  let fport := ntohs cfg.big_endian q.fport
  match cfile with
  | none => MISSING_UID
  | some lines => get_user4_loop cfg laddr4 faddr4 lport fport (lines.drop 1) uid inode

/-- The outcome of the `sscanf` call of `get_user6` on one line: the return value, the
four words of each address, the two ports, the uid and the inode. -/
structure scan6 where
  ret : Int
  local6 : List Nat
  portl_temp : Nat
  remote6 : List Nat
  portf_temp : Nat
  uid : Nat
  inode : Nat
deriving DecidableEq, Repr

/-- The test of the loop body of `get_user6`; `sizeof(struct in6_addr)` is 16. -/
def match6 (laddr faddr : sockaddr_storage) (lport fport : Nat) (l : scan6) : Prop :=
  memcmp_eq l.local6 (sin_addr laddr) 16 ∧ memcmp_eq l.remote6 (sin_addr faddr) 16 ∧
    l.portl_temp % 65536 = lport ∧ l.portf_temp % 65536 = fport

instance (laddr faddr : sockaddr_storage) (lport fport : Nat) (l : scan6) :
    Decidable (match6 laddr faddr lport fport l) := by
  delta match6; exact inferInstance

/-- The `while (fgets(...))` loop of `get_user6`; `uid` and `inode` are local to the
loop body. -/
def get_user6_loop (laddr faddr : sockaddr_storage) (lport fport : Nat) : List scan6 → Nat
  | [] => MISSING_UID
  | l :: rest =>
    if l.ret ≠ 12 then get_user6_loop laddr faddr lport fport rest
    else if match6 laddr faddr lport fport l then
      if l.inode = 0 ∧ l.uid = 0 then MISSING_UID else l.uid
    else get_user6_loop laddr faddr lport fport rest

/-- The part of `get_user6` from `lport = ntohs(lport)` on. -/
def get_user6_scan (cfg : Config) (cfile6 : Option (List scan6)) (q : query) : Nat :=
  let lport := ntohs cfg.big_endian q.lport
  let fport := ntohs cfg.big_endian q.fport
  match cfile6 with
  | none => MISSING_UID
  | some lines => get_user6_loop q.laddr q.faddr lport fport (lines.drop 1)

/-! ## The kernel diagnostics client -/

/-- One netlink message of a reply as `lookup_tcp_diag` reads it: three fields of the
header `struct nlmsghdr` and, of the `struct tcpdiagmsg` behind it, the socket id, the
uid and the inode. -/
structure nlmsg where
  nlmsg_len : Nat
  nlmsg_type : Nat
  nlmsg_seq : Nat
  tcpdiag_sport : Nat
  tcpdiag_dport : Nat
  tcpdiag_src : List Nat
  tcpdiag_dst : List Nat
  tcpdiag_uid : Nat
  tcpdiag_inode : Nat
deriving DecidableEq, Repr

/-- The result of one `sendmsg` call. -/
inductive send_result where
  | ok
  | error (errno : Nat)
deriving DecidableEq, Repr

/-- The result of one `recvmsg` call: a negative return with its errno, or the return
value `ret`, the messages found in the buffer at the successive positions of the
`NLMSG_NEXT` walk (past the last of them the buffer holds no valid header), and whether
`MSG_TRUNC` is set in `msg_flags`. -/
inductive recv_result where
  | error (errno : Nat)
  | data (ret : Nat) (msgs : List nlmsg) (msg_trunc : Bool)
deriving DecidableEq, Repr

/-- The macro `NLMSG_OK` of `linux/netlink.h`; `sizeof(struct nlmsghdr)` is 16. -/
def NLMSG_OK (h : nlmsg) (len : Nat) : Prop :=
  16 ≤ len ∧ 16 ≤ h.nlmsg_len ∧ h.nlmsg_len ≤ len

instance (h : nlmsg) (len : Nat) :
    Decidable (NLMSG_OK h len) := by
  delta NLMSG_OK; exact inferInstance

/-- The macro `NLMSG_ALIGN` of `linux/netlink.h`. -/
def NLMSG_ALIGN (len : Nat) : Nat := (len + 3) / 4 * 4

/-- The effect of the macro `NLMSG_NEXT` of `linux/netlink.h` on its length argument, a
`size_t` of 64 bits: `len -= NLMSG_ALIGN(h->nlmsg_len)`. -/
def NLMSG_NEXT_len (h : nlmsg) (len : Nat) : Nat :=
  (len + 2 ^ 64 - NLMSG_ALIGN h.nlmsg_len % 2 ^ 64) % 2 ^ 64

/-- What the walk over one received buffer ends with: a `return` of `lookup_tcp_diag`,
or the end of the inner `while` loop with the remaining length `uret`. -/
inductive walk_result where
  | returned (uid : Nat)
  | fell_through (uret : Nat)
deriving DecidableEq, Repr

/-- The inner loop `while (NLMSG_OK(h, uret))` of `lookup_tcp_diag`; `uret` is a
`size_t` (64 bits). -/
def diag_walk (src_addr dst_addr : sockaddr_storage) (src_port dst_port : Nat) :
    List nlmsg → Nat → walk_result
  | [], uret => walk_result.fell_through uret
  | h :: rest, uret =>
    if NLMSG_OK h uret then
      if h.nlmsg_seq ≠ 1 then
        diag_walk src_addr dst_addr src_port dst_port rest (NLMSG_NEXT_len h uret)
      else if h.nlmsg_type = NLMSG_DONE ∨ h.nlmsg_type = NLMSG_ERROR then
        walk_result.returned MISSING_UID
      else if h.tcpdiag_dport = dst_port ∧ h.tcpdiag_sport = src_port ∧
          memcmp_eq h.tcpdiag_dst (sin_addr dst_addr) (sin_addr_len dst_addr) ∧
          memcmp_eq h.tcpdiag_src (sin_addr src_addr) (sin_addr_len dst_addr) then
        if h.tcpdiag_inode = 0 ∧ h.tcpdiag_uid = 0 then walk_result.returned MISSING_UID
        else walk_result.returned h.tcpdiag_uid
      else walk_result.returned MISSING_UID
    else walk_result.fell_through uret

/-- The outer loop `while (1)` of `lookup_tcp_diag` over the successive results of
`recvmsg`; the result is the returned uid and the number of `recvmsg` calls made, or
`none` when no further datagram ever arrives (the call blocks). -/
def diag_recv_loop (src_addr dst_addr : sockaddr_storage) (src_port dst_port : Nat) :
    List recv_result → Nat → Option (Nat × Nat)
  | [], _ => none
  | recv_result.error errno :: rest, n =>
    if errno = EINTR ∨ errno = EAGAIN then
      diag_recv_loop src_addr dst_addr src_port dst_port rest (n + 1)
    else some (MISSING_UID, n + 1)
  | recv_result.data ret msgs msg_trunc :: rest, n =>
    if ret = 0 then some (MISSING_UID, n + 1)
    else
      match diag_walk src_addr dst_addr src_port dst_port msgs ret with
      | walk_result.returned uid => some (uid, n + 1)
      | walk_result.fell_through uret =>
        if msg_trunc = true ∨ uret ≠ 0 then some (MISSING_UID, n + 1)
        else diag_recv_loop src_addr dst_addr src_port dst_port rest (n + 1)

/-- What a lookup hands back: the returned uid, the value of `netlink_sock`
afterwards, and the system calls made, in order. -/
structure lookup_result where
  uid : Nat
  netlink_sock : Int
  trace : List Event
deriving DecidableEq, Repr

/-- The function `lookup_tcp_diag`: `send` is the result of its `sendmsg` call and
`recvs` the results of its successive `recvmsg` calls. -/
def lookup_tcp_diag (netlink_sock : Int) (send : send_result) (recvs : List recv_result)
    (src_addr dst_addr : sockaddr_storage) (src_port dst_port : Nat) :
    Option lookup_result :=
  match send with
  | send_result.error errno =>
    if errno = ECONNREFUSED then
      some ⟨MISSING_UID, -1, [Event.sendmsg, Event.close_netlink]⟩
    else some ⟨MISSING_UID, netlink_sock, [Event.sendmsg]⟩
  | send_result.ok =>
    match diag_recv_loop src_addr dst_addr src_port dst_port recvs 0 with
    | none => none
    | some (uid, n) =>
      some ⟨uid, netlink_sock, Event.sendmsg :: List.replicate n Event.recvmsg⟩

/-! ## The two lookups, diagnostics first -/

/-- What the operating system answers during one call of `get_user4`. -/
structure os_env4 where
  send : send_result
  recvs : List recv_result
  cfile : Option (List scan4)
deriving Repr

/-- What the operating system answers during one call of `get_user6`. -/
structure os_env6 where
  send : send_result
  recvs : List recv_result
  cfile6 : Option (List scan6)
deriving Repr

/-- The function `get_user4`. `uid` and `inode` stand for the indeterminate initial
values of its two local variables of those names. -/
def get_user4 (cfg : Config) (netlink_sock : Int) (os : os_env4) (q : query)
    (uid inode : Nat) : Option lookup_result :=
  if netlink_sock ≠ -1 then
    match lookup_tcp_diag netlink_sock os.send os.recvs q.laddr q.faddr q.lport q.fport with
    | none => none
    | some r =>
      if r.uid ≠ MISSING_UID then some r
      else
        some ⟨get_user4_scan cfg os.cfile q r.uid inode, r.netlink_sock,
          r.trace ++ [Event.fopen ProcFile.CFILE]⟩
  else
    some ⟨get_user4_scan cfg os.cfile q uid inode, netlink_sock,
      [Event.fopen ProcFile.CFILE]⟩

/-- The function `get_user6`. -/
def get_user6 (cfg : Config) (netlink_sock : Int) (os : os_env6) (q : query) :
    Option lookup_result :=
  if netlink_sock ≠ -1 then
    match lookup_tcp_diag netlink_sock os.send os.recvs q.laddr q.faddr q.lport q.fport with
    | none => none
    | some r =>
      if r.uid ≠ MISSING_UID then some r
      else
        some ⟨get_user6_scan cfg os.cfile6 q, r.netlink_sock,
          r.trace ++ [Event.fopen ProcFile.CFILE6]⟩
  else
    some ⟨get_user6_scan cfg os.cfile6 q, netlink_sock, [Event.fopen ProcFile.CFILE6]⟩

/-- One call of a lookup together with what the operating system answers during it. -/
inductive lookup_call where
  | user4 (os : os_env4) (q : query) (uid inode : Nat)
  | user6 (os : os_env6) (q : query)
deriving Repr

/-- The call `c` made with `netlink_sock` at the given value. -/
def run_call (cfg : Config) (netlink_sock : Int) : lookup_call → Option lookup_result
  | lookup_call.user4 os q uid inode => get_user4 cfg netlink_sock os q uid inode
  | lookup_call.user6 os q => get_user6 cfg netlink_sock os q

/-- The table scan alone that belongs to the call `c`. -/
def scan_of_call (cfg : Config) : lookup_call → Nat
  | lookup_call.user4 os q uid inode => get_user4_scan cfg os.cfile q uid inode
  | lookup_call.user6 os q => get_user6_scan cfg os.cfile6 q

/-- A sequence of lookups made one after the other by the same process: the returned
uids in order, the final value of `netlink_sock`, and the whole trace. -/
def run_calls (cfg : Config) : Int → List lookup_call → Option (List Nat × Int × List Event)
  | netlink_sock, [] => some ([], netlink_sock, [])
  | netlink_sock, c :: rest =>
    match run_call cfg netlink_sock c with
    | none => none
    | some r =>
      match run_calls cfg r.netlink_sock rest with
      | none => none
      | some (uids, final, trace) => some (r.uid :: uids, final, r.trace ++ trace)

/-! ## Backend selection -/

/-- The values of the static variable `conntrack`. -/
inductive conntrack_t where
  | CT_UNKNOWN
  | CT_MASQFILE
  | CT_IPCONNTRACK
  | CT_NFCONNTRACK
  | CT_LIBNFCT
deriving DecidableEq, Repr

/-- The result of one `fopen` call: a stream, or `NULL` with its errno. -/
inductive fopen_result where
  | ok
  | error (errno : Nat)
deriving DecidableEq, Repr

/-- The preprocessor symbols the module is built with. -/
structure Build where
  HAVE_LIBCAP_NG : Bool
  MASQ_SUPPORT : Bool
  LIBNFCT_SUPPORT : Bool
deriving DecidableEq, Repr

/-- Whether `LIBNFCT_SUPPORT` is still defined after the two `#undef` blocks at the top
of the file. -/
def Build.libnfct (b : Build) : Bool :=
  b.LIBNFCT_SUPPORT && b.HAVE_LIBCAP_NG && b.MASQ_SUPPORT

/-- The state `core_init` works on: the option `MASQ`, the stream `masq_fp` (`none` for
`NULL`, otherwise the file it is open on) and `conntrack`. -/
structure init_state where
  opt_MASQ : Bool
  masq_fp : Option ProcFile
  conntrack : conntrack_t
deriving DecidableEq, Repr

/-- The state at program start: `conntrack` is initialised to `CT_UNKNOWN`, `masq_fp`
is a zero-initialised global. -/
def init_state.start (opt_MASQ : Bool) : init_state :=
  ⟨opt_MASQ, none, conntrack_t.CT_UNKNOWN⟩

/-- What `core_init` hands back: its return value, the state afterwards and the
`fopen` calls made, in order. -/
structure init_result where
  ret : Bool
  state : init_state
  trace : List Event
deriving DecidableEq, Repr

/-- The function `core_init`; `fs` gives the result of `fopen` on each file. -/
def core_init (b : Build) (fs : ProcFile → fopen_result) (s : init_state) : init_result :=
  if b.MASQ_SUPPORT then
    if ¬ s.opt_MASQ then ⟨true, { s with masq_fp := none }, []⟩
    else
      match fs ProcFile.MASQFILE with
      | fopen_result.error e1 =>
        if e1 ≠ ENOENT then
          ⟨false, { s with masq_fp := none }, [Event.fopen ProcFile.MASQFILE]⟩
        else
          match fs ProcFile.NFCONNTRACK with
          | fopen_result.error e2 =>
            if e2 ≠ ENOENT then
              ⟨false, { s with masq_fp := none },
                [Event.fopen ProcFile.MASQFILE, Event.fopen ProcFile.NFCONNTRACK]⟩
            else
              match fs ProcFile.IPCONNTRACK with
              | fopen_result.error e3 =>
                if e3 ≠ ENOENT then
                  ⟨false, { s with masq_fp := none },
                    [Event.fopen ProcFile.MASQFILE, Event.fopen ProcFile.NFCONNTRACK,
                      Event.fopen ProcFile.IPCONNTRACK]⟩
                else if b.libnfct then
                  ⟨true, { s with masq_fp := none, conntrack := conntrack_t.CT_LIBNFCT },
                    [Event.fopen ProcFile.MASQFILE, Event.fopen ProcFile.NFCONNTRACK,
                      Event.fopen ProcFile.IPCONNTRACK]⟩
                else
                  ⟨true, { s with masq_fp := none, opt_MASQ := false },
                    [Event.fopen ProcFile.MASQFILE, Event.fopen ProcFile.NFCONNTRACK,
                      Event.fopen ProcFile.IPCONNTRACK]⟩
              | fopen_result.ok =>
                ⟨true, { s with masq_fp := some ProcFile.IPCONNTRACK,
                                conntrack := conntrack_t.CT_IPCONNTRACK },
                  [Event.fopen ProcFile.MASQFILE, Event.fopen ProcFile.NFCONNTRACK,
                    Event.fopen ProcFile.IPCONNTRACK]⟩
          | fopen_result.ok =>
            ⟨true, { s with masq_fp := some ProcFile.NFCONNTRACK,
                            conntrack := conntrack_t.CT_NFCONNTRACK },
              [Event.fopen ProcFile.MASQFILE, Event.fopen ProcFile.NFCONNTRACK]⟩
      | fopen_result.ok =>
        ⟨true, { s with masq_fp := some ProcFile.MASQFILE,
                        conntrack := conntrack_t.CT_MASQFILE },
          [Event.fopen ProcFile.MASQFILE]⟩
  else ⟨true, s, []⟩

/-- The socket table the call `c` reads. -/
def file_of_call : lookup_call → ProcFile
  | lookup_call.user4 _ _ _ _ => ProcFile.CFILE
  | lookup_call.user6 _ _ => ProcFile.CFILE6

/-! ## Notions used to state the properties -/

/-- A line at which the loop of `get_user4` jumps to `out_success`: all six fields
parsed and one of the two tests passed. -/
def accepted4 (cfg : Config) (laddr4 faddr4 lport fport : Nat) (l : scan4) : Prop :=
  l.ret = 6 ∧ ((cfg.opt_PROXY = true ∧ proxy_rule cfg faddr4 lport fport l) ∨
    exact_rule laddr4 faddr4 lport fport l)

instance (cfg : Config) (laddr4 faddr4 lport fport : Nat) (l : scan4) :
    Decidable (accepted4 cfg laddr4 faddr4 lport fport l) := by
  delta accepted4; exact inferInstance

/-- The record that decides the table scan of `get_user4`: the first accepted line
after the header, if the table can be opened and has one. -/
def deciding_record4 (cfg : Config) (cfile : Option (List scan4)) (q : query) :
    Option scan4 :=
  match cfile with
  | none => none
  | some lines =>
    (lines.drop 1).find? (fun l => decide (accepted4 cfg q.laddr.s_addr q.faddr.s_addr
      (ntohs cfg.big_endian q.lport) (ntohs cfg.big_endian q.fport) l))

/-- A line at which the loop of `get_user6` returns: all twelve fields parsed and the
test passed. -/
def accepted6 (laddr faddr : sockaddr_storage) (lport fport : Nat) (l : scan6) : Prop :=
  l.ret = 12 ∧ match6 laddr faddr lport fport l

instance (laddr faddr : sockaddr_storage) (lport fport : Nat) (l : scan6) :
    Decidable (accepted6 laddr faddr lport fport l) := by
  delta accepted6; exact inferInstance

/-- The record that decides the table scan of `get_user6`. -/
def deciding_record6 (cfg : Config) (cfile6 : Option (List scan6)) (q : query) :
    Option scan6 :=
  match cfile6 with
  | none => none
  | some lines =>
    (lines.drop 1).find? (fun l => decide (accepted6 q.laddr q.faddr
      (ntohs cfg.big_endian q.lport) (ntohs cfg.big_endian q.fport) l))

/-- The messages of a received buffer of `len` bytes: those reached by stepping with
`NLMSG_NEXT` for as long as `NLMSG_OK` holds, and the length left over at the end. -/
def nlmsg_walk : List nlmsg → Nat → List nlmsg × Nat
  | [], len => ([], len)
  | h :: rest, len =>
    if NLMSG_OK h len then
      ((h :: (nlmsg_walk rest (NLMSG_NEXT_len h len)).1),
        (nlmsg_walk rest (NLMSG_NEXT_len h len)).2)
    else ([], len)

/-- The first message of a received buffer whose sequence number is 1. -/
def first_seq1 (msgs : List nlmsg) (len : Nat) : Option nlmsg :=
  (nlmsg_walk msgs len).1.find? (fun h => decide (h.nlmsg_seq = 1))

/-- The socket id of a reply message equals the query's: both ports and, over the
address length of the destination, both addresses. -/
def reply_matches (src_addr dst_addr : sockaddr_storage) (src_port dst_port : Nat)
    (h : nlmsg) : Prop :=
  h.tcpdiag_dport = dst_port ∧ h.tcpdiag_sport = src_port ∧
    memcmp_eq h.tcpdiag_dst (sin_addr dst_addr) (sin_addr_len dst_addr) ∧
    memcmp_eq h.tcpdiag_src (sin_addr src_addr) (sin_addr_len dst_addr)

instance (src_addr dst_addr : sockaddr_storage) (src_port dst_port : Nat) (h : nlmsg) :
    Decidable (reply_matches src_addr dst_addr src_port dst_port h) := by
  delta reply_matches; exact inferInstance

/-- A result of `recvmsg` after which the receive loop calls `recvmsg` again: an
interrupted receive, or a non-empty datagram that is not truncated, has no message with
sequence number 1 and is consumed to its last byte. -/
def passed_over : recv_result → Bool
  | recv_result.error errno => decide (errno = EINTR ∨ errno = EAGAIN)
  | recv_result.data ret msgs msg_trunc =>
    decide (ret ≠ 0 ∧ first_seq1 msgs ret = none ∧ msg_trunc = false ∧
      (nlmsg_walk msgs ret).2 = 0)

/-- The reply message that decides a query: the first message with sequence number 1
of the first result of `recvmsg` that is not passed over. -/
def decisive_reply (recvs : List recv_result) : Option nlmsg :=
  match recvs.dropWhile passed_over with
  | recv_result.data ret msgs _ :: _ => if ret = 0 then none else first_seq1 msgs ret
  | _ => none

/-- What the first message with sequence number 1 gives: "missing" for a DONE or ERROR
message, the uid of a message whose socket id equals the query's (but "missing" for
uid 0 with inode 0), and "missing" for any other message. -/
def reply_uid (src_addr dst_addr : sockaddr_storage) (src_port dst_port : Nat)
    (h : nlmsg) : Nat :=
  if h.nlmsg_type = NLMSG_DONE ∨ h.nlmsg_type = NLMSG_ERROR then MISSING_UID
  else if reply_matches src_addr dst_addr src_port dst_port h then
    if h.tcpdiag_inode = 0 ∧ h.tcpdiag_uid = 0 then MISSING_UID else h.tcpdiag_uid
  else MISSING_UID

/-- What a result of `recvmsg` that is not passed over gives: the verdict of its first
message with sequence number 1 if it is a non-empty datagram with such a message, and
"missing" otherwise. -/
def verdict (src_addr dst_addr : sockaddr_storage) (src_port dst_port : Nat) :
    recv_result → Nat
  | recv_result.error _ => MISSING_UID
  | recv_result.data ret msgs _ =>
    if ret = 0 then MISSING_UID
    else
      match first_seq1 msgs ret with
      | some h => reply_uid src_addr dst_addr src_port dst_port h
      | none => MISSING_UID

/-! ## Sample data -/

/-- A little-endian host without proxy support. -/
def sample_cfg : Config := ⟨false, false, ⟨AF_INET, 0, []⟩⟩

/-- A little-endian host with proxy support, the proxy being 192.0.2.1. -/
def sample_cfg_proxy : Config := ⟨false, true, ⟨AF_INET, 0x010200C0, []⟩⟩

/-- The IPv4 address `a.b.c.d` as the value of `s_addr` on a little-endian host. -/
def ipv4_le (a b c d : Nat) : sockaddr_storage :=
  ⟨AF_INET, a + 256 * b + 65536 * c + 16777216 * d, []⟩

/-- The function `htons` on a little-endian host. -/
def htons_le (p : Nat) : Nat := (p % 256) * 256 + (p / 256) % 256

/-- The query local 10.0.0.5:4000, foreign 93.184.216.34:80. -/
def sample_query : query := ⟨htons_le 4000, htons_le 80, ipv4_le 10 0 0 5, ipv4_le 93 184 216 34⟩

/-- The header line of a socket table: `sscanf` converts nothing. -/
def header4 : scan4 := ⟨0, 0, 0, 0, 0, 0, 0⟩

/-- A table line `0500000A:0FA0 22D8B85D:0050 ... 1000 ... 55`: local 10.0.0.5:4000,
foreign 93.184.216.34:80, uid 1000, inode 55. -/
def sample_line : scan4 := ⟨6, 0x0500000A, 4000, 0x22D8B85D, 80, 1000, 55⟩

/-- The same connection as a dead socket: uid 0, inode 0. -/
def dead_line : scan4 := ⟨6, 0x0500000A, 4000, 0x22D8B85D, 80, 0, 0⟩

/-- The same connection owned by root: uid 0, inode 55. -/
def root_line : scan4 := ⟨6, 0x0500000A, 4000, 0x22D8B85D, 80, 0, 55⟩

/-- A line on which `sscanf` stops after the uid. -/
def short_line : scan4 := ⟨5, 0x0500000A, 4000, 0x22D8B85D, 80, 77, 0⟩

/-- A well-formed line of another connection. -/
def other_line : scan4 := ⟨6, 0x0100007F, 22, 0x0100007F, 51000, 33, 99⟩

/-- A diagnostics reply for the sample query with the given type, sequence number, uid
and inode. -/
def sample_reply (type seq uid inode : Nat) : nlmsg :=
  ⟨96, type, seq, htons_le 4000, htons_le 80, [0x0500000A, 0, 0, 0], [0x22D8B85D, 0, 0, 0],
    uid, inode⟩

/-- The message type `TCPDIAG_GETSOCK` that a reply to the request carries. -/
def TCPDIAG_GETSOCK : Nat := 18

/-- The IPv6 query local [::1]:4000, foreign [fe80::2]:80 (words as read on a
little-endian host). -/
def sample_query6 : query :=
  ⟨htons_le 4000, htons_le 80, ⟨AF_INET6, 0, [0, 0, 0, 0x01000000]⟩,
    ⟨AF_INET6, 0, [0x000080FE, 0, 0, 0x02000000]⟩⟩

/-- The header line of the IPv6 socket table. -/
def header6 : scan6 := ⟨0, [], 0, [], 0, 0, 0⟩

/-- The table line of the connection of `sample_query6`, uid 1000, inode 56. -/
def sample_line6 : scan6 :=
  ⟨12, [0, 0, 0, 0x01000000], 4000, [0x000080FE, 0, 0, 0x02000000], 80, 1000, 56⟩

/-- A well-formed line of another IPv6 connection. -/
def other_line6 : scan6 :=
  ⟨12, [0, 0, 0, 0x01000000], 22, [0, 0, 0, 0x01000000], 51000, 33, 98⟩

/-- A line of the IPv6 table on which `sscanf` stops early. -/
def short_line6 : scan6 := ⟨3, [0, 0, 0], 0, [], 0, 0, 0⟩

/-- A query through the proxy: local 10.0.0.5:4000, foreign 192.0.2.1:80, the address
of the proxy of `sample_cfg_proxy`. -/
def proxy_query : query := ⟨htons_le 4000, htons_le 80, ipv4_le 10 0 0 5, ipv4_le 192 0 2 1⟩

/-- A table line local 10.0.0.9:4000, foreign 198.51.100.7:80, uid 1000, inode 55: the
ports of `proxy_query`, other addresses, the remote address not the proxy. -/
def proxied_line : scan4 := ⟨6, 0x0900000A, 4000, 0x076433C6, 80, 1000, 55⟩

/-- A table line local 10.0.0.9:4000, foreign 192.0.2.1:80, uid 1000, inode 55: the
ports of `proxy_query`, another local address, the remote address the proxy itself. -/
def to_proxy_line : scan4 := ⟨6, 0x0900000A, 4000, 0x010200C0, 80, 1000, 55⟩

/-- The answers of the operating system for a lookup of `sample_query` in which the
diagnostics channel replies, after one interrupted receive, with uid 1000 and inode 55,
while the table holds the connection as a dead socket. -/
def os_diag_answers : os_env4 :=
  ⟨send_result.ok,
    [recv_result.error EINTR, recv_result.data 96 [sample_reply TCPDIAG_GETSOCK 1 1000 55] false],
    some [header4, dead_line]⟩

/-- The answers of the operating system for a lookup of `sample_query` in which the
diagnostics channel replies with a DONE message and the table holds the connection
with uid 1000. -/
def os_diag_done : os_env4 :=
  ⟨send_result.ok, [recv_result.data 96 [sample_reply NLMSG_DONE 1 0 0] false],
    some [header4, sample_line]⟩

/-- The answers of the operating system for a lookup of `sample_query` in which
`sendmsg` fails with `ECONNREFUSED` and the table holds the connection with uid 1000. -/
def os_refused : os_env4 :=
  ⟨send_result.error ECONNREFUSED, [], some [header4, sample_line]⟩

/-- The answers of the operating system for a lookup of `sample_query6` in which the
diagnostics channel would reply with uid 2000 and the table holds the connection with
uid 1000. -/
def os6_diag_answers : os_env6 :=
  ⟨send_result.ok,
    [recv_result.data 96 [⟨96, TCPDIAG_GETSOCK, 1, htons_le 4000, htons_le 80,
      [0, 0, 0, 0x01000000], [0x000080FE, 0, 0, 0x02000000], 2000, 56⟩] false],
    some [header6, sample_line6]⟩

/-- A build with masquerading and libnfct support. -/
def build_libnfct : Build := ⟨true, true, true⟩

/-- A build with masquerading support and without libnfct support. -/
def build_masq : Build := ⟨true, true, false⟩

/-- A system without the static masquerade table on which both connection-tracking
tables can be opened. -/
def fs_both_tables : ProcFile → fopen_result
  | ProcFile.MASQFILE => fopen_result.error ENOENT
  | _ => fopen_result.ok

/-- A system on which only the legacy connection-tracking table can be opened. -/
def fs_legacy_only : ProcFile → fopen_result
  | ProcFile.IPCONNTRACK => fopen_result.ok
  | _ => fopen_result.error ENOENT

/-- A system on which none of the files exists. -/
def fs_none : ProcFile → fopen_result
  | _ => fopen_result.error ENOENT

/-- The errno value "Permission denied". -/
def EACCES : Nat := 13

/-- A system without the static masquerade table on which opening the modern
connection-tracking table is refused, the legacy one being there. -/
def fs_denied : ProcFile → fopen_result
  | ProcFile.MASQFILE => fopen_result.error ENOENT
  | ProcFile.NFCONNTRACK => fopen_result.error EACCES
  | _ => fopen_result.ok

/-! ## The function `sscanf` of the C library -/

/-- The test `isspace` in the C locale. -/
def isspace (c : Char) : Bool :=
  c.toNat = 32 || (9 ≤ c.toNat && c.toNat ≤ 13)

/-- The test `isdigit`. -/
def isdigit (c : Char) : Bool := 48 ≤ c.toNat && c.toNat ≤ 57

/-- The test `isxdigit`. -/
def isxdigit (c : Char) : Bool :=
  isdigit c || (65 ≤ c.toNat && c.toNat ≤ 70) || (97 ≤ c.toNat && c.toNat ≤ 102)

/-- The value of a hexadecimal digit. -/
def xdigit_value (c : Char) : Nat :=
  if isdigit c then c.toNat - 48
  else if 97 ≤ c.toNat then c.toNat - 87
  else c.toNat - 55

/-- The conversions used by the formats of this module: `%s`, `%d`, `%u` and `%x`
(also written `%X`). -/
inductive conv_kind where
  | s
  | d
  | u
  | x
deriving DecidableEq, Repr

/-- One directive of a `scanf` format: white space, an ordinary character, or a
conversion with its assignment-suppressing `*` and its field width. -/
inductive directive where
  | ws
  | lit (c : Char)
  | conv (suppress : Bool) (width : Option Nat) (kind : conv_kind)
deriving DecidableEq, Repr

/-- What the format reader is in the middle of: ordinary text, or a conversion
specification after its `%`. -/
inductive fmt_state where
  | text
  | spec (suppress : Bool) (width : Option Nat)
deriving DecidableEq, Repr

/-- The conversion a conversion character stands for. -/
def conv_of (c : Char) : Option conv_kind :=
  if c = 's' then some conv_kind.s
  else if c = 'd' then some conv_kind.d
  else if c = 'u' then some conv_kind.u
  else if c = 'x' ∨ c = 'X' then some conv_kind.x
  else none

/-- The directives of a format string, read left to right. The length modifiers `l`
and `h` do not change what a conversion matches and are passed over. -/
def parse_format_go : fmt_state → List Char → List directive
  | _, [] => []
  | fmt_state.text, c :: cs =>
    if c = '%' then parse_format_go (fmt_state.spec false none) cs
    else if isspace c then directive.ws :: parse_format_go fmt_state.text cs
    else directive.lit c :: parse_format_go fmt_state.text cs
  | fmt_state.spec suppress width, c :: cs =>
    if c = '*' then parse_format_go (fmt_state.spec true width) cs
    else if isdigit c then
      parse_format_go (fmt_state.spec suppress (some (10 * width.getD 0 + (c.toNat - 48)))) cs
    else if c = 'l' ∨ c = 'h' then parse_format_go (fmt_state.spec suppress width) cs
    else
      match conv_of c with
      | some kind => directive.conv suppress width kind :: parse_format_go fmt_state.text cs
      | none => directive.lit c :: parse_format_go fmt_state.text cs

/-- The directives of a format string. -/
def parse_format (format : String) : List directive :=
  parse_format_go fmt_state.text format.toList

/-- A value `sscanf` stores: the characters of a `%s` item, or the 32-bit pattern of
an `int` or `unsigned int`. -/
inductive scan_value where
  | str (s : List Char)
  | int (v : Nat)
deriving DecidableEq, Repr

/-- What one directive does with the input: it succeeds, leaving the rest of the
input and possibly a converted value, or fails for a mismatch, or fails because the
input has ended. -/
inductive step_result where
  | ok (rest : List Char) (value : Option scan_value)
  | matching_failure
  | input_failure
deriving DecidableEq, Repr

/-- The part of the input a conversion with the given field width may read. -/
def field (width : Option Nat) (input : List Char) : List Char :=
  match width with
  | none => input
  | some w => input.take w

/-- The value of a run of digits in the given base. -/
def digits_value (base : Nat) (ds : List Char) : Nat :=
  ds.foldl (fun acc c => base * acc + xdigit_value c) 0

/-- What `%d` stores for a sign and a run of decimal digits: the result of `strtol`,
a `long` of 64 bits that saturates, cast to `int`. -/
def strtol_int (negative : Bool) (ds : List Char) : Nat :=
  if negative then (2 ^ 64 - min (digits_value 10 ds) (2 ^ 63)) % 2 ^ 32
  else min (digits_value 10 ds) (2 ^ 63 - 1) % 2 ^ 32

/-- What `%u` and `%x` store for a sign and a run of digits: the result of `strtoul`,
an `unsigned long` of 64 bits that saturates, cast to `unsigned int`. -/
def strtoul_uint (base : Nat) (negative : Bool) (ds : List Char) : Nat :=
  if 2 ^ 64 ≤ digits_value base ds then (2 ^ 64 - 1) % 2 ^ 32
  else if negative then (2 ^ 64 - digits_value base ds) % 2 ^ 32
  else digits_value base ds % 2 ^ 32

/-- The sign at the head of a numeric field: whether it is `-`, and the field after
the sign. -/
def read_sign (fld : List Char) : Bool × List Char :=
  match fld with
  | c :: cs => if c = '-' then (true, cs) else if c = '+' then (false, cs) else (false, fld)
  | [] => (false, [])

/-- The hexadecimal prefix `0x` or `0X` at the head of a field after the sign, if
there is one, is read; its `0` counts as a digit. -/
def read_0x (fld : List Char) : Bool × List Char :=
  match fld with
  | c0 :: c1 :: cs =>
    if c0 = '0' ∧ (c1 = 'x' ∨ c1 = 'X') then (true, cs) else (false, fld)
  | _ => (false, fld)

/-- One conversion on input whose leading white space has been skipped. -/
def scan_conv (width : Option Nat) (kind : conv_kind) (input : List Char) : step_result :=
  if input = [] then step_result.input_failure
  else
    match kind with
    | conv_kind.s =>
      let item := (field width input).takeWhile (fun c => !isspace c)
      step_result.ok (input.drop item.length) (some (scan_value.str item))
    | conv_kind.d =>
      let sg := read_sign (field width input)
      let ds := sg.2.takeWhile isdigit
      if ds = [] then step_result.matching_failure
      else
        step_result.ok (input.drop ((field width input).length - sg.2.length + ds.length))
          (some (scan_value.int (strtol_int sg.1 ds)))
    | conv_kind.u =>
      let sg := read_sign (field width input)
      let ds := sg.2.takeWhile isdigit
      if ds = [] then step_result.matching_failure
      else
        step_result.ok (input.drop ((field width input).length - sg.2.length + ds.length))
          (some (scan_value.int (strtoul_uint 10 sg.1 ds)))
    | conv_kind.x =>
      let sg := read_sign (field width input)
      let px := read_0x sg.2
      let ds := px.2.takeWhile isxdigit
      if ds = [] ∧ px.1 = false then step_result.matching_failure
      else
        step_result.ok (input.drop ((field width input).length - px.2.length + ds.length))
          (some (scan_value.int (strtoul_uint 16 sg.1 ds)))

/-- One directive. -/
def scan_step : directive → List Char → step_result
  | directive.ws, input => step_result.ok (input.dropWhile isspace) none
  | directive.lit _, [] => step_result.input_failure
  | directive.lit c, c1 :: rest =>
    if c1 = c then step_result.ok rest none else step_result.matching_failure
  | directive.conv suppress width kind, input =>
    match scan_conv width kind (input.dropWhile isspace) with
    | step_result.ok rest value => step_result.ok rest (if suppress then none else value)
    | r => r

/-- What `sscanf` hands back: its return value and the values it has assigned, in the
order of the arguments. -/
structure sscanf_result where
  ret : Int
  vals : List scan_value
deriving DecidableEq, Repr

/-- The directives of a format run one after the other on the input; `vals` are the
values assigned so far. A mismatch ends the call with the number of assignments; the
end of the input ends it with that number, or with `EOF` (-1) when nothing has been
assigned yet. -/
def sscanf_go : List directive → List Char → List scan_value → sscanf_result
  | [], _, vals => ⟨vals.length, vals⟩
  | d :: ds, input, vals =>
    match scan_step d input with
    | step_result.ok rest none => sscanf_go ds rest vals
    | step_result.ok rest (some v) => sscanf_go ds rest (vals ++ [v])
    | step_result.matching_failure => ⟨vals.length, vals⟩
    | step_result.input_failure => ⟨if vals = [] then -1 else vals.length, vals⟩

/-- The call `sscanf(input, format, ...)`. -/
def sscanf (input : List Char) (format : String) : sscanf_result :=
  sscanf_go (parse_format format) input []

/-! ## The masquerade resolver -/

/-- The function `htons`; on 16 bits it is the same map as `ntohs`. -/
def htons (big_endian : Bool) (x : Nat) : Nat := ntohs big_endian x

/-- The function `htonl` on a 32-bit value: the identity on a big-endian host, the
reversal of the four bytes on a little-endian one. -/
def htonl (big_endian : Bool) (x : Nat) : Nat :=
  if big_endian then x % 4294967296
  else (x % 256) * 16777216 + (x / 256 % 256) * 65536 + (x / 65536 % 256) * 256 +
    x / 16777216 % 256

/-- The function `ntohl`; it is the same map as `htonl`. -/
def ntohl (big_endian : Bool) (x : Nat) : Nat := htonl big_endian x

/-- The function `tolower` in the C locale. -/
def tolower (c : Char) : Char :=
  if 65 ≤ c.toNat ∧ c.toNat ≤ 90 then Char.ofNat (c.toNat + 32) else c

/-- The test `!strcasecmp(a, b)`: the two strings agree up to the case of letters. -/
def strcasecmp_eq (a : List Char) (b : String) : Prop :=
  a.map tolower = b.toList.map tolower

instance (a : List Char) (b : String) :
    Decidable (strcasecmp_eq a b) := by
  delta strcasecmp_eq; exact inferInstance

/-- Modelled from the spec: `sin_setv4` of `inet_util.c` (not among the sources) makes
an IPv4 endpoint of a 32-bit address in network byte order. -/
def sin_setv4 (addr : Nat) : sockaddr_storage := ⟨AF_INET, addr, []⟩

/-- The integer at position `i` of the values assigned by `sscanf`. -/
def int_at (vals : List scan_value) (i : Nat) : Nat :=
  match vals.get? i with
  | some (scan_value.int v) => v
  | _ => 0

/-- The string at position `i` of the values assigned by `sscanf`. -/
def str_at (vals : List scan_value) (i : Nat) : List Char :=
  match vals.get? i with
  | some (scan_value.str s) => s
  | _ => []

/-- The expression `a << 24 | b << 16 | c << 8 | d` on four `int` values, stored into
an `in_addr_t`; the values are 32-bit patterns and a shift keeps the low 32 bits. -/
def pack_octets (a b c d : Nat) : Nat :=
  (a <<< 24) % 4294967296 ||| (b <<< 16) % 4294967296 ||| (c <<< 8) % 4294967296 ||| d

/-- The variables of `masq_ct_line` once a line has been parsed: the protocol name,
the four ports as the 32-bit values `sscanf` stored, and the four addresses. -/
structure ct_record where
  proto : List Char
  mport_temp : Nat
  nport_temp : Nat
  masq_lport_temp : Nat
  masq_fport_temp : Nat
  localm : Nat
  remotem : Nat
  localn : Nat
  remoten : Nat
deriving DecidableEq, Repr

/-- What the environment supplies while `masq_ct_line` works on one line: the answers
of the operating system during the inner `get_user4` call and the indeterminate initial
values of that function's locals `uid` and `inode`; the indeterminate initial values of
the locals `localn` and `remoten`; and the indeterminate value the caller reads when
control reaches the end of `masq_ct_line` without a `return`. -/
structure ct_env where
  os : os_env4
  uid : Nat
  inode : Nat
  localn : Nat
  remoten : Nat
  undef : Int
deriving Repr

/-- The outcome of the first part of `masq_ct_line`, up to the `else return -1`: a
`return 1`, a `return -1`, or the parsed variables. -/
inductive parse_result where
  | reject
  | error
  | record (r : ct_record)
deriving DecidableEq, Repr

/-- The format of a line of `/proc/net/ip_masquerade`. -/
def FMT_MASQFILE : String := "%15s %X:%X %X:%X %X %X %*d %*d %*u"

/-- The first format tried on a line of `/proc/net/ip_conntrack`. -/
def FMT_IPCONNTRACK : String :=
  "%15s %*d %*d ESTABLISHED src=%d.%d.%d.%d dst=%d.%d.%d.%d sport=%d dport=%d src=%d.%d.%d.%d dst=%d.%d.%d.%d sport=%d dport=%d"

/-- The second format tried on a line of `/proc/net/ip_conntrack`. -/
def FMT_IPCONNTRACK_ACCT : String :=
  "%15s %*d %*d ESTABLISHED src=%d.%d.%d.%d dst=%d.%d.%d.%d sport=%d dport=%d packets=%*d bytes=%*d src=%d.%d.%d.%d dst=%d.%d.%d.%d sport=%d dport=%d"

/-- The first format tried on a line of `/proc/net/nf_conntrack` or on a record of the
live channel. -/
def FMT_NFCONNTRACK_ACCT : String :=
  "%15s %*d %15s %*d %*d ESTABLISHED src=%d.%d.%d.%d dst=%d.%d.%d.%d sport=%d dport=%d packets=%*d bytes=%*d src=%d.%d.%d.%d dst=%d.%d.%d.%d sport=%d dport=%d"

/-- The second format tried on a line of `/proc/net/nf_conntrack` or on a record of the
live channel. -/
def FMT_NFCONNTRACK : String :=
  "%15s %*d %15s %*d %*d ESTABLISHED src=%d.%d.%d.%d dst=%d.%d.%d.%d sport=%d dport=%d src=%d.%d.%d.%d dst=%d.%d.%d.%d sport=%d dport=%d"

/-- The variables of the two connection-tracking branches from the values assigned by
a successful `sscanf`; `k` is the position of `proto` among them. -/
def ct_record_of (vals : List scan_value) (k : Nat) : ct_record :=
  { proto := str_at vals k
    masq_lport_temp := int_at vals (k + 9)
    masq_fport_temp := int_at vals (k + 10)
    nport_temp := int_at vals (k + 19)
    mport_temp := int_at vals (k + 20)
    localm := pack_octets (int_at vals (k + 1)) (int_at vals (k + 2)) (int_at vals (k + 3))
      (int_at vals (k + 4))
    remotem := pack_octets (int_at vals (k + 5)) (int_at vals (k + 6)) (int_at vals (k + 7))
      (int_at vals (k + 8))
    localn := pack_octets (int_at vals (k + 11)) (int_at vals (k + 12))
      (int_at vals (k + 13)) (int_at vals (k + 14))
    remoten := pack_octets (int_at vals (k + 15)) (int_at vals (k + 16))
      (int_at vals (k + 17)) (int_at vals (k + 18)) }

/-- The first part of `masq_ct_line`: the branch of the active variant parses the
line. `libnfct` tells whether the build has `LIBNFCT_SUPPORT`. -/
def masq_ct_parse (libnfct : Bool) (conntrack : conntrack_t) (env : ct_env)
    (line : List Char) : parse_result :=
  if conntrack = conntrack_t.CT_MASQFILE then
    let r := sscanf line FMT_MASQFILE
    if r.ret ≠ 7 then parse_result.reject
    else
      parse_result.record
        { proto := str_at r.vals 0
          localm := int_at r.vals 1
          masq_lport_temp := int_at r.vals 2
          remotem := int_at r.vals 3
          masq_fport_temp := int_at r.vals 4
          mport_temp := int_at r.vals 5
          nport_temp := int_at r.vals 6
          localn := env.localn
          remoten := env.remoten }
  else if conntrack = conntrack_t.CT_IPCONNTRACK then
    let r1 := sscanf line FMT_IPCONNTRACK
    let r := if r1.ret ≠ 21 then sscanf line FMT_IPCONNTRACK_ACCT else r1
    if r.ret ≠ 21 then parse_result.reject
    else parse_result.record (ct_record_of r.vals 0)
  else if conntrack = conntrack_t.CT_NFCONNTRACK ∨
      (libnfct = true ∧ conntrack = conntrack_t.CT_LIBNFCT) then
    let r1 := sscanf line FMT_NFCONNTRACK_ACCT
    let r := if r1.ret ≠ 22 then sscanf line FMT_NFCONNTRACK else r1
    if r.ret ≠ 22 then parse_result.reject
    else if ¬ strcasecmp_eq (str_at r.vals 0) "ipv4" then parse_result.reject
    else parse_result.record (ct_record_of r.vals 1)
  else parse_result.error

/-- What the resolver reads of the process configuration beyond `Config`: whether the
build has `LIBNFCT_SUPPORT`, the active variant `conntrack`, the options FORWARD and
MASQ_OVERRIDE, the global `ret_os`, and the macro `ERROR` of `oidentd.h` (not among
the sources), which maps the name of an error to the text reported for it. -/
structure MasqConfig where
  base : Config
  libnfct : Bool
  conntrack : conntrack_t
  opt_FORWARD : Bool
  opt_MASQ_OVERRIDE : Bool
  ret_os : String
  ERROR : String → String

/-- An entry of the password database, as far as it is used here. -/
structure passwd where
  pw_name : String
  pw_uid : Nat
deriving DecidableEq, Repr

/-- The collaborators of the resolver that are not among the sources, as functions of
their arguments: `getpwuid`; `get_ident`, which returns -1 for a hidden user and
otherwise fills in the reported user name; `find_masq_entry`, which returns 0 and the
user and operating-system strings of the override table when it has an entry for the
address; and `fwd_request`, which returns 0 when the query has been forwarded and
answered. -/
structure Collab where
  getpwuid : Nat → Option passwd
  get_ident : passwd → Nat → Nat → sockaddr_storage → sockaddr_storage → Int × String
  find_masq_entry : sockaddr_storage → Int × String × String
  fwd_request : Int → Nat → Nat → Nat → Nat → sockaddr_storage → Int

/-- What the resolver does that the properties below speak of: the system calls of an
inner lookup, the calls of `get_user4`, `find_masq_entry` and `fwd_request`, the lines
written to the client socket with `sockprintf`, the reading of the tracking table, the
calls of the libnfct library, and the handing of a line to `masq_ct_line`. -/
inductive MasqEvent where
  | sys (e : Event)
  | get_user4 (lport fport : Nat) (laddr faddr : sockaddr_storage)
  | find_masq_entry (addr : sockaddr_storage)
  | fwd_request (sock : Int) (lport masq_lport fport masq_fport : Nat)
      (addr : sockaddr_storage)
  | sockprintf (sock : Int) (text : String)
  | rewind
  | fgets
  | nfct_open
  | nfct_callback_register
  | nfct_query
  | callback_nfct
  | nfct_close
  | ct_line (line : List Char)
deriving DecidableEq, Repr

/-- What `masq_ct_line` hands back: its return value, the value of `netlink_sock`
afterwards, and what it did, in order. -/
structure ct_result where
  ret : Int
  netlink_sock : Int
  trace : List MasqEvent
deriving DecidableEq, Repr

/-- The text of `sockprintf(sock, "%d,%d:ERROR:%s\r\n", lport, fport, reason)`. -/
def error_line (lport fport : Nat) (reason : String) : String :=
  toString lport ++ "," ++ toString fport ++ ":ERROR:" ++ reason ++ "\r\n"

/-- The text of `sockprintf(sock, "%d,%d:USERID:%s:%s\r\n", lport, fport, os, user)`. -/
def userid_line (lport fport : Nat) (os user : String) : String :=
  toString lport ++ "," ++ toString fport ++ ":USERID:" ++ os ++ ":" ++ user ++ "\r\n"

/-- The block `if (localm == remoten) { ... }` of `masq_ct_line`, the local NAT case. -/
def masq_ct_local_nat (mc : MasqConfig) (co : Collab) (netlink_sock : Int) (env : ct_env)
    (sock : Int) (lport fport : Nat) (laddr faddr : sockaddr_storage) (r : ct_record) :
    Option ct_result :=
  let masq_lport := r.masq_lport_temp % 65536
  let masq_fport := r.masq_fport_temp % 65536
  let ss := sin_setv4 (htonl mc.base.big_endian r.remotem)
  if faddr.ss_family = AF_INET then
    let q : query := ⟨htons mc.base.big_endian masq_lport, htons mc.base.big_endian masq_fport,
      laddr, ss⟩
    match get_user4 mc.base netlink_sock env.os q env.uid env.inode with
    | none => none
    | some g =>
      let called := MasqEvent.get_user4 q.lport q.fport laddr ss :: g.trace.map MasqEvent.sys
      if g.uid = MISSING_UID then some ⟨-1, g.netlink_sock, called⟩
      else
        match co.getpwuid g.uid with
        | none =>
          some ⟨0, g.netlink_sock,
            called ++ [MasqEvent.sockprintf sock (error_line lport fport (mc.ERROR "NO-USER"))]⟩
        | some pw =>
          let ident := co.get_ident pw masq_lport masq_fport laddr ss
          if ident.1 = -1 then
            some ⟨0, g.netlink_sock,
              called ++
                [MasqEvent.sockprintf sock (error_line lport fport (mc.ERROR "HIDDEN-USER"))]⟩
          else
            some ⟨0, g.netlink_sock,
              called ++ [MasqEvent.sockprintf sock (userid_line lport fport mc.ret_os ident.2)]⟩
  else some ⟨-1, netlink_sock, []⟩

/-- The end of `masq_ct_line`, from `sin_setv4(htonl(localm), &ss)` on: the override
table, forwarding, and the answer from the override table. When neither answers,
control reaches the end of the function and the caller reads an indeterminate value. -/
def masq_ct_forward (mc : MasqConfig) (co : Collab) (netlink_sock : Int) (env : ct_env)
    (sock : Int) (lport fport : Nat) (r : ct_record) : ct_result :=
  let masq_lport := r.masq_lport_temp % 65536
  let masq_fport := r.masq_fport_temp % 65536
  let ss := sin_setv4 (htonl mc.base.big_endian r.localm)
  let found := co.find_masq_entry ss
  if mc.opt_FORWARD = true ∧ (found.1 ≠ 0 ∨ ¬ mc.opt_MASQ_OVERRIDE = true) then
    if co.fwd_request sock lport masq_lport fport masq_fport ss = 0 then
      ⟨0, netlink_sock,
        [MasqEvent.find_masq_entry ss,
          MasqEvent.fwd_request sock lport masq_lport fport masq_fport ss]⟩
    else if found.1 = 0 then
      ⟨0, netlink_sock,
        [MasqEvent.find_masq_entry ss,
          MasqEvent.fwd_request sock lport masq_lport fport masq_fport ss,
          MasqEvent.sockprintf sock (userid_line lport fport found.2.2 found.2.1)]⟩
    else
      ⟨env.undef, netlink_sock,
        [MasqEvent.find_masq_entry ss,
          MasqEvent.fwd_request sock lport masq_lport fport masq_fport ss]⟩
  else if found.1 = 0 then
    ⟨0, netlink_sock,
      [MasqEvent.find_masq_entry ss,
        MasqEvent.sockprintf sock (userid_line lport fport found.2.2 found.2.1)]⟩
  else ⟨env.undef, netlink_sock, [MasqEvent.find_masq_entry ss]⟩

/-- The part of `masq_ct_line` after the protocol and port tests: the local NAT case,
the proxy tests, and the end of the function. -/
def masq_ct_resolve (mc : MasqConfig) (co : Collab) (netlink_sock : Int) (env : ct_env)
    (sock : Int) (lport fport : Nat) (laddr faddr : sockaddr_storage) (r : ct_record) :
    Option ct_result :=
  if r.localm = r.remoten then
    masq_ct_local_nat mc co netlink_sock env sock lport fport laddr faddr r
  else if r.localn ≠ ntohl mc.base.big_endian faddr.s_addr then
    if ¬ mc.base.opt_PROXY = true then some ⟨1, netlink_sock, []⟩
    else if faddr.s_addr ≠ mc.base.proxy.s_addr then some ⟨1, netlink_sock, []⟩
    else if r.localn = mc.base.proxy.s_addr then some ⟨1, netlink_sock, []⟩
    else some (masq_ct_forward mc co netlink_sock env sock lport fport r)
  else some (masq_ct_forward mc co netlink_sock env sock lport fport r)

/-- The tests of `masq_ct_line` on the parsed variables, `strcasecmp(proto, "tcp")`
and the two port tests after the casts to `in_port_t`, followed by the rest of the
function. -/
def masq_ct_checks (mc : MasqConfig) (co : Collab) (netlink_sock : Int) (env : ct_env)
    (sock : Int) (lport fport : Nat) (laddr faddr : sockaddr_storage) (r : ct_record) :
    Option ct_result :=
  if ¬ strcasecmp_eq r.proto "tcp" then some ⟨1, netlink_sock, []⟩
  else if r.mport_temp % 65536 ≠ lport then some ⟨1, netlink_sock, []⟩
  else if r.nport_temp % 65536 ≠ fport then some ⟨1, netlink_sock, []⟩
  else masq_ct_resolve mc co netlink_sock env sock lport fport laddr faddr r

/-- The function `masq_ct_line`; `lport` and `fport` are in host byte order. -/
def masq_ct_line (mc : MasqConfig) (co : Collab) (netlink_sock : Int) (env : ct_env)
    (line : List Char) (sock : Int) (lport fport : Nat) (laddr faddr : sockaddr_storage) :
    Option ct_result :=
  match masq_ct_parse mc.libnfct mc.conntrack env line with
  | parse_result.error => some ⟨-1, netlink_sock, []⟩
  | parse_result.reject => some ⟨1, netlink_sock, []⟩
  | parse_result.record r =>
    masq_ct_checks mc co netlink_sock env sock lport fport laddr faddr r

/-- What `masq` hands back: its return value, the value of `netlink_sock` afterwards,
and what it did, in order. -/
structure masq_result where
  ret : Bool
  netlink_sock : Int
  trace : List MasqEvent
deriving DecidableEq, Repr

/-- The loop `while (fgets(buf, sizeof(buf), masq_fp))` of `masq` over the lines left
in the file, each with what the environment supplies while `masq_ct_line` works on
it. -/
def masq_file_loop (mc : MasqConfig) (co : Collab) (sock : Int) (lport fport : Nat)
    (laddr faddr : sockaddr_storage) : Int → List (List Char × ct_env) → Option masq_result
  | netlink_sock, [] => some ⟨false, netlink_sock, [MasqEvent.fgets]⟩
  | netlink_sock, (line, env) :: rest =>
    match masq_ct_line mc co netlink_sock env line sock lport fport laddr faddr with
    | none => none
    | some r =>
      if r.ret = 1 then
        match masq_file_loop mc co sock lport fport laddr faddr r.netlink_sock rest with
        | none => none
        | some m =>
          some ⟨m.ret, m.netlink_sock,
            MasqEvent.fgets :: MasqEvent.ct_line line :: (r.trace ++ m.trace)⟩
      else
        some ⟨decide (r.ret = 0), r.netlink_sock,
          MasqEvent.fgets :: MasqEvent.ct_line line :: r.trace⟩

/-- What the libnfct library answers during one `dispatch_libnfct_query`: whether
`nfct_open` returns a handle, the return values of `nfct_callback_register`,
`nfct_query` and `nfct_close`, and the dump: for each connection delivered to the
callback, the text `nfct_snprintf` renders for it, with what the environment supplies
while `masq_ct_line` works on it. -/
structure nfct_env where
  open_ok : Bool
  register_ret : Int
  query_ret : Int
  close_ret : Int
  dump : List (List Char × ct_env)

/-- The calls of `callback_nfct` made by `nfct_query` over the connections left in the
dump: it goes on after `NFCT_CB_CONTINUE` and ends after `NFCT_CB_STOP`. The result is
the field `status` of the query, the value of `netlink_sock`, and what was done. -/
def nfct_dump_loop (mc : MasqConfig) (co : Collab) (sock : Int) (lport fport : Nat)
    (laddr faddr : sockaddr_storage) :
    Int → Int → List (List Char × ct_env) → Option (Int × Int × List MasqEvent)
  | netlink_sock, status, [] => some (status, netlink_sock, [])
  | netlink_sock, status, (line, env) :: rest =>
    match masq_ct_line mc co netlink_sock env line sock lport fport laddr faddr with
    | none => none
    | some r =>
      if r.ret = 1 then
        match nfct_dump_loop mc co sock lport fport laddr faddr r.netlink_sock status rest with
        | none => none
        | some (st, ns, tr) =>
          some (st, ns, MasqEvent.callback_nfct :: MasqEvent.ct_line line :: (r.trace ++ tr))
      else
        some (r.ret, r.netlink_sock,
          MasqEvent.callback_nfct :: MasqEvent.ct_line line :: r.trace)

/-- The function `dispatch_libnfct_query` on a query whose field `status` is 1. -/
def dispatch_libnfct_query (mc : MasqConfig) (co : Collab) (netlink_sock : Int)
    (nf : nfct_env) (sock : Int) (lport fport : Nat) (laddr faddr : sockaddr_storage) :
    Option masq_result :=
  if nf.open_ok = false then some ⟨false, netlink_sock, [MasqEvent.nfct_open]⟩
  else if nf.register_ret ≠ 0 then
    some ⟨false, netlink_sock, [MasqEvent.nfct_open, MasqEvent.nfct_callback_register]⟩
  else
    match nfct_dump_loop mc co sock lport fport laddr faddr netlink_sock 1 nf.dump with
    | none => none
    | some (status, ns, tr) =>
      if nf.query_ret ≠ 0 then
        some ⟨false, ns,
          MasqEvent.nfct_open :: MasqEvent.nfct_callback_register :: MasqEvent.nfct_query :: tr⟩
      else if nf.close_ret ≠ 0 then
        some ⟨false, ns,
          MasqEvent.nfct_open :: MasqEvent.nfct_callback_register :: MasqEvent.nfct_query ::
            (tr ++ [MasqEvent.nfct_close])⟩
      else
        some ⟨decide (status = 0), ns,
          MasqEvent.nfct_open :: MasqEvent.nfct_callback_register :: MasqEvent.nfct_query ::
            (tr ++ [MasqEvent.nfct_close])⟩

/-- The function `masq`; `lport` and `fport` are in network byte order, `file` is the
content of `masq_fp` from its start, line by line, and `nf` what libnfct answers. -/
def masq (mc : MasqConfig) (co : Collab) (netlink_sock : Int)
    (file : List (List Char × ct_env)) (nf : nfct_env) (sock : Int) (lport fport : Nat)
    (laddr faddr : sockaddr_storage) : Option masq_result :=
  if faddr.ss_family ≠ AF_INET then some ⟨false, netlink_sock, []⟩
  else if mc.libnfct = true ∧ mc.conntrack = conntrack_t.CT_LIBNFCT then
    dispatch_libnfct_query mc co netlink_sock nf sock (ntohs mc.base.big_endian lport)
      (ntohs mc.base.big_endian fport) laddr faddr
  else if mc.conntrack = conntrack_t.CT_MASQFILE then
    match masq_file_loop mc co sock (ntohs mc.base.big_endian lport)
        (ntohs mc.base.big_endian fport) laddr faddr netlink_sock (file.drop 1) with
    | none => none
    | some m => some ⟨m.ret, m.netlink_sock, MasqEvent.rewind :: MasqEvent.fgets :: m.trace⟩
  else
    match masq_file_loop mc co sock (ntohs mc.base.big_endian lport)
        (ntohs mc.base.big_endian fport) laddr faddr netlink_sock file with
    | none => none
    | some m => some ⟨m.ret, m.netlink_sock, MasqEvent.rewind :: m.trace⟩

/-! ## Privilege retention -/

/-- Modelled from the spec: the sentinel "missing" group id; `missing.h`, which
defines `MISSING_GID` as `(gid_t) -1`, is not among the sources. -/
def MISSING_GID : Nat := 4294967295

/-- The two options `drop_privs_libnfct` reads and disables. -/
structure privs_state where
  opt_CHANGE_UID : Bool
  opt_CHANGE_GID : Bool
deriving DecidableEq, Repr

/-- The calls of the libcap-ng library. -/
inductive CapEvent where
  | capng_clear
  | capng_update
  | capng_change_id (uid gid : Nat)
deriving DecidableEq, Repr

/-- What `drop_privs_libnfct` hands back: its return value, the options afterwards and
the library calls made, in order. -/
structure privs_result where
  ret : Bool
  state : privs_state
  trace : List CapEvent
deriving DecidableEq, Repr

/-- The function `drop_privs_libnfct`; `update_ret` is the return value of
`capng_update` and `change_id_ret` that of `capng_change_id` on the given ids. -/
def drop_privs_libnfct (conntrack : conntrack_t) (update_ret : Int)
    (change_id_ret : Nat → Nat → Int) (s : privs_state) (uid gid : Nat) : privs_result :=
  if conntrack ≠ conntrack_t.CT_LIBNFCT then ⟨true, s, []⟩
  else if update_ret ≠ 0 then ⟨false, s, [CapEvent.capng_clear, CapEvent.capng_update]⟩
  else
    let uid1 := if s.opt_CHANGE_UID = true then uid else MISSING_UID
    let gid1 := if s.opt_CHANGE_GID = true then gid else MISSING_GID
    if change_id_ret uid1 gid1 ≠ 0 then
      ⟨false, s,
        [CapEvent.capng_clear, CapEvent.capng_update, CapEvent.capng_change_id uid1 gid1]⟩
    else
      ⟨true, ⟨false, false⟩,
        [CapEvent.capng_clear, CapEvent.capng_update, CapEvent.capng_change_id uid1 gid1]⟩

/-- The lines handed to `masq_ct_line` according to a trace, in order. -/
def lines_handled : List MasqEvent → List (List Char)
  | [] => []
  | MasqEvent.ct_line line :: rest => line :: lines_handled rest
  | _ :: rest => lines_handled rest

/-- An event of reading the tracking table or of talking to the libnfct library, as
opposed to an event of handling a record. -/
def is_framing : MasqEvent → Bool
  | MasqEvent.rewind => true
  | MasqEvent.fgets => true
  | MasqEvent.nfct_open => true
  | MasqEvent.nfct_callback_register => true
  | MasqEvent.nfct_query => true
  | MasqEvent.callback_nfct => true
  | MasqEvent.nfct_close => true
  | _ => false

/-- The events of handling records in a trace: which lines were handed to
`masq_ct_line` and what it did on each. -/
def record_events (trace : List MasqEvent) : List MasqEvent :=
  trace.filter (fun e => !is_framing e)

/-- An event of writing to the client socket. -/
def is_sockprintf : MasqEvent → Bool
  | MasqEvent.sockprintf _ _ => true
  | _ => false

/-- An event of calling `get_user4`, `find_masq_entry` or `fwd_request`. -/
def is_lookup_call : MasqEvent → Bool
  | MasqEvent.get_user4 _ _ _ _ => true
  | MasqEvent.find_masq_entry _ => true
  | MasqEvent.fwd_request _ _ _ _ _ _ => true
  | _ => false

/-! ## Lines of the connection-tracking tables -/

/-- A number as the kernel prints it: a non-empty run of decimal digits. -/
def is_number (ds : List Char) : Prop := ds ≠ [] ∧ ∀ c ∈ ds, isdigit c = true

instance (ds : List Char) : Decidable (is_number ds) := by
  delta is_number; exact inferInstance

/-- A name as the kernel prints it: at least one and at most 15 characters, none of
them white space. -/
def is_name (s : List Char) : Prop :=
  s ≠ [] ∧ s.length ≤ 15 ∧ ∀ c ∈ s, isspace c = false

instance (s : List Char) : Decidable (is_name s) := by
  delta is_name; exact inferInstance

/-- A text that does not go on with a digit: it is empty or its first character is no
digit. -/
def starts_nondigit : List Char → Prop
  | [] => True
  | c :: _ => isdigit c = false

instance : (l : List Char) → Decidable (starts_nondigit l)
  | [] => isTrue trivial
  | c :: _ => inferInstanceAs (Decidable (isdigit c = false))

/-- A text that does not go on with white space. -/
def starts_nonspace : List Char → Prop
  | [] => True
  | c :: _ => isspace c = false

instance : (l : List Char) → Decidable (starts_nonspace l)
  | [] => isTrue trivial
  | c :: _ => inferInstanceAs (Decidable (isspace c = false))

/-- The texts of one tuple of a line: the four decimal octets of the source address,
those of the destination address, and the two ports. -/
structure tuple_text where
  s1 : List Char
  s2 : List Char
  s3 : List Char
  s4 : List Char
  d1 : List Char
  d2 : List Char
  d3 : List Char
  d4 : List Char
  sport : List Char
  dport : List Char

/-- All ten fields of a tuple are numbers. -/
def tuple_text.well_formed (t : tuple_text) : Prop :=
  is_number t.s1 ∧ is_number t.s2 ∧ is_number t.s3 ∧ is_number t.s4 ∧
  is_number t.d1 ∧ is_number t.d2 ∧ is_number t.d3 ∧ is_number t.d4 ∧
  is_number t.sport ∧ is_number t.dport

instance (t : tuple_text) : Decidable t.well_formed := by
  delta tuple_text.well_formed; exact inferInstance

/-- The text ` src=a.b.c.d dst=a.b.c.d sport=p dport=p` of a tuple, with the space in
front of it. -/
def tuple_text.render (t : tuple_text) : List Char :=
  ' ' :: ("src=".toList ++ (t.s1 ++ '.' :: (t.s2 ++ '.' :: (t.s3 ++ '.' :: (t.s4 ++
  ' ' :: ("dst=".toList ++ (t.d1 ++ '.' :: (t.d2 ++ '.' :: (t.d3 ++ '.' :: (t.d4 ++
  ' ' :: ("sport=".toList ++ (t.sport ++
  ' ' :: ("dport=".toList ++ t.dport)))))))))))))

/-- The values `sscanf` assigns for a tuple. -/
def tuple_text.vals (t : tuple_text) : List scan_value :=
  [scan_value.int (strtol_int false t.s1), scan_value.int (strtol_int false t.s2),
    scan_value.int (strtol_int false t.s3), scan_value.int (strtol_int false t.s4),
    scan_value.int (strtol_int false t.d1), scan_value.int (strtol_int false t.d2),
    scan_value.int (strtol_int false t.d3), scan_value.int (strtol_int false t.d4),
    scan_value.int (strtol_int false t.sport), scan_value.int (strtol_int false t.dport)]

/-- The texts of an ESTABLISHED line of a connection-tracking table: for the modern
table the name of the address family and its number, and the number of extra spaces that pad the name; the name of the protocol,
its number and the timeout, and the number of extra spaces that pad the name; the tuple of the
original direction; the packet and byte counters that follow it when accounting is on;
and the tuple of the reply direction. -/
structure ct_tokens where
  family : List Char
  l3num : List Char
  family_pad : Nat
  proto : List Char
  protonum : List Char
  timeout : List Char
  pad : Nat
  orig : tuple_text
  packets : List Char
  bytes : List Char
  reply : tuple_text

/-- The names are names and the numbers are numbers. -/
def ct_tokens.well_formed (t : ct_tokens) : Prop :=
  is_name t.family ∧ is_number t.l3num ∧ is_name t.proto ∧ is_number t.protonum ∧
  is_number t.timeout ∧ t.orig.well_formed ∧ is_number t.packets ∧ is_number t.bytes ∧
  t.reply.well_formed

instance (t : ct_tokens) : Decidable t.well_formed := by
  delta ct_tokens.well_formed; exact inferInstance

/-- The text ` packets=N bytes=M` of the counters, with the space in front of it. -/
def ct_tokens.render_acct (t : ct_tokens) : List Char :=
  ' ' :: ("packets=".toList ++ (t.packets ++ ' ' :: ("bytes=".toList ++ t.bytes)))

/-- The text of a line from the first tuple on: the tuple of the original direction,
the counters if `acct` is set, the tuple of the reply direction, and what the kernel
prints after it. -/
def ct_tokens.render_tuples (t : ct_tokens) (acct : Bool) (tail : List Char) : List Char :=
  t.orig.render ++ ((if acct then t.render_acct else []) ++ (t.reply.render ++ tail))

/-- A line of `/proc/net/ip_conntrack`: `tcp      6 431999 ESTABLISHED src=...`. -/
def ct_tokens.legacy_line (t : ct_tokens) (acct : Bool) (tail : List Char) : List Char :=
  t.proto ++ ' ' :: (List.replicate t.pad ' ' ++ (t.protonum ++ ' ' :: (t.timeout ++
    ' ' :: ("ESTABLISHED".toList ++ t.render_tuples acct tail))))

/-- A line of `/proc/net/nf_conntrack`: `ipv4     2 tcp      6 431999 ESTABLISHED
src=...`. -/
def ct_tokens.modern_line (t : ct_tokens) (acct : Bool) (tail : List Char) : List Char :=
  t.family ++ ' ' :: (List.replicate t.family_pad ' ' ++ (t.l3num ++ ' ' ::
    t.legacy_line acct tail))

/-- The variables of `masq_ct_line` that such a line stands for. -/
def ct_tokens.record (t : ct_tokens) : ct_record :=
  { proto := t.proto
    masq_lport_temp := strtol_int false t.orig.sport
    masq_fport_temp := strtol_int false t.orig.dport
    nport_temp := strtol_int false t.reply.sport
    mport_temp := strtol_int false t.reply.dport
    localm := pack_octets (strtol_int false t.orig.s1) (strtol_int false t.orig.s2)
      (strtol_int false t.orig.s3) (strtol_int false t.orig.s4)
    remotem := pack_octets (strtol_int false t.orig.d1) (strtol_int false t.orig.d2)
      (strtol_int false t.orig.d3) (strtol_int false t.orig.d4)
    localn := pack_octets (strtol_int false t.reply.s1) (strtol_int false t.reply.s2)
      (strtol_int false t.reply.s3) (strtol_int false t.reply.s4)
    remoten := pack_octets (strtol_int false t.reply.d1) (strtol_int false t.reply.d2)
      (strtol_int false t.reply.d3) (strtol_int false t.reply.d4) }

/-- The directives of a run of ordinary characters. -/
def lits (s : String) : List directive := s.toList.map directive.lit

/-- The directives of `%d.%d.%d.%d`. -/
def fmt_quad : List directive :=
  [directive.conv false none conv_kind.d, directive.lit '.',
    directive.conv false none conv_kind.d, directive.lit '.',
    directive.conv false none conv_kind.d, directive.lit '.',
    directive.conv false none conv_kind.d]

/-- The directives of ` src=%d.%d.%d.%d dst=%d.%d.%d.%d sport=%d dport=%d`. -/
def fmt_tuple : List directive :=
  directive.ws :: (lits "src=" ++ (fmt_quad ++
  directive.ws :: (lits "dst=" ++ (fmt_quad ++
  directive.ws :: (lits "sport=" ++ (directive.conv false none conv_kind.d ::
  directive.ws :: (lits "dport=" ++ [directive.conv false none conv_kind.d])))))))

/-- The directives of ` packets=%*d bytes=%*d`. -/
def fmt_acct : List directive :=
  directive.ws :: (lits "packets=" ++ (directive.conv true none conv_kind.d ::
  directive.ws :: (lits "bytes=" ++ [directive.conv true none conv_kind.d])))

/-- The directives of `%15s %*d %*d ESTABLISHED`. -/
def fmt_head_legacy : List directive :=
  directive.conv false (some 15) conv_kind.s :: directive.ws ::
  directive.conv true none conv_kind.d :: directive.ws ::
  directive.conv true none conv_kind.d :: directive.ws :: lits "ESTABLISHED"

/-- The directives of `%15s %*d %15s %*d %*d ESTABLISHED`. -/
def fmt_head_modern : List directive :=
  directive.conv false (some 15) conv_kind.s :: directive.ws ::
  directive.conv true none conv_kind.d :: directive.ws :: fmt_head_legacy

/-- The values `sscanf` assigns on a legacy line. -/
def legacy_vals (t : ct_tokens) : List scan_value :=
  scan_value.str t.proto :: (t.orig.vals ++ t.reply.vals)

/-- The values `sscanf` assigns on a modern line. -/
def modern_vals (t : ct_tokens) : List scan_value :=
  scan_value.str t.family :: scan_value.str t.proto :: (t.orig.vals ++ t.reply.vals)

/-- A configuration of the resolver on a little-endian host: the given variant in a
build with libnfct support, the options PROXY, FORWARD and MASQ_OVERRIDE as given, the
proxy 10.0.0.10, `ret_os` set to UNIX and error names reported as they are. -/
def sample_mc (conntrack : conntrack_t) (proxy forward override : Bool) : MasqConfig :=
  ⟨⟨false, proxy, ipv4_le 10 0 0 10⟩, true, conntrack, forward, override, "UNIX", fun e => e⟩

/-- Collaborators for the samples: uid 1000 is alice and is reported as such, the
override table knows 192.168.1.10 as bob on UNIX, and forwarding fails. -/
def sample_co : Collab :=
  ⟨fun uid => if uid = 1000 then some ⟨"alice", 1000⟩ else none,
    fun pw _ _ _ _ => (0, pw.pw_name),
    fun addr => if addr = ipv4_le 192 168 1 10 then (0, "bob", "UNIX") else (-1, "", ""),
    fun _ _ _ _ _ _ => -1⟩

/-- The same collaborators with a forwarding that succeeds. -/
def sample_co_fwd : Collab := { sample_co with fwd_request := fun _ _ _ _ _ _ => 0 }

/-- An environment in which the diagnostics channel does not answer and the socket
table holds local 10.0.0.5:4000, foreign 1.2.3.4:4000, uid 1000, inode 55. -/
def sample_env : ct_env :=
  ⟨⟨send_result.error ECONNREFUSED, [], some [header4, ⟨6, 0x0500000A, 4000, 0x04030201, 4000, 1000, 55⟩]⟩,
    7, 7, 7, 7, 7⟩

/-- The same environment with an empty socket table. -/
def sample_env_empty : ct_env :=
  ⟨⟨send_result.error ECONNREFUSED, [], some [header4]⟩, 7, 7, 7, 7, 7⟩

/-- The line of the legacy table of scenario 3: internal 192.168.1.10:4000 towards
1.2.3.4:4000, seen from outside as ports 5000 and 80; the first source address is the
second destination address, a local NAT loop. -/
def scenario3_line : List Char :=
  "tcp      6 431999 ESTABLISHED src=192.168.1.10 dst=1.2.3.4 sport=4000 dport=4000 src=1.2.3.4 dst=192.168.1.10 sport=80 dport=5000 [ASSURED] use=1\n".toList

/-- A line of the legacy table for a masqueraded connection of 192.168.1.10:4000 to
1.2.3.4:80, leaving the gateway 5.6.7.8 from port 5000. -/
def masq_line : List Char :=
  "tcp      6 431999 ESTABLISHED src=192.168.1.10 dst=1.2.3.4 sport=4000 dport=80 src=1.2.3.4 dst=5.6.7.8 sport=80 dport=5000 [ASSURED] use=1\n".toList

/-- A line of the legacy table of a UDP flow with the same addresses and ports; it
carries no state keyword. -/
def udp_line : List Char :=
  "udp      17 29 src=192.168.1.10 dst=1.2.3.4 sport=4000 dport=80 src=1.2.3.4 dst=5.6.7.8 sport=80 dport=5000 use=1\n".toList

/-- The local address of the gateway in the samples, 10.0.0.5. -/
def sample_laddr : sockaddr_storage := ipv4_le 10 0 0 5

/-- The texts of the line of scenario 3 with a family for the modern table and with
counters of 5 packets and 300 bytes. -/
def sample_tokens : ct_tokens :=
  { family := "ipv4".toList
    l3num := "2".toList
    family_pad := 4
    proto := "tcp".toList
    protonum := "6".toList
    timeout := "431999".toList
    pad := 5
    orig := ⟨"192".toList, "168".toList, "1".toList, "10".toList, "1".toList, "2".toList,
      "3".toList, "4".toList, "4000".toList, "4000".toList⟩
    packets := "5".toList
    bytes := "300".toList
    reply := ⟨"1".toList, "2".toList, "3".toList, "4".toList, "192".toList, "168".toList,
      "1".toList, "10".toList, "80".toList, "5000".toList⟩ }

/-- What follows the second tuple on the lines of the samples. -/
def sample_tail : List Char := " [ASSURED] use=1\n".toList

/-- A line of the modern table for the masqueraded connection of `masq_line`, with
counters after each tuple. -/
def nf_masq_line : List Char :=
  "ipv4     2 tcp      6 431999 ESTABLISHED src=192.168.1.10 dst=1.2.3.4 sport=4000 dport=80 packets=5 bytes=300 src=1.2.3.4 dst=5.6.7.8 sport=80 dport=5000 packets=4 bytes=200 [ASSURED] mark=0 use=2\n".toList

/-- A line of the modern table for another connection of the same host, from port 4001
and leaving the gateway from port 5001. -/
def nf_other_line : List Char :=
  "ipv4     2 tcp      6 431999 ESTABLISHED src=192.168.1.10 dst=1.2.3.4 sport=4001 dport=80 src=1.2.3.4 dst=5.6.7.8 sport=80 dport=5001 [ASSURED] mark=0 use=2\n".toList

/-- A line of the legacy table like `masq_line` whose last port field is out of range:
70536 is 65536 + 5000. -/
def wide_port_line : List Char :=
  "tcp      6 431999 ESTABLISHED src=192.168.1.10 dst=1.2.3.4 sport=4000 dport=80 src=1.2.3.4 dst=5.6.7.8 sport=80 dport=70536 [ASSURED] use=1\n".toList

/-- A live channel on which every libnfct call succeeds and the dump delivers
`nf_other_line` and `nf_masq_line`. -/
def sample_nf : nfct_env :=
  ⟨true, 0, 0, 0, [(nf_other_line, sample_env), (nf_masq_line, sample_env)]⟩

/-! ## Addresses as octets -/

/-- The four octets `a.b.c.d` of an IPv4 address held in host byte order, as the
variable `localn` of `masq_ct_line` holds it after `nl1 << 24 | nl2 << 16 | nl3 << 8 |
nl4`: `a` is the most significant byte of the value. -/
def octets_of_host (x : Nat) : List Nat :=
  [x / 16777216 % 256, x / 65536 % 256, x / 256 % 256, x % 256]

/-- The four octets `a.b.c.d` of an IPv4 address held in network byte order, as an
`s_addr` holds it: `a` is the byte at the lowest address, which is the most significant
byte of the value on a big-endian host and the least significant one on a little-endian
host. -/
def octets_of_net (big_endian : Bool) (x : Nat) : List Nat :=
  if big_endian then octets_of_host x
  else [x % 256, x / 256 % 256, x / 65536 % 256, x / 16777216 % 256]

/-- The configuration `sample_mc` of the legacy variant with the options FORWARD and
MASQ_OVERRIDE off, proxy support on and the proxy 192.0.2.1 of `sample_cfg_proxy`. -/
def sample_mc_proxy : MasqConfig :=
  { sample_mc conntrack_t.CT_IPCONNTRACK true false false with base := sample_cfg_proxy }

/-- The same configuration on a big-endian host, where the `s_addr` of the proxy
192.0.2.1 is the value 0xC0000201. -/
def sample_mc_proxy_be : MasqConfig :=
  { sample_mc_proxy with base := ⟨true, true, ⟨AF_INET, 0xC0000201, []⟩⟩ }

/-- A line of the legacy table like `masq_line` whose second tuple has the source
address 1.2.0.192, the proxy address 192.0.2.1 with its bytes reversed. -/
def reversed_proxy_line : List Char :=
  "tcp      6 431999 ESTABLISHED src=192.168.1.10 dst=1.2.0.192 sport=4000 dport=80 src=1.2.0.192 dst=5.6.7.8 sport=80 dport=5000 [ASSURED] use=1\n".toList

/-! ## Auxiliary facts -/

theorem get_user4_loop_eq (cfg : Config) (laddr4 faddr4 lport fport : Nat)
    (lines : List scan4) (uid inode : Nat) :
    get_user4_loop cfg laddr4 faddr4 lport fport lines uid inode =
      match lines.find? (fun l => decide (accepted4 cfg laddr4 faddr4 lport fport l)) with
      | some l => out_success l.uid l.inode
      | none => MISSING_UID := by
  induction lines generalizing uid inode with
  | nil => simp [get_user4_loop]
  | cons l rest ih =>
    by_cases h6 : l.ret = 6
    · by_cases hp : cfg.opt_PROXY = true ∧ proxy_rule cfg faddr4 lport fport l
      · have ha : accepted4 cfg laddr4 faddr4 lport fport l := ⟨h6, Or.inl hp⟩
        simp [get_user4_loop, List.find?, h6, hp, ha]
      · by_cases he : exact_rule laddr4 faddr4 lport fport l
        · have ha : accepted4 cfg laddr4 faddr4 lport fport l := ⟨h6, Or.inr he⟩
          simp [get_user4_loop, List.find?, h6, hp, he, ha]
        · have hna : ¬ accepted4 cfg laddr4 faddr4 lport fport l := by
            rintro ⟨_, h | h⟩
            · exact hp h
            · exact he h
          rw [get_user4_loop]
          simp only [h6, hp, he, if_false, ne_eq, not_true_eq_false]
          rw [ih]
          simp [List.find?, hna]
    · have hna : ¬ accepted4 cfg laddr4 faddr4 lport fport l := fun h => h6 h.1
      rw [get_user4_loop]
      simp only [ne_eq, h6, not_false_eq_true, if_true]
      rw [ih]
      simp [List.find?, hna]

theorem get_user4_scan_eq (cfg : Config) (cfile : Option (List scan4)) (q : query)
    (uid inode : Nat) :
    get_user4_scan cfg cfile q uid inode =
      match deciding_record4 cfg cfile q with
      | some l => out_success l.uid l.inode
      | none => MISSING_UID := by
  cases cfile with
  | none => simp [get_user4_scan, deciding_record4]
  | some lines => simp only [get_user4_scan, deciding_record4, get_user4_loop_eq]

theorem get_user4_scan_indep (cfg : Config) (cfile : Option (List scan4)) (q : query)
    (uid inode uid1 inode1 : Nat) :
    get_user4_scan cfg cfile q uid inode = get_user4_scan cfg cfile q uid1 inode1 := by
  rw [get_user4_scan_eq, get_user4_scan_eq]

theorem get_user6_loop_eq (laddr faddr : sockaddr_storage) (lport fport : Nat)
    (lines : List scan6) :
    get_user6_loop laddr faddr lport fport lines =
      match lines.find? (fun l => decide (accepted6 laddr faddr lport fport l)) with
      | some l => if l.inode = 0 ∧ l.uid = 0 then MISSING_UID else l.uid
      | none => MISSING_UID := by
  induction lines with
  | nil => simp [get_user6_loop]
  | cons l rest ih =>
    by_cases h12 : l.ret = 12
    · by_cases hm : match6 laddr faddr lport fport l
      · have ha : accepted6 laddr faddr lport fport l := ⟨h12, hm⟩
        simp [get_user6_loop, List.find?, h12, hm, ha]
      · have hna : ¬ accepted6 laddr faddr lport fport l := fun h => hm h.2
        rw [get_user6_loop]
        simp only [h12, hm, if_false, ne_eq, not_true_eq_false]
        rw [ih]
        simp [List.find?, hna]
    · have hna : ¬ accepted6 laddr faddr lport fport l := fun h => h12 h.1
      rw [get_user6_loop]
      simp only [ne_eq, h12, not_false_eq_true, if_true]
      rw [ih]
      simp [List.find?, hna]

theorem get_user6_scan_eq (cfg : Config) (cfile6 : Option (List scan6)) (q : query) :
    get_user6_scan cfg cfile6 q =
      match deciding_record6 cfg cfile6 q with
      | some l => if l.inode = 0 ∧ l.uid = 0 then MISSING_UID else l.uid
      | none => MISSING_UID := by
  cases cfile6 with
  | none => simp [get_user6_scan, deciding_record6]
  | some lines => simp only [get_user6_scan, deciding_record6, get_user6_loop_eq]

/-- What `lookup_tcp_diag` returns on the message with sequence number 1 it stops at. -/
theorem diag_walk_eq (src_addr dst_addr : sockaddr_storage) (src_port dst_port : Nat)
    (msgs : List nlmsg) (uret : Nat) :
    diag_walk src_addr dst_addr src_port dst_port msgs uret =
      match first_seq1 msgs uret with
      | some h =>
        if h.nlmsg_type = NLMSG_DONE ∨ h.nlmsg_type = NLMSG_ERROR then
          walk_result.returned MISSING_UID
        else if reply_matches src_addr dst_addr src_port dst_port h then
          if h.tcpdiag_inode = 0 ∧ h.tcpdiag_uid = 0 then walk_result.returned MISSING_UID
          else walk_result.returned h.tcpdiag_uid
        else walk_result.returned MISSING_UID
      | none => walk_result.fell_through (nlmsg_walk msgs uret).2 := by
  induction msgs generalizing uret with
  | nil => simp [diag_walk, first_seq1, nlmsg_walk]
  | cons h rest ih =>
    by_cases hok : NLMSG_OK h uret
    · by_cases hs : h.nlmsg_seq = 1
      · simp [diag_walk, first_seq1, nlmsg_walk, hok, hs, List.find?, reply_matches]
      · rw [diag_walk]
        simp only [hok, hs, if_true, ne_eq, not_false_eq_true]
        rw [ih]
        simp [first_seq1, nlmsg_walk, hok, hs, List.find?]
    · simp [diag_walk, first_seq1, nlmsg_walk, hok]

theorem dropWhile_head_kept {α : Type} (p : α → Bool) (r : α) (rest : List α)
    (h : p r = false) :
    (r :: rest).dropWhile p = r :: rest ∧ (r :: rest).takeWhile p = [] := by
  simp [List.dropWhile_cons, List.takeWhile_cons, h]

theorem dropWhile_head_dropped {α : Type} (p : α → Bool) (r : α) (rest : List α)
    (h : p r = true) :
    (r :: rest).dropWhile p = rest.dropWhile p ∧
      (r :: rest).takeWhile p = r :: rest.takeWhile p := by
  simp [List.dropWhile_cons, List.takeWhile_cons, h]

theorem diag_recv_loop_eq (src_addr dst_addr : sockaddr_storage) (src_port dst_port : Nat)
    (recvs : List recv_result) (n : Nat) :
    diag_recv_loop src_addr dst_addr src_port dst_port recvs n =
      match recvs.dropWhile passed_over with
      | [] => none
      | r :: _ =>
        some (verdict src_addr dst_addr src_port dst_port r,
          n + (recvs.takeWhile passed_over).length + 1) := by
  induction recvs generalizing n with
  | nil => simp [diag_recv_loop]
  | cons r rest ih =>
    have step : ∀ m : Nat,
        (match rest.dropWhile passed_over with
          | [] => (none : Option (Nat × Nat))
          | x :: _ => some (verdict src_addr dst_addr src_port dst_port x,
              m + 1 + (rest.takeWhile passed_over).length + 1)) =
        (match rest.dropWhile passed_over with
          | [] => none
          | x :: _ => some (verdict src_addr dst_addr src_port dst_port x,
              m + (r :: rest.takeWhile passed_over).length + 1)) := by
      intro m
      cases List.dropWhile passed_over rest with
      | nil => rfl
      | cons x xs =>
        simp only [List.length_cons, Option.some.injEq, Prod.mk.injEq, true_and]; omega
    cases r with
    | error errno =>
      by_cases he : errno = EINTR ∨ errno = EAGAIN
      · have hp : passed_over (recv_result.error errno) = true := by simp [passed_over, he]
        rw [diag_recv_loop, if_pos he, ih, (dropWhile_head_dropped _ _ rest hp).1,
          (dropWhile_head_dropped _ _ rest hp).2]
        exact step n
      · have hp : passed_over (recv_result.error errno) = false := by simp [passed_over, he]
        rw [diag_recv_loop, if_neg he, (dropWhile_head_kept _ _ rest hp).1,
          (dropWhile_head_kept _ _ rest hp).2]
        simp [verdict]
    | data ret msgs msg_trunc =>
      by_cases h0 : ret = 0
      · have hp : passed_over (recv_result.data ret msgs msg_trunc) = false := by
          simp [passed_over, h0]
        rw [diag_recv_loop, if_pos h0, (dropWhile_head_kept _ _ rest hp).1,
          (dropWhile_head_kept _ _ rest hp).2]
        simp only [verdict, if_pos h0, List.length_nil, Nat.add_zero]
      · rw [diag_recv_loop, if_neg h0, diag_walk_eq]
        cases hf : first_seq1 msgs ret with
        | some h =>
          have hp : passed_over (recv_result.data ret msgs msg_trunc) = false := by
            simp [passed_over, hf]
          rw [(dropWhile_head_kept _ _ rest hp).1, (dropWhile_head_kept _ _ rest hp).2]
          simp only [verdict, if_neg h0, hf, reply_uid, List.length_nil, Nat.add_zero]
          split_ifs <;> rfl
        | none =>
          by_cases ht : msg_trunc = true ∨ (nlmsg_walk msgs ret).2 ≠ 0
          · have hp : passed_over (recv_result.data ret msgs msg_trunc) = false := by
              simp only [passed_over, hf, decide_eq_false_iff_not]
              rintro ⟨_, _, h1, h2⟩
              rcases ht with ht | ht
              · rw [h1] at ht; exact Bool.noConfusion ht
              · exact ht h2
            rw [(dropWhile_head_kept _ _ rest hp).1, (dropWhile_head_kept _ _ rest hp).2]
            simp only [verdict, if_neg h0, hf, if_pos ht, List.length_nil, Nat.add_zero]
          · have hp : passed_over (recv_result.data ret msgs msg_trunc) = true := by
              simp only [passed_over, hf, decide_eq_true_eq]
              refine ⟨h0, trivial, ?_, ?_⟩
              · cases msg_trunc with
                | true => exact absurd (Or.inl rfl) ht
                | false => rfl
              · by_contra h2; exact ht (Or.inr h2)
            simp only [if_neg ht]
            rw [ih, (dropWhile_head_dropped _ _ rest hp).1,
              (dropWhile_head_dropped _ _ rest hp).2]
            exact step n

theorem verdict_eq (src_addr dst_addr : sockaddr_storage) (src_port dst_port : Nat)
    (r : recv_result) (rest : List recv_result) (recvs : List recv_result)
    (hd : recvs.dropWhile passed_over = r :: rest) :
    verdict src_addr dst_addr src_port dst_port r =
      match decisive_reply recvs with
      | some h => reply_uid src_addr dst_addr src_port dst_port h
      | none => MISSING_UID := by
  unfold decisive_reply
  rw [hd]
  cases r with
  | error errno => rfl
  | data ret msgs msg_trunc =>
    by_cases h0 : ret = 0
    · simp only [verdict, if_pos h0]
    · simp only [verdict, if_neg h0]

theorem lookup_tcp_diag_uid (netlink_sock : Int) (recvs : List recv_result)
    (src_addr dst_addr : sockaddr_storage) (src_port dst_port : Nat) (r : lookup_result)
    (hr : lookup_tcp_diag netlink_sock send_result.ok recvs src_addr dst_addr src_port
      dst_port = some r) :
    r.uid = (match decisive_reply recvs with
      | some h => reply_uid src_addr dst_addr src_port dst_port h
      | none => MISSING_UID) ∧
    r.netlink_sock = netlink_sock ∧
    r.trace = Event.sendmsg ::
      List.replicate ((recvs.takeWhile passed_over).length + 1) Event.recvmsg := by
  simp only [lookup_tcp_diag] at hr
  rw [diag_recv_loop_eq] at hr
  cases hd : recvs.dropWhile passed_over with
  | nil => rw [hd] at hr; simp at hr
  | cons x xs =>
    rw [hd] at hr
    simp only [Option.some.injEq, Nat.zero_add] at hr
    subst hr
    exact ⟨verdict_eq _ _ _ _ x xs recvs hd, rfl, rfl⟩

theorem lookup_tcp_diag_decided (netlink_sock : Int) (recvs : List recv_result)
    (src_addr dst_addr : sockaddr_storage) (src_port dst_port : Nat) (h : nlmsg)
    (hd : decisive_reply recvs = some h) :
    lookup_tcp_diag netlink_sock send_result.ok recvs src_addr dst_addr src_port dst_port =
      some ⟨reply_uid src_addr dst_addr src_port dst_port h, netlink_sock,
        Event.sendmsg ::
          List.replicate ((recvs.takeWhile passed_over).length + 1) Event.recvmsg⟩ := by
  cases hdw : recvs.dropWhile passed_over with
  | nil => simp [decisive_reply, hdw] at hd
  | cons x xs =>
    have hv := verdict_eq src_addr dst_addr src_port dst_port x xs recvs hdw
    rw [hd] at hv
    simp only [lookup_tcp_diag]
    rw [diag_recv_loop_eq, hdw]
    simp only [hv, Nat.zero_add]

theorem reply_uid_dead (src_addr dst_addr : sockaddr_storage) (src_port dst_port : Nat)
    (h : nlmsg) (hu : h.tcpdiag_uid = 0) (hi : h.tcpdiag_inode = 0) :
    reply_uid src_addr dst_addr src_port dst_port h = MISSING_UID := by
  unfold reply_uid
  split_ifs <;> first | rfl | simp_all

theorem reply_uid_zero (src_addr dst_addr : sockaddr_storage) (src_port dst_port : Nat)
    (h : nlmsg) (hz : reply_uid src_addr dst_addr src_port dst_port h = 0) :
    h.tcpdiag_uid = 0 ∧ h.tcpdiag_inode ≠ 0 ∧
      reply_matches src_addr dst_addr src_port dst_port h := by
  unfold reply_uid at hz
  split_ifs at hz with h1 h2 h3
  · exact absurd hz (by decide)
  · exact absurd hz (by decide)
  · exact ⟨hz, fun hi => h3 ⟨hi, hz⟩, h2⟩
  · exact absurd hz (by decide)

theorem out_success_dead : out_success 0 0 = MISSING_UID := rfl

theorem out_success_zero (uid inode : Nat) (hz : out_success uid inode = 0) :
    uid = 0 ∧ inode ≠ 0 := by
  unfold out_success at hz
  split_ifs at hz with h1
  · exact absurd hz (by decide)
  · exact ⟨hz, fun hi => h1 ⟨hi, hz⟩⟩

theorem MISSING_UID_ne_zero : MISSING_UID ≠ 0 := by decide

theorem get_user4_cases (cfg : Config) (netlink_sock : Int) (os : os_env4) (q : query)
    (uid inode : Nat) (r : lookup_result)
    (hr : get_user4 cfg netlink_sock os q uid inode = some r) :
    (netlink_sock = -1 ∧
      r = ⟨get_user4_scan cfg os.cfile q uid inode, netlink_sock,
        [Event.fopen ProcFile.CFILE]⟩) ∨
    (netlink_sock ≠ -1 ∧ r.uid ≠ MISSING_UID ∧
      lookup_tcp_diag netlink_sock os.send os.recvs q.laddr q.faddr q.lport q.fport =
        some r) ∨
    (netlink_sock ≠ -1 ∧ ∃ d,
      lookup_tcp_diag netlink_sock os.send os.recvs q.laddr q.faddr q.lport q.fport =
        some d ∧ d.uid = MISSING_UID ∧
      r = ⟨get_user4_scan cfg os.cfile q d.uid inode, d.netlink_sock,
        d.trace ++ [Event.fopen ProcFile.CFILE]⟩) := by
  unfold get_user4 at hr
  by_cases hs : netlink_sock ≠ -1
  · rw [if_pos hs] at hr
    cases hl : lookup_tcp_diag netlink_sock os.send os.recvs q.laddr q.faddr q.lport
        q.fport with
    | none => rw [hl] at hr; exact absurd hr (by simp)
    | some d =>
      rw [hl] at hr
      by_cases hm : d.uid ≠ MISSING_UID
      · simp only [if_pos hm, Option.some.injEq] at hr
        subst hr
        exact Or.inr (Or.inl ⟨hs, hm, rfl⟩)
      · simp only [if_neg hm, Option.some.injEq] at hr
        exact Or.inr (Or.inr ⟨hs, d, rfl, not_not.mp hm, hr.symm⟩)
  · rw [if_neg hs] at hr
    simp only [Option.some.injEq] at hr
    exact Or.inl ⟨not_not.mp hs, hr.symm⟩

theorem get_user6_cases (cfg : Config) (netlink_sock : Int) (os : os_env6) (q : query)
    (r : lookup_result) (hr : get_user6 cfg netlink_sock os q = some r) :
    (netlink_sock = -1 ∧
      r = ⟨get_user6_scan cfg os.cfile6 q, netlink_sock, [Event.fopen ProcFile.CFILE6]⟩) ∨
    (netlink_sock ≠ -1 ∧ r.uid ≠ MISSING_UID ∧
      lookup_tcp_diag netlink_sock os.send os.recvs q.laddr q.faddr q.lport q.fport =
        some r) ∨
    (netlink_sock ≠ -1 ∧ ∃ d,
      lookup_tcp_diag netlink_sock os.send os.recvs q.laddr q.faddr q.lport q.fport =
        some d ∧ d.uid = MISSING_UID ∧
      r = ⟨get_user6_scan cfg os.cfile6 q, d.netlink_sock,
        d.trace ++ [Event.fopen ProcFile.CFILE6]⟩) := by
  unfold get_user6 at hr
  by_cases hs : netlink_sock ≠ -1
  · rw [if_pos hs] at hr
    cases hl : lookup_tcp_diag netlink_sock os.send os.recvs q.laddr q.faddr q.lport
        q.fport with
    | none => rw [hl] at hr; exact absurd hr (by simp)
    | some d =>
      rw [hl] at hr
      by_cases hm : d.uid ≠ MISSING_UID
      · simp only [if_pos hm, Option.some.injEq] at hr
        subst hr
        exact Or.inr (Or.inl ⟨hs, hm, rfl⟩)
      · simp only [if_neg hm, Option.some.injEq] at hr
        exact Or.inr (Or.inr ⟨hs, d, rfl, not_not.mp hm, hr.symm⟩)
  · rw [if_neg hs] at hr
    simp only [Option.some.injEq] at hr
    exact Or.inl ⟨not_not.mp hs, hr.symm⟩

theorem lookup_tcp_diag_trace (netlink_sock : Int) (send : send_result)
    (recvs : List recv_result) (src_addr dst_addr : sockaddr_storage)
    (src_port dst_port : Nat) (r : lookup_result)
    (hr : lookup_tcp_diag netlink_sock send recvs src_addr dst_addr src_port dst_port =
      some r) (f : ProcFile) : Event.fopen f ∉ r.trace := by
  cases send with
  | error errno =>
    simp only [lookup_tcp_diag] at hr
    split_ifs at hr <;> (simp only [Option.some.injEq] at hr; subst hr; simp)
  | ok =>
    rw [(lookup_tcp_diag_uid _ _ _ _ _ _ _ hr).2.2]
    simp [List.mem_replicate]

theorem get_user4_closed (cfg : Config) (os : os_env4) (q : query) (uid inode : Nat) :
    get_user4 cfg (-1) os q uid inode =
      some ⟨get_user4_scan cfg os.cfile q uid inode, -1, [Event.fopen ProcFile.CFILE]⟩ := by
  have hsock : ¬ ((-1 : Int) ≠ -1) := fun h => h rfl
  unfold get_user4
  rw [if_neg hsock]

theorem get_user6_closed (cfg : Config) (os : os_env6) (q : query) :
    get_user6 cfg (-1) os q =
      some ⟨get_user6_scan cfg os.cfile6 q, -1, [Event.fopen ProcFile.CFILE6]⟩ := by
  have hsock : ¬ ((-1 : Int) ≠ -1) := fun h => h rfl
  unfold get_user6
  rw [if_neg hsock]

theorem run_calls_closed (cfg : Config) (calls : List lookup_call) :
    run_calls cfg (-1) calls =
      some (calls.map (scan_of_call cfg), -1,
        calls.map (fun c => Event.fopen (file_of_call c))) := by
  induction calls with
  | nil => rfl
  | cons c rest ih =>
    cases c with
    | user4 os q uid inode =>
      simp only [run_calls, run_call, get_user4_closed, ih, List.map_cons, scan_of_call,
        file_of_call, List.singleton_append]
    | user6 os q =>
      simp only [run_calls, run_call, get_user6_closed, ih, List.map_cons, scan_of_call,
        file_of_call, List.singleton_append]

theorem dropWhile_after_passed {α : Type} (p : α → Bool) (pre : List α) (r : α)
    (rest : List α) (hpre : ∀ x ∈ pre, p x = true) (hr : p r = false) :
    (pre ++ r :: rest).dropWhile p = r :: rest ∧
      ((pre ++ r :: rest).takeWhile p).length = pre.length := by
  induction pre with
  | nil =>
    rw [List.nil_append, (dropWhile_head_kept p r rest hr).1,
      (dropWhile_head_kept p r rest hr).2]
    exact ⟨rfl, rfl⟩
  | cons x xs ih =>
    have hx : p x = true := hpre x (List.mem_cons_self x xs)
    have ih1 := ih (fun y hy => hpre y (List.mem_cons_of_mem x hy))
    rw [List.cons_append, (dropWhile_head_dropped p x _ hx).1,
      (dropWhile_head_dropped p x _ hx).2, List.length_cons, List.length_cons, ih1.1, ih1.2]
    exact ⟨rfl, rfl⟩

theorem lookup_tcp_diag_after_passed (netlink_sock : Int)
    (src_addr dst_addr : sockaddr_storage) (src_port dst_port : Nat)
    (pre : List recv_result) (r : recv_result) (rest : List recv_result)
    (hpre : ∀ x ∈ pre, passed_over x = true) (hr : passed_over r = false) :
    lookup_tcp_diag netlink_sock send_result.ok (pre ++ r :: rest) src_addr dst_addr
        src_port dst_port =
      some ⟨verdict src_addr dst_addr src_port dst_port r, netlink_sock,
        Event.sendmsg :: List.replicate (pre.length + 1) Event.recvmsg⟩ := by
  have h := dropWhile_after_passed passed_over pre r rest hpre hr
  simp only [lookup_tcp_diag]
  rw [diag_recv_loop_eq, h.1]
  simp only [h.2, Nat.zero_add]

/-! ## The properties -/

/-- C1 (dead-socket normalisation). When the record that decides a lookup has uid 0 and
inode 0, the result is `MISSING_UID`, and a result of 0 comes only from a deciding
record with uid 0 and a non-zero inode. This holds for the table scan of `get_user4`
and of `get_user6` (the deciding record is the first accepted line), for
`lookup_tcp_diag` (the deciding record is the decisive reply), and so for the two
lookups as a whole. -/
theorem C1_dead_socket_normalisation (cfg : Config) (netlink_sock : Int) (q : query)
    (uid inode : Nat) :
    (∀ cfile l, deciding_record4 cfg cfile q = some l → l.uid = 0 → l.inode = 0 →
      get_user4_scan cfg cfile q uid inode = MISSING_UID) ∧
    (∀ cfile, get_user4_scan cfg cfile q uid inode = 0 →
      ∃ l, deciding_record4 cfg cfile q = some l ∧ l.uid = 0 ∧ l.inode ≠ 0) ∧
    (∀ cfile6 l, deciding_record6 cfg cfile6 q = some l → l.uid = 0 → l.inode = 0 →
      get_user6_scan cfg cfile6 q = MISSING_UID) ∧
    (∀ cfile6, get_user6_scan cfg cfile6 q = 0 →
      ∃ l, deciding_record6 cfg cfile6 q = some l ∧ l.uid = 0 ∧ l.inode ≠ 0) ∧
    (∀ recvs h, decisive_reply recvs = some h → h.tcpdiag_uid = 0 → h.tcpdiag_inode = 0 →
      ∃ r, lookup_tcp_diag netlink_sock send_result.ok recvs q.laddr q.faddr q.lport
        q.fport = some r ∧ r.uid = MISSING_UID) ∧
    (∀ send recvs r,
      lookup_tcp_diag netlink_sock send recvs q.laddr q.faddr q.lport q.fport = some r →
      r.uid = 0 →
      ∃ h, decisive_reply recvs = some h ∧ h.tcpdiag_uid = 0 ∧ h.tcpdiag_inode ≠ 0) ∧
    (∀ os r, get_user4 cfg netlink_sock os q uid inode = some r → r.uid = 0 →
      (∃ h, decisive_reply os.recvs = some h ∧ h.tcpdiag_uid = 0 ∧ h.tcpdiag_inode ≠ 0) ∨
      (∃ l, deciding_record4 cfg os.cfile q = some l ∧ l.uid = 0 ∧ l.inode ≠ 0)) ∧
    (∀ os r, get_user6 cfg netlink_sock os q = some r → r.uid = 0 →
      (∃ h, decisive_reply os.recvs = some h ∧ h.tcpdiag_uid = 0 ∧ h.tcpdiag_inode ≠ 0) ∨
      (∃ l, deciding_record6 cfg os.cfile6 q = some l ∧ l.uid = 0 ∧ l.inode ≠ 0)) := by
  have scan4_zero : ∀ cfile u i, get_user4_scan cfg cfile q u i = 0 →
      ∃ l, deciding_record4 cfg cfile q = some l ∧ l.uid = 0 ∧ l.inode ≠ 0 := by
    intro cfile u i hz
    rw [get_user4_scan_eq] at hz
    cases hd : deciding_record4 cfg cfile q with
    | none => rw [hd] at hz; exact absurd hz MISSING_UID_ne_zero
    | some l => rw [hd] at hz; exact ⟨l, rfl, out_success_zero _ _ hz⟩
  have scan6_zero : ∀ cfile6, get_user6_scan cfg cfile6 q = 0 →
      ∃ l, deciding_record6 cfg cfile6 q = some l ∧ l.uid = 0 ∧ l.inode ≠ 0 := by
    intro cfile6 hz
    rw [get_user6_scan_eq] at hz
    cases hd : deciding_record6 cfg cfile6 q with
    | none => rw [hd] at hz; exact absurd hz MISSING_UID_ne_zero
    | some l =>
      rw [hd] at hz
      exact ⟨l, rfl, out_success_zero l.uid l.inode (by unfold out_success; exact hz)⟩
  have diag_zero : ∀ send recvs r,
      lookup_tcp_diag netlink_sock send recvs q.laddr q.faddr q.lport q.fport = some r →
      r.uid = 0 →
      ∃ h, decisive_reply recvs = some h ∧ h.tcpdiag_uid = 0 ∧ h.tcpdiag_inode ≠ 0 := by
    intro send recvs r hr hz
    cases send with
    | error errno =>
      simp only [lookup_tcp_diag] at hr
      split_ifs at hr <;>
        (simp only [Option.some.injEq] at hr; subst hr; exact absurd hz MISSING_UID_ne_zero)
    | ok =>
      have hu := (lookup_tcp_diag_uid _ _ _ _ _ _ _ hr).1
      rw [hz] at hu
      cases hd : decisive_reply recvs with
      | none => rw [hd] at hu; exact absurd hu.symm MISSING_UID_ne_zero
      | some h =>
        rw [hd] at hu
        have hh := reply_uid_zero _ _ _ _ h hu.symm
        exact ⟨h, rfl, hh.1, hh.2.1⟩
  refine ⟨?_, fun cfile => scan4_zero cfile uid inode, ?_, scan6_zero, ?_, diag_zero, ?_, ?_⟩
  · intro cfile l hd hu hi
    rw [get_user4_scan_eq, hd]
    simp only [hu, hi]; rfl
  · intro cfile6 l hd hu hi
    rw [get_user6_scan_eq, hd]
    simp [hu, hi]
  · intro recvs h hd hu hi
    exact ⟨_, lookup_tcp_diag_decided _ _ _ _ _ _ h hd, reply_uid_dead _ _ _ _ h hu hi⟩
  · intro os r hr hz
    rcases get_user4_cases cfg netlink_sock os q uid inode r hr with
      ⟨_, h⟩ | ⟨_, _, h⟩ | ⟨_, d, _, _, h⟩
    · subst h; exact Or.inr (scan4_zero os.cfile _ _ hz)
    · exact Or.inl (diag_zero _ _ _ h hz)
    · subst h; exact Or.inr (scan4_zero os.cfile _ _ hz)
  · intro os r hr hz
    rcases get_user6_cases cfg netlink_sock os q r hr with
      ⟨_, h⟩ | ⟨_, _, h⟩ | ⟨_, d, _, _, h⟩
    · subst h; exact Or.inr (scan6_zero os.cfile6 hz)
    · exact Or.inl (diag_zero _ _ _ h hz)
    · subst h; exact Or.inr (scan6_zero os.cfile6 hz)

/-- C1 at concrete inputs: the dead socket of the sample connection gives `MISSING_UID`
from the table and from a diagnostics reply, while the same socket owned by root with
inode 55 gives uid 0. -/
theorem C1_dead_socket_witness :
    get_user4_scan sample_cfg (some [header4, dead_line]) sample_query 7 7 = MISSING_UID ∧
    (∃ r, lookup_tcp_diag 3 send_result.ok
        [recv_result.data 96 [sample_reply TCPDIAG_GETSOCK 1 0 0] false]
        sample_query.laddr sample_query.faddr sample_query.lport sample_query.fport =
          some r ∧ r.uid = MISSING_UID) ∧
    get_user4_scan sample_cfg (some [header4, root_line]) sample_query 7 7 = 0 ∧
    (∃ l, deciding_record4 sample_cfg (some [header4, root_line]) sample_query = some l ∧
      l.uid = 0 ∧ l.inode ≠ 0) :=
  ⟨(C1_dead_socket_normalisation sample_cfg 3 sample_query 7 7).1
      (some [header4, dead_line]) dead_line (by decide) rfl rfl,
    (C1_dead_socket_normalisation sample_cfg 3 sample_query 7 7).2.2.2.2.1
      [recv_result.data 96 [sample_reply TCPDIAG_GETSOCK 1 0 0] false]
      (sample_reply TCPDIAG_GETSOCK 1 0 0) (by decide) rfl rfl,
    by decide,
    (C1_dead_socket_normalisation sample_cfg 3 sample_query 7 7).2.1
      (some [header4, root_line]) (by decide)⟩

/-- C2 (scanner reference behaviour). With proxy support disabled and the diagnostics
channel closed, `get_user4` opens the table and returns the uid of the first line after
the header that parses into all six fields and whose local address, local port, remote
address and remote port (the port fields as 16-bit values) equal the query's, with
uid 0 / inode 0 replaced by `MISSING_UID`; it returns `MISSING_UID` when no line does
and when the table cannot be opened. -/
theorem C2_scanner_reference (cfg : Config) (os : os_env4) (q : query) (uid inode : Nat)
    (hproxy : cfg.opt_PROXY = false) :
    get_user4 cfg (-1) os q uid inode =
      some ⟨(match os.cfile with
        | none => MISSING_UID
        | some lines =>
          match (lines.drop 1).find? (fun l => decide (l.ret = 6 ∧
              l.local_ = q.laddr.s_addr ∧
              l.portl_temp % 65536 = ntohs cfg.big_endian q.lport ∧
              l.remote = q.faddr.s_addr ∧
              l.portf_temp % 65536 = ntohs cfg.big_endian q.fport)) with
          | some l => if l.inode = 0 ∧ l.uid = 0 then MISSING_UID else l.uid
          | none => MISSING_UID), -1, [Event.fopen ProcFile.CFILE]⟩ := by
  have hsock : ¬ ((-1 : Int) ≠ -1) := fun h => h rfl
  unfold get_user4
  rw [if_neg hsock, get_user4_scan_eq]
  cases hc : os.cfile with
  | none => simp [deciding_record4]
  | some lines =>
    have hfun : (fun l => decide (accepted4 cfg q.laddr.s_addr q.faddr.s_addr
          (ntohs cfg.big_endian q.lport) (ntohs cfg.big_endian q.fport) l)) =
        (fun l : scan4 => decide (l.ret = 6 ∧ l.local_ = q.laddr.s_addr ∧
          l.portl_temp % 65536 = ntohs cfg.big_endian q.lport ∧
          l.remote = q.faddr.s_addr ∧
          l.portf_temp % 65536 = ntohs cfg.big_endian q.fport)) := by
      funext l
      apply decide_eq_decide.mpr
      simp only [accepted4, exact_rule, hproxy, Bool.false_eq_true, false_and, false_or]
      tauto
    simp only [deciding_record4, hfun]
    cases List.find? _ (List.drop 1 lines) <;> rfl

/-- C2 at the sample input: a table containing local 10.0.0.5:4000, foreign
93.184.216.34:80, uid 1000, inode 55 (after the header and a line of another
connection), queried with that 4-tuple, yields 1000. -/
theorem C2_scanner_reference_witness :
    get_user4 sample_cfg (-1) ⟨send_result.ok, [], some [header4, other_line, sample_line]⟩
      sample_query 7 7 = some ⟨1000, -1, [Event.fopen ProcFile.CFILE]⟩ :=
  (C2_scanner_reference sample_cfg
    ⟨send_result.ok, [], some [header4, other_line, sample_line]⟩ sample_query 7 7 rfl).trans
    (by decide)

/-- C3 (order independence of the scanner). Lines that are malformed (the line does
not parse into all its fields) or well-formed but pass none of the tests of the loop,
inserted after the header in front of the rest of a table, do not change the result
of the table scan of `get_user4`, nor that of `get_user6`; and when the rest of the
table starts with a matching record, that record still decides the result. -/
theorem C3_order_independence (cfg : Config) (q : query) (uid inode uid1 inode1 : Nat)
    (hdr : scan4) (pre rest : List scan4) (hdr6 : scan6) (pre6 rest6 : List scan6)
    (hpre : ∀ l ∈ pre, l.ret ≠ 6 ∨
      (¬ (cfg.opt_PROXY = true ∧ proxy_rule cfg q.faddr.s_addr
          (ntohs cfg.big_endian q.lport) (ntohs cfg.big_endian q.fport) l) ∧
        ¬ exact_rule q.laddr.s_addr q.faddr.s_addr
          (ntohs cfg.big_endian q.lport) (ntohs cfg.big_endian q.fport) l))
    (hpre6 : ∀ l ∈ pre6, l.ret ≠ 12 ∨
      ¬ match6 q.laddr q.faddr (ntohs cfg.big_endian q.lport)
          (ntohs cfg.big_endian q.fport) l) :
    get_user4_scan cfg (some (hdr :: (pre ++ rest))) q uid inode =
      get_user4_scan cfg (some (hdr :: rest)) q uid1 inode1 ∧
    get_user6_scan cfg (some (hdr6 :: (pre6 ++ rest6))) q =
      get_user6_scan cfg (some (hdr6 :: rest6)) q ∧
    (∀ m tail, rest = m :: tail →
      accepted4 cfg q.laddr.s_addr q.faddr.s_addr (ntohs cfg.big_endian q.lport)
        (ntohs cfg.big_endian q.fport) m →
      get_user4_scan cfg (some (hdr :: (pre ++ rest))) q uid inode =
        out_success m.uid m.inode) ∧
    (∀ m tail, rest6 = m :: tail →
      accepted6 q.laddr q.faddr (ntohs cfg.big_endian q.lport)
        (ntohs cfg.big_endian q.fport) m →
      get_user6_scan cfg (some (hdr6 :: (pre6 ++ rest6))) q = out_success m.uid m.inode) := by
  have h4 : (pre ++ rest).find? (fun l => decide (accepted4 cfg q.laddr.s_addr
        q.faddr.s_addr (ntohs cfg.big_endian q.lport) (ntohs cfg.big_endian q.fport) l)) =
      rest.find? (fun l => decide (accepted4 cfg q.laddr.s_addr
        q.faddr.s_addr (ntohs cfg.big_endian q.lport) (ntohs cfg.big_endian q.fport) l)) := by
    rw [List.find?_append]
    have hnone : pre.find? (fun l => decide (accepted4 cfg q.laddr.s_addr
        q.faddr.s_addr (ntohs cfg.big_endian q.lport) (ntohs cfg.big_endian q.fport) l)) =
        none := by
      rw [List.find?_eq_none]
      intro l hl
      simp only [decide_eq_true_eq]
      rintro ⟨h6, hm⟩
      rcases hpre l hl with h | ⟨hp, he⟩
      · exact h h6
      · rcases hm with hm | hm
        · exact hp hm
        · exact he hm
    rw [hnone]; rfl
  have h6 : (pre6 ++ rest6).find? (fun l => decide (accepted6 q.laddr q.faddr
        (ntohs cfg.big_endian q.lport) (ntohs cfg.big_endian q.fport) l)) =
      rest6.find? (fun l => decide (accepted6 q.laddr q.faddr
        (ntohs cfg.big_endian q.lport) (ntohs cfg.big_endian q.fport) l)) := by
    rw [List.find?_append]
    have hnone : pre6.find? (fun l => decide (accepted6 q.laddr q.faddr
        (ntohs cfg.big_endian q.lport) (ntohs cfg.big_endian q.fport) l)) = none := by
      rw [List.find?_eq_none]
      intro l hl
      simp only [decide_eq_true_eq]
      rintro ⟨h12, hm⟩
      rcases hpre6 l hl with h | h
      · exact h h12
      · exact h hm
    rw [hnone]; rfl
  refine ⟨?_, ?_, ?_, ?_⟩
  · rw [get_user4_scan_eq, get_user4_scan_eq]
    simp only [deciding_record4, List.drop_succ_cons, List.drop_zero, h4]
  · rw [get_user6_scan_eq, get_user6_scan_eq]
    simp only [deciding_record6, List.drop_succ_cons, List.drop_zero, h6]
  · intro m tail hrest hm
    rw [get_user4_scan_eq]
    simp only [deciding_record4, List.drop_succ_cons, List.drop_zero]
    rw [h4, hrest, List.find?_cons_of_pos _ (by simpa using hm)]
  · intro m tail hrest hm
    rw [get_user6_scan_eq]
    simp only [deciding_record6, List.drop_succ_cons, List.drop_zero]
    rw [h6, hrest, List.find?_cons_of_pos _ (by simpa using hm)]
    rfl

/-- C3 at concrete inputs: a malformed line and a line of another connection in front
of the sample record leave the result at uid 1000, for both tables. -/
theorem C3_order_independence_witness :
    get_user4_scan sample_cfg (some (header4 :: ([short_line, other_line] ++ [sample_line])))
        sample_query 7 7 =
      get_user4_scan sample_cfg (some (header4 :: [sample_line])) sample_query 0 0 ∧
    get_user6_scan sample_cfg (some (header6 :: ([short_line6, other_line6] ++ [sample_line6])))
        sample_query6 =
      get_user6_scan sample_cfg (some (header6 :: [sample_line6])) sample_query6 ∧
    get_user4_scan sample_cfg (some (header4 :: ([short_line, other_line] ++ [sample_line])))
        sample_query 7 7 = 1000 ∧
    get_user6_scan sample_cfg (some (header6 :: ([short_line6, other_line6] ++ [sample_line6])))
        sample_query6 = 1000 :=
  have h := C3_order_independence sample_cfg sample_query 7 7 0 0 header4
    [short_line, other_line] [sample_line] header6 [short_line6, other_line6] [sample_line6]
    (by decide) (by decide)
  ⟨h.1, (C3_order_independence sample_cfg sample_query6 7 7 0 0 header4
      [] [] header6 [short_line6, other_line6] [sample_line6]
      (by decide) (by decide)).2.1,
    h.2.2.1 sample_line [] rfl (by decide),
    (C3_order_independence sample_cfg sample_query6 7 7 0 0 header4
      [] [] header6 [short_line6, other_line6] [sample_line6]
      (by decide) (by decide)).2.2.2 sample_line6 [] rfl (by decide)⟩

/-- C4 (proxy-mode matching in `get_user4`). For a query whose foreign address is the
proxy address and a fully parsed record whose remote address is not the proxy address
and whose two ports equal the query's: with the PROXY option enabled the loop jumps to
`out_success` at that record, whatever its local address; with the option disabled the
same record passes neither test and the loop goes on to the next line. -/
theorem C4_proxy_mode_matching (cfg : Config) (q : query) (hdr l : scan4)
    (rest : List scan4) (uid inode uid1 inode1 : Nat)
    (hret : l.ret = 6)
    (hq : q.faddr.s_addr = cfg.proxy.s_addr)
    (hremote : l.remote ≠ cfg.proxy.s_addr)
    (hlport : l.portl_temp % 65536 = ntohs cfg.big_endian q.lport)
    (hfport : l.portf_temp % 65536 = ntohs cfg.big_endian q.fport) :
    get_user4_scan { cfg with opt_PROXY := true } (some (hdr :: l :: rest)) q uid inode =
      out_success l.uid l.inode ∧
    get_user4_scan { cfg with opt_PROXY := false } (some (hdr :: l :: rest)) q uid inode =
      get_user4_scan { cfg with opt_PROXY := false } (some (hdr :: rest)) q uid1 inode1 ∧
    accepted4 { cfg with opt_PROXY := true } q.laddr.s_addr q.faddr.s_addr
      (ntohs cfg.big_endian q.lport) (ntohs cfg.big_endian q.fport) l ∧
    ¬ accepted4 { cfg with opt_PROXY := false } q.laddr.s_addr q.faddr.s_addr
      (ntohs cfg.big_endian q.lport) (ntohs cfg.big_endian q.fport) l := by
  have hon : accepted4 { cfg with opt_PROXY := true } q.laddr.s_addr q.faddr.s_addr
      (ntohs cfg.big_endian q.lport) (ntohs cfg.big_endian q.fport) l :=
    ⟨hret, Or.inl ⟨rfl, hq, hremote, hlport.symm, hfport.symm⟩⟩
  have hoff : ¬ accepted4 { cfg with opt_PROXY := false } q.laddr.s_addr q.faddr.s_addr
      (ntohs cfg.big_endian q.lport) (ntohs cfg.big_endian q.fport) l := by
    rintro ⟨_, h | h⟩
    · exact Bool.noConfusion h.1
    · exact hremote (h.2.1.trans hq)
  refine ⟨?_, ?_, hon, hoff⟩
  · rw [get_user4_scan_eq]
    simp only [deciding_record4, List.drop_succ_cons, List.drop_zero]
    rw [List.find?_cons_of_pos _ (by simpa using hon)]
  · rw [get_user4_scan_eq, get_user4_scan_eq]
    simp only [deciding_record4, List.drop_succ_cons, List.drop_zero]
    rw [List.find?_cons_of_neg _ (by simpa using hoff)]

/-- C4 at concrete inputs: the query through the proxy 192.0.2.1 and a record with the
same ports, local 10.0.0.9 and remote 198.51.100.7; accepted (uid 1000) with PROXY
enabled, skipped (`MISSING_UID` on a table holding only that record) with PROXY
disabled. -/
theorem C4_proxy_mode_matching_witness :
    get_user4_scan { sample_cfg_proxy with opt_PROXY := true }
      (some [header4, proxied_line]) proxy_query 7 7 = 1000 ∧
    get_user4_scan { sample_cfg_proxy with opt_PROXY := false }
      (some [header4, proxied_line]) proxy_query 7 7 = MISSING_UID :=
  have h := C4_proxy_mode_matching sample_cfg_proxy proxy_query header4 proxied_line []
    7 7 7 7 rfl rfl (by decide) (by decide) (by decide)
  ⟨h.1, h.2.1⟩

/-- C5 as stated fails: with the PROXY option enabled and the query's foreign address
equal to the proxy address, a fully parsed record with the query's two ports whose
remote address is the proxy address itself and whose local address is not the query's
is not accepted: on a table holding only that record (uid 1000, inode 55) the scan of
`get_user4` returns `MISSING_UID`. -/
theorem C5_address_agnostic_counterexample :
    sample_cfg_proxy.opt_PROXY = true ∧
    proxy_query.faddr.s_addr = sample_cfg_proxy.proxy.s_addr ∧
    to_proxy_line.ret = 6 ∧
    to_proxy_line.portl_temp % 65536 = ntohs sample_cfg_proxy.big_endian proxy_query.lport ∧
    to_proxy_line.portf_temp % 65536 = ntohs sample_cfg_proxy.big_endian proxy_query.fport ∧
    ¬ accepted4 sample_cfg_proxy proxy_query.laddr.s_addr proxy_query.faddr.s_addr
      (ntohs sample_cfg_proxy.big_endian proxy_query.lport)
      (ntohs sample_cfg_proxy.big_endian proxy_query.fport) to_proxy_line ∧
    get_user4_scan sample_cfg_proxy (some [header4, to_proxy_line]) proxy_query 7 7 =
      MISSING_UID ∧
    out_success to_proxy_line.uid to_proxy_line.inode = 1000 := by
  decide

/-- C5, amended (proxy rule of `get_user4`). With the PROXY option enabled and the
query's foreign address equal to the proxy address, a fully parsed record whose two
ports equal the query's is accepted, whatever its local address, when its remote
address differs from the proxy address; a record whose remote address is the proxy
address is accepted when its local address equals the query's and is skipped when it
does not. -/
theorem C5_proxy_rule_amended (cfg : Config) (q : query) (hdr l : scan4)
    (rest : List scan4) (uid inode uid1 inode1 : Nat)
    (hproxy : cfg.opt_PROXY = true)
    (hq : q.faddr.s_addr = cfg.proxy.s_addr)
    (hret : l.ret = 6)
    (hlport : l.portl_temp % 65536 = ntohs cfg.big_endian q.lport)
    (hfport : l.portf_temp % 65536 = ntohs cfg.big_endian q.fport) :
    (l.remote ≠ cfg.proxy.s_addr →
      get_user4_scan cfg (some (hdr :: l :: rest)) q uid inode = out_success l.uid l.inode) ∧
    (l.remote = cfg.proxy.s_addr → l.local_ = q.laddr.s_addr →
      get_user4_scan cfg (some (hdr :: l :: rest)) q uid inode = out_success l.uid l.inode) ∧
    (l.remote = cfg.proxy.s_addr → l.local_ ≠ q.laddr.s_addr →
      get_user4_scan cfg (some (hdr :: l :: rest)) q uid inode =
        get_user4_scan cfg (some (hdr :: rest)) q uid1 inode1) := by
  refine ⟨?_, ?_, ?_⟩
  · intro hremote
    have ha : accepted4 cfg q.laddr.s_addr q.faddr.s_addr (ntohs cfg.big_endian q.lport)
        (ntohs cfg.big_endian q.fport) l :=
      ⟨hret, Or.inl ⟨hproxy, hq, hremote, hlport.symm, hfport.symm⟩⟩
    rw [get_user4_scan_eq]
    simp only [deciding_record4, List.drop_succ_cons, List.drop_zero]
    rw [List.find?_cons_of_pos _ (by simpa using ha)]
  · intro hremote hlocal
    have ha : accepted4 cfg q.laddr.s_addr q.faddr.s_addr (ntohs cfg.big_endian q.lport)
        (ntohs cfg.big_endian q.fport) l :=
      ⟨hret, Or.inr ⟨hlocal, hremote.trans hq.symm, hlport, hfport⟩⟩
    rw [get_user4_scan_eq]
    simp only [deciding_record4, List.drop_succ_cons, List.drop_zero]
    rw [List.find?_cons_of_pos _ (by simpa using ha)]
  · intro hremote hlocal
    have hna : ¬ accepted4 cfg q.laddr.s_addr q.faddr.s_addr (ntohs cfg.big_endian q.lport)
        (ntohs cfg.big_endian q.fport) l := by
      rintro ⟨_, h | h⟩
      · exact h.2.2.1 hremote
      · exact hlocal h.1
    rw [get_user4_scan_eq, get_user4_scan_eq]
    simp only [deciding_record4, List.drop_succ_cons, List.drop_zero]
    rw [List.find?_cons_of_neg _ (by simpa using hna)]

/-- C5, amended, at concrete inputs: through the proxy 192.0.2.1 the record with remote
198.51.100.7 gives uid 1000, the record with remote 192.0.2.1 and another local address
is skipped. -/
theorem C5_proxy_rule_amended_witness :
    get_user4_scan sample_cfg_proxy (some [header4, proxied_line]) proxy_query 7 7 = 1000 ∧
    get_user4_scan sample_cfg_proxy (some [header4, to_proxy_line, proxied_line])
      proxy_query 7 7 =
      get_user4_scan sample_cfg_proxy (some [header4, proxied_line]) proxy_query 0 0 :=
  ⟨(C5_proxy_rule_amended sample_cfg_proxy proxy_query header4 proxied_line [] 7 7 0 0
      rfl rfl rfl (by decide) (by decide)).1 (by decide),
    (C5_proxy_rule_amended sample_cfg_proxy proxy_query header4 to_proxy_line
      [proxied_line] 7 7 0 0 rfl rfl rfl (by decide) (by decide)).2.2 rfl (by decide)⟩

/-- C6 (diagnostics first, scanner as fallback). When the channel is open
(`netlink_sock` is not -1) and `lookup_tcp_diag` returns a value other than
`MISSING_UID`, `get_user4` returns that result: the table is not opened, and the
result is the same whatever the table holds. When the channel is closed, or
`lookup_tcp_diag` returned `MISSING_UID`, the returned uid is that of the table scan
alone, and the table is opened after the diagnostics calls, if any. The same holds
for `get_user6`. -/
theorem C6_diagnostics_first (cfg : Config) (netlink_sock : Int) (q : query)
    (uid inode : Nat) (os : os_env4) (os6 : os_env6) :
    (∀ r, netlink_sock ≠ -1 →
      lookup_tcp_diag netlink_sock os.send os.recvs q.laddr q.faddr q.lport q.fport =
        some r →
      r.uid ≠ MISSING_UID →
      get_user4 cfg netlink_sock os q uid inode = some r ∧
      (∀ f, Event.fopen f ∉ r.trace) ∧
      (∀ cfile, get_user4 cfg netlink_sock { os with cfile := cfile } q uid inode =
        some r)) ∧
    (netlink_sock = -1 →
      get_user4 cfg netlink_sock os q uid inode =
        some ⟨get_user4_scan cfg os.cfile q uid inode, -1,
          [Event.fopen ProcFile.CFILE]⟩) ∧
    (∀ r, netlink_sock ≠ -1 →
      lookup_tcp_diag netlink_sock os.send os.recvs q.laddr q.faddr q.lport q.fport =
        some r →
      r.uid = MISSING_UID →
      get_user4 cfg netlink_sock os q uid inode =
        some ⟨get_user4_scan cfg os.cfile q uid inode, r.netlink_sock,
          r.trace ++ [Event.fopen ProcFile.CFILE]⟩) ∧
    (∀ r, netlink_sock ≠ -1 →
      lookup_tcp_diag netlink_sock os6.send os6.recvs q.laddr q.faddr q.lport q.fport =
        some r →
      r.uid ≠ MISSING_UID →
      get_user6 cfg netlink_sock os6 q = some r ∧
      (∀ f, Event.fopen f ∉ r.trace) ∧
      (∀ cfile6, get_user6 cfg netlink_sock { os6 with cfile6 := cfile6 } q = some r)) ∧
    (netlink_sock = -1 →
      get_user6 cfg netlink_sock os6 q =
        some ⟨get_user6_scan cfg os6.cfile6 q, -1, [Event.fopen ProcFile.CFILE6]⟩) ∧
    (∀ r, netlink_sock ≠ -1 →
      lookup_tcp_diag netlink_sock os6.send os6.recvs q.laddr q.faddr q.lport q.fport =
        some r →
      r.uid = MISSING_UID →
      get_user6 cfg netlink_sock os6 q =
        some ⟨get_user6_scan cfg os6.cfile6 q, r.netlink_sock,
          r.trace ++ [Event.fopen ProcFile.CFILE6]⟩) := by
  refine ⟨?_, ?_, ?_, ?_, ?_, ?_⟩
  · intro r hs hl hm
    refine ⟨?_, lookup_tcp_diag_trace _ _ _ _ _ _ _ r hl, ?_⟩
    · unfold get_user4
      rw [if_pos hs, hl]
      simp only [if_pos hm]
    · intro cfile
      unfold get_user4
      rw [if_pos hs]
      simp only [hl, if_pos hm]
  · intro hs
    rw [hs]
    exact get_user4_closed cfg os q uid inode
  · intro r hs hl hm
    unfold get_user4
    rw [if_pos hs, hl]
    simp only [if_neg (not_not.mpr hm)]
    rw [get_user4_scan_indep cfg os.cfile q r.uid inode uid inode]
  · intro r hs hl hm
    refine ⟨?_, lookup_tcp_diag_trace _ _ _ _ _ _ _ r hl, ?_⟩
    · unfold get_user6
      rw [if_pos hs, hl]
      simp only [if_pos hm]
    · intro cfile6
      unfold get_user6
      rw [if_pos hs]
      simp only [hl, if_pos hm]
  · intro hs
    rw [hs]
    exact get_user6_closed cfg os6 q
  · intro r hs hl hm
    unfold get_user6
    rw [if_pos hs, hl]
    simp only [if_neg (not_not.mpr hm)]

/-- C6 at concrete inputs: with the channel open and a diagnostics reply of uid 1000,
`get_user4` returns 1000 after one `sendmsg` and two `recvmsg` calls, although the
table holds a dead socket; with a DONE reply it returns the uid 1000 of the table. -/
theorem C6_diagnostics_first_witness :
    get_user4 sample_cfg 3 os_diag_answers sample_query 7 7 =
      some ⟨1000, 3, [Event.sendmsg, Event.recvmsg, Event.recvmsg]⟩ ∧
    get_user4 sample_cfg 3 os_diag_done sample_query 7 7 =
      some ⟨1000, 3, [Event.sendmsg, Event.recvmsg, Event.fopen ProcFile.CFILE]⟩ ∧
    get_user6 sample_cfg (-1) os6_diag_answers sample_query6 =
      some ⟨1000, -1, [Event.fopen ProcFile.CFILE6]⟩ :=
  ⟨((C6_diagnostics_first sample_cfg 3 sample_query 7 7 os_diag_answers
      os6_diag_answers).1 ⟨1000, 3, [Event.sendmsg, Event.recvmsg, Event.recvmsg]⟩
      (by decide) (by decide) (by decide)).1,
    (C6_diagnostics_first sample_cfg 3 sample_query 7 7 os_diag_done
      os6_diag_answers).2.2.1 ⟨MISSING_UID, 3, [Event.sendmsg, Event.recvmsg]⟩
      (by decide) (by decide) rfl,
    (C6_diagnostics_first sample_cfg (-1) sample_query6 7 7 os_diag_done
      os6_diag_answers).2.2.2.2.1 rfl⟩

/-- C7 (channel permanently gone). A `sendmsg` failure with `ECONNREFUSED` makes
`lookup_tcp_diag` close the socket, set `netlink_sock` to -1 and return `MISSING_UID`;
a failure with another errno returns `MISSING_UID` and leaves `netlink_sock` as it was.
From the closed state, every sequence of `get_user4` / `get_user6` calls returns the
results of the table scans alone, ends in the closed state, and makes no system call
but one `fopen` of the socket table per call. So a call on an open channel whose
`sendmsg` is refused, followed by any sequence of calls, makes one `sendmsg`, one
`close` and then only table scans. -/
theorem C7_channel_gone (cfg : Config) (netlink_sock : Int) (recvs : List recv_result)
    (src_addr dst_addr : sockaddr_storage) (src_port dst_port : Nat) :
    lookup_tcp_diag netlink_sock (send_result.error ECONNREFUSED) recvs src_addr dst_addr
        src_port dst_port =
      some ⟨MISSING_UID, -1, [Event.sendmsg, Event.close_netlink]⟩ ∧
    (∀ errno, errno ≠ ECONNREFUSED →
      lookup_tcp_diag netlink_sock (send_result.error errno) recvs src_addr dst_addr
          src_port dst_port =
        some ⟨MISSING_UID, netlink_sock, [Event.sendmsg]⟩) ∧
    (∀ calls : List lookup_call,
      run_calls cfg (-1) calls =
        some (calls.map (scan_of_call cfg), -1,
          calls.map (fun c => Event.fopen (file_of_call c)))) ∧
    (∀ (c : lookup_call) (calls : List lookup_call), netlink_sock ≠ -1 →
      (match c with
        | lookup_call.user4 os _ _ _ => os.send
        | lookup_call.user6 os _ => os.send) = send_result.error ECONNREFUSED →
      run_calls cfg netlink_sock (c :: calls) =
        some ((c :: calls).map (scan_of_call cfg), -1,
          [Event.sendmsg, Event.close_netlink] ++
            (c :: calls).map (fun c => Event.fopen (file_of_call c)))) := by
  refine ⟨?_, ?_, run_calls_closed cfg, ?_⟩
  · simp [lookup_tcp_diag]
  · intro errno he
    simp [lookup_tcp_diag, he]
  · intro c calls hs hsend
    have hm : ¬ (MISSING_UID ≠ MISSING_UID) := fun h => h rfl
    cases c with
    | user4 os q uid inode =>
      simp only at hsend
      simp only [run_calls, run_call, get_user4, if_pos hs, hsend, lookup_tcp_diag, if_true,
        if_neg hm, run_calls_closed, List.map_cons, scan_of_call, file_of_call]
      rw [get_user4_scan_indep cfg os.cfile q MISSING_UID inode uid inode]
      rfl
    | user6 os q =>
      simp only at hsend
      simp only [run_calls, run_call, get_user6, if_pos hs, hsend, lookup_tcp_diag, if_true,
        if_neg hm, run_calls_closed, List.map_cons, scan_of_call, file_of_call]
      rfl

/-- C7 at concrete inputs (scenario 4): on a channel open as descriptor 3, a lookup
whose `sendmsg` is refused falls back to the table (uid 1000); the two lookups that
follow make no diagnostics call although replies would be available, and return what
the tables hold. -/
theorem C7_channel_gone_witness :
    run_calls sample_cfg 3
      [lookup_call.user4 os_refused sample_query 7 7,
        lookup_call.user4 os_diag_answers sample_query 7 7,
        lookup_call.user6 os6_diag_answers sample_query6] =
      some ([1000, MISSING_UID, 1000], -1,
        [Event.sendmsg, Event.close_netlink, Event.fopen ProcFile.CFILE,
          Event.fopen ProcFile.CFILE, Event.fopen ProcFile.CFILE6]) :=
  ((C7_channel_gone sample_cfg 3 [] sample_query.laddr sample_query.faddr
      sample_query.lport sample_query.fport).2.2.2
    (lookup_call.user4 os_refused sample_query 7 7)
    [lookup_call.user4 os_diag_answers sample_query 7 7,
      lookup_call.user6 os6_diag_answers sample_query6]
    (by decide) rfl).trans (by decide)

/-- C8 as stated fails: a truncated datagram (`MSG_TRUNC` set), and a datagram with
trailing bytes left after its last message, give the uid 1000 of their first message
with sequence number 1, not `MISSING_UID`: the flag and the remaining length are only
looked at when the walk over the datagram ends without such a message. -/
theorem C8_truncated_counterexample :
    lookup_tcp_diag 3 send_result.ok
        [recv_result.data 96 [sample_reply TCPDIAG_GETSOCK 1 1000 55] true]
        sample_query.laddr sample_query.faddr sample_query.lport sample_query.fport =
      some ⟨1000, 3, [Event.sendmsg, Event.recvmsg]⟩ ∧
    lookup_tcp_diag 3 send_result.ok
        [recv_result.data 100 [sample_reply TCPDIAG_GETSOCK 1 1000 55] false]
        sample_query.laddr sample_query.faddr sample_query.lport sample_query.fport =
      some ⟨1000, 3, [Event.sendmsg, Event.recvmsg]⟩ ∧
    (nlmsg_walk [sample_reply TCPDIAG_GETSOCK 1 1000 55] 100).2 = 4 ∧
    (1000 : Nat) ≠ MISSING_UID := by
  decide

/-- C8, amended (reply decoding in `lookup_tcp_diag`). A message whose sequence number
is not 1 is skipped. After any number of interrupted receives and of datagrams passed
over, the next result of `recvmsg` ends the query, whatever would follow it: if it is a
non-empty datagram with a message of sequence number 1, the first such message decides
(`MISSING_UID` for a DONE or ERROR message; for a message whose ports and addresses
equal the query's, its uid, or `MISSING_UID` for uid 0 with inode 0; `MISSING_UID` for
a message that does not match), whether or not the datagram is truncated or has
trailing bytes; a receive error other than `EINTR` / `EAGAIN` and an empty receive give
`MISSING_UID`; and a datagram without a message of sequence number 1 that is truncated
or has trailing unparsed bytes gives `MISSING_UID`. -/
theorem C8_reply_decoding_amended (netlink_sock : Int)
    (src_addr dst_addr : sockaddr_storage) (src_port dst_port : Nat)
    (pre rest : List recv_result) (hpre : ∀ x ∈ pre, passed_over x = true) :
    (∀ h msgs uret, NLMSG_OK h uret → h.nlmsg_seq ≠ 1 →
      diag_walk src_addr dst_addr src_port dst_port (h :: msgs) uret =
        diag_walk src_addr dst_addr src_port dst_port msgs (NLMSG_NEXT_len h uret)) ∧
    (∀ ret msgs msg_trunc h, ret ≠ 0 → first_seq1 msgs ret = some h →
      lookup_tcp_diag netlink_sock send_result.ok
          (pre ++ recv_result.data ret msgs msg_trunc :: rest)
          src_addr dst_addr src_port dst_port =
        some ⟨(if h.nlmsg_type = NLMSG_DONE ∨ h.nlmsg_type = NLMSG_ERROR then MISSING_UID
            else if reply_matches src_addr dst_addr src_port dst_port h then
              (if h.tcpdiag_inode = 0 ∧ h.tcpdiag_uid = 0 then MISSING_UID
                else h.tcpdiag_uid)
            else MISSING_UID),
          netlink_sock, Event.sendmsg :: List.replicate (pre.length + 1) Event.recvmsg⟩) ∧
    (∀ errno, errno ≠ EINTR → errno ≠ EAGAIN →
      lookup_tcp_diag netlink_sock send_result.ok (pre ++ recv_result.error errno :: rest)
          src_addr dst_addr src_port dst_port =
        some ⟨MISSING_UID, netlink_sock,
          Event.sendmsg :: List.replicate (pre.length + 1) Event.recvmsg⟩) ∧
    (∀ msgs msg_trunc,
      lookup_tcp_diag netlink_sock send_result.ok
          (pre ++ recv_result.data 0 msgs msg_trunc :: rest)
          src_addr dst_addr src_port dst_port =
        some ⟨MISSING_UID, netlink_sock,
          Event.sendmsg :: List.replicate (pre.length + 1) Event.recvmsg⟩) ∧
    (∀ ret msgs msg_trunc, ret ≠ 0 → first_seq1 msgs ret = none →
      msg_trunc = true ∨ (nlmsg_walk msgs ret).2 ≠ 0 →
      lookup_tcp_diag netlink_sock send_result.ok
          (pre ++ recv_result.data ret msgs msg_trunc :: rest)
          src_addr dst_addr src_port dst_port =
        some ⟨MISSING_UID, netlink_sock,
          Event.sendmsg :: List.replicate (pre.length + 1) Event.recvmsg⟩) := by
  refine ⟨?_, ?_, ?_, ?_, ?_⟩
  · intro h msgs uret hok hs
    rw [diag_walk, if_pos hok, if_pos hs]
  · intro ret msgs msg_trunc h h0 hf
    have hp : passed_over (recv_result.data ret msgs msg_trunc) = false := by
      simp [passed_over, hf]
    rw [lookup_tcp_diag_after_passed netlink_sock src_addr dst_addr src_port dst_port
      pre _ rest hpre hp]
    simp only [verdict, if_neg h0, hf, reply_uid]
  · intro errno h1 h2
    have hp : passed_over (recv_result.error errno) = false := by
      simp [passed_over, h1, h2]
    rw [lookup_tcp_diag_after_passed netlink_sock src_addr dst_addr src_port dst_port
      pre _ rest hpre hp]
    simp only [verdict]
  · intro msgs msg_trunc
    have hp : passed_over (recv_result.data 0 msgs msg_trunc) = false := by
      simp [passed_over]
    rw [lookup_tcp_diag_after_passed netlink_sock src_addr dst_addr src_port dst_port
      pre _ rest hpre hp]
    simp only [verdict, if_true]
  · intro ret msgs msg_trunc h0 hf ht
    have hp : passed_over (recv_result.data ret msgs msg_trunc) = false := by
      simp only [passed_over, hf, decide_eq_false_iff_not]
      rintro ⟨_, _, h1, h2⟩
      rcases ht with ht | ht
      · rw [h1] at ht; exact Bool.noConfusion ht
      · exact ht h2
    rw [lookup_tcp_diag_after_passed netlink_sock src_addr dst_addr src_port dst_port
      pre _ rest hpre hp]
    simp only [verdict, if_neg h0, hf]

/-- C8, amended, at concrete inputs: after an interrupted receive and a complete
datagram holding only a message with sequence number 2, a datagram whose first message
has sequence number 7 and whose second has sequence number 1 and uid 1000 gives 1000,
the later DONE message and the later datagram being ignored; a truncated datagram
without a message of sequence number 1 gives `MISSING_UID`. -/
theorem C8_reply_decoding_amended_witness :
    lookup_tcp_diag 3 send_result.ok
        ([recv_result.error EINTR,
            recv_result.data 96 [sample_reply TCPDIAG_GETSOCK 2 2000 66] false] ++
          recv_result.data 288 [sample_reply TCPDIAG_GETSOCK 7 2000 66,
            sample_reply TCPDIAG_GETSOCK 1 1000 55, sample_reply NLMSG_DONE 1 0 0] false ::
          [recv_result.data 96 [sample_reply TCPDIAG_GETSOCK 1 3000 77] false])
        sample_query.laddr sample_query.faddr sample_query.lport sample_query.fport =
      some ⟨1000, 3, [Event.sendmsg, Event.recvmsg, Event.recvmsg, Event.recvmsg]⟩ ∧
    lookup_tcp_diag 3 send_result.ok
        ([recv_result.error EINTR] ++
          recv_result.data 96 [sample_reply TCPDIAG_GETSOCK 2 2000 66] true ::
          [recv_result.data 96 [sample_reply TCPDIAG_GETSOCK 1 3000 77] false])
        sample_query.laddr sample_query.faddr sample_query.lport sample_query.fport =
      some ⟨MISSING_UID, 3, [Event.sendmsg, Event.recvmsg, Event.recvmsg]⟩ :=
  ⟨(C8_reply_decoding_amended 3 sample_query.laddr sample_query.faddr sample_query.lport
      sample_query.fport
      [recv_result.error EINTR,
        recv_result.data 96 [sample_reply TCPDIAG_GETSOCK 2 2000 66] false]
      [recv_result.data 96 [sample_reply TCPDIAG_GETSOCK 1 3000 77] false]
      (by decide)).2.1 288 _ false (sample_reply TCPDIAG_GETSOCK 1 1000 55)
      (by decide) (by decide),
    (C8_reply_decoding_amended 3 sample_query.laddr sample_query.faddr sample_query.lport
      sample_query.fport [recv_result.error EINTR]
      [recv_result.data 96 [sample_reply TCPDIAG_GETSOCK 1 3000 77] false]
      (by decide)).2.2.2.2 96 _ true (by decide) (by decide) (Or.inl rfl)⟩

/-- C9 as stated fails: with masquerading enabled, the static table absent and both
connection-tracking tables present, `core_init` selects the modern variant
`CT_NFCONNTRACK`, not the legacy `CT_IPCONNTRACK`; the legacy table is not even
probed. -/
theorem C9_legacy_first_counterexample :
    fs_both_tables ProcFile.MASQFILE = fopen_result.error ENOENT ∧
    fs_both_tables ProcFile.IPCONNTRACK = fopen_result.ok ∧
    fs_both_tables ProcFile.NFCONNTRACK = fopen_result.ok ∧
    (core_init build_libnfct fs_both_tables (init_state.start true)).state.conntrack =
      conntrack_t.CT_NFCONNTRACK ∧
    (core_init build_libnfct fs_both_tables (init_state.start true)).state.conntrack ≠
      conntrack_t.CT_IPCONNTRACK ∧
    (core_init build_libnfct fs_both_tables (init_state.start true)).trace =
      [Event.fopen ProcFile.MASQFILE, Event.fopen ProcFile.NFCONNTRACK] := by
  decide

/-- C9, amended (backend selection priority in `core_init`, masquerading enabled). The
sources are probed in the fixed order (1) static masquerade table, (2) modern
connection-tracking table `/proc/net/nf_conntrack`, (3) legacy connection-tracking
table `/proc/net/ip_conntrack`, and (4) the live channel is taken, in a build with
libnfct support, when all three are absent; the first source that opens becomes the
active variant. In particular, when the static table is absent and both
connection-tracking tables are present, the modern variant `CT_NFCONNTRACK` is
selected. -/
theorem C9_backend_priority_amended (b : Build) (fs : ProcFile → fopen_result)
    (s : init_state) (hb : b.MASQ_SUPPORT = true) (hs : s.opt_MASQ = true) :
    (core_init b fs s).trace <+:
      [Event.fopen ProcFile.MASQFILE, Event.fopen ProcFile.NFCONNTRACK,
        Event.fopen ProcFile.IPCONNTRACK] ∧
    (fs ProcFile.MASQFILE = fopen_result.ok →
      core_init b fs s =
        ⟨true, { s with masq_fp := some ProcFile.MASQFILE,
                        conntrack := conntrack_t.CT_MASQFILE },
          [Event.fopen ProcFile.MASQFILE]⟩) ∧
    (fs ProcFile.MASQFILE = fopen_result.error ENOENT →
      fs ProcFile.NFCONNTRACK = fopen_result.ok →
      core_init b fs s =
        ⟨true, { s with masq_fp := some ProcFile.NFCONNTRACK,
                        conntrack := conntrack_t.CT_NFCONNTRACK },
          [Event.fopen ProcFile.MASQFILE, Event.fopen ProcFile.NFCONNTRACK]⟩) ∧
    (fs ProcFile.MASQFILE = fopen_result.error ENOENT →
      fs ProcFile.NFCONNTRACK = fopen_result.error ENOENT →
      fs ProcFile.IPCONNTRACK = fopen_result.ok →
      core_init b fs s =
        ⟨true, { s with masq_fp := some ProcFile.IPCONNTRACK,
                        conntrack := conntrack_t.CT_IPCONNTRACK },
          [Event.fopen ProcFile.MASQFILE, Event.fopen ProcFile.NFCONNTRACK,
            Event.fopen ProcFile.IPCONNTRACK]⟩) ∧
    (fs ProcFile.MASQFILE = fopen_result.error ENOENT →
      fs ProcFile.NFCONNTRACK = fopen_result.error ENOENT →
      fs ProcFile.IPCONNTRACK = fopen_result.error ENOENT →
      b.libnfct = true →
      core_init b fs s =
        ⟨true, { s with masq_fp := none, conntrack := conntrack_t.CT_LIBNFCT },
          [Event.fopen ProcFile.MASQFILE, Event.fopen ProcFile.NFCONNTRACK,
            Event.fopen ProcFile.IPCONNTRACK]⟩) := by
  refine ⟨?_, ?_, ?_, ?_, ?_⟩
  · unfold core_init
    simp only [hb, hs, if_true, not_true_eq_false, if_false]
    cases fs ProcFile.MASQFILE with
    | ok => exact ⟨[Event.fopen ProcFile.NFCONNTRACK, Event.fopen ProcFile.IPCONNTRACK], rfl⟩
    | error e1 =>
      by_cases h1 : e1 ≠ ENOENT
      · simp only [if_pos h1]
        exact ⟨[Event.fopen ProcFile.NFCONNTRACK, Event.fopen ProcFile.IPCONNTRACK], rfl⟩
      · simp only [if_neg h1]
        cases fs ProcFile.NFCONNTRACK with
        | ok => exact ⟨[Event.fopen ProcFile.IPCONNTRACK], rfl⟩
        | error e2 =>
          by_cases h2 : e2 ≠ ENOENT
          · simp only [if_pos h2]
            exact ⟨[Event.fopen ProcFile.IPCONNTRACK], rfl⟩
          · simp only [if_neg h2]
            cases fs ProcFile.IPCONNTRACK with
            | ok => exact ⟨[], rfl⟩
            | error e3 =>
              by_cases h3 : e3 ≠ ENOENT
              · simp only [if_pos h3]
                exact ⟨[], rfl⟩
              · simp only [if_neg h3]
                cases b.libnfct <;> exact ⟨[], rfl⟩
  · intro h1
    simp [core_init, hb, hs, h1]
  · intro h1 h2
    simp [core_init, hb, hs, h1, h2]
  · intro h1 h2 h3
    simp [core_init, hb, hs, h1, h2, h3]
  · intro h1 h2 h3 hl
    simp [core_init, hb, hs, h1, h2, h3, hl]

/-- C9, amended, at concrete inputs: with both connection-tracking tables present and
no static table the modern variant is selected; with only the legacy table present the
legacy variant is selected, after the modern table has been probed. -/
theorem C9_backend_priority_amended_witness :
    core_init build_libnfct fs_both_tables (init_state.start true) =
      ⟨true, ⟨true, some ProcFile.NFCONNTRACK, conntrack_t.CT_NFCONNTRACK⟩,
        [Event.fopen ProcFile.MASQFILE, Event.fopen ProcFile.NFCONNTRACK]⟩ ∧
    core_init build_libnfct fs_legacy_only (init_state.start true) =
      ⟨true, ⟨true, some ProcFile.IPCONNTRACK, conntrack_t.CT_IPCONNTRACK⟩,
        [Event.fopen ProcFile.MASQFILE, Event.fopen ProcFile.NFCONNTRACK,
          Event.fopen ProcFile.IPCONNTRACK]⟩ :=
  ⟨(C9_backend_priority_amended build_libnfct fs_both_tables (init_state.start true)
      rfl rfl).2.2.1 rfl rfl,
    (C9_backend_priority_amended build_libnfct fs_legacy_only (init_state.start true)
      rfl rfl).2.2.2.1 rfl rfl rfl⟩

/-- C10 (failure condition of `core_init`). `core_init` returns false exactly when one
of the files it probes fails to open with an errno other than `ENOENT`, that is, in a
masquerading build with the MASQ option enabled, when the first probed file that does
not fail with `ENOENT` fails with another errno. With the MASQ option disabled it
returns true, probes nothing and leaves `conntrack` as it was (`CT_UNKNOWN` at
program start). When all three files are absent it returns true and selects
`CT_LIBNFCT` in a build with libnfct support, and otherwise disables the MASQ option
and leaves `conntrack` as it was. -/
theorem C10_core_init_failure (b : Build) (fs : ProcFile → fopen_result) (s : init_state) :
    ((core_init b fs s).ret = false ↔
      ∃ f e, Event.fopen f ∈ (core_init b fs s).trace ∧ fs f = fopen_result.error e ∧
        e ≠ ENOENT) ∧
    ((core_init b fs s).ret = false ↔
      b.MASQ_SUPPORT = true ∧ s.opt_MASQ = true ∧ ∃ e, e ≠ ENOENT ∧
        (fs ProcFile.MASQFILE = fopen_result.error e ∨
          (fs ProcFile.MASQFILE = fopen_result.error ENOENT ∧
            (fs ProcFile.NFCONNTRACK = fopen_result.error e ∨
              (fs ProcFile.NFCONNTRACK = fopen_result.error ENOENT ∧
                fs ProcFile.IPCONNTRACK = fopen_result.error e))))) ∧
    (b.MASQ_SUPPORT = true → s.opt_MASQ = false →
      core_init b fs s = ⟨true, { s with masq_fp := none }, []⟩) ∧
    (b.MASQ_SUPPORT = false → core_init b fs s = ⟨true, s, []⟩) ∧
    (core_init b fs (init_state.start false)).state.conntrack = conntrack_t.CT_UNKNOWN ∧
    (b.MASQ_SUPPORT = true → s.opt_MASQ = true →
      fs ProcFile.MASQFILE = fopen_result.error ENOENT →
      fs ProcFile.NFCONNTRACK = fopen_result.error ENOENT →
      fs ProcFile.IPCONNTRACK = fopen_result.error ENOENT →
      core_init b fs s =
        if b.libnfct = true then
          ⟨true, { s with masq_fp := none, conntrack := conntrack_t.CT_LIBNFCT },
            [Event.fopen ProcFile.MASQFILE, Event.fopen ProcFile.NFCONNTRACK,
              Event.fopen ProcFile.IPCONNTRACK]⟩
        else
          ⟨true, { s with masq_fp := none, opt_MASQ := false },
            [Event.fopen ProcFile.MASQFILE, Event.fopen ProcFile.NFCONNTRACK,
              Event.fopen ProcFile.IPCONNTRACK]⟩) := by
  refine ⟨?_, ?_, ?_, ?_, ?_, ?_⟩
  · unfold core_init
    cases hb : b.MASQ_SUPPORT <;> cases hm : s.opt_MASQ <;> try simp
    cases h1 : fs ProcFile.MASQFILE with
    | ok => simp [h1]
    | error e1 =>
      by_cases he1 : e1 = ENOENT
      · subst he1
        cases h2 : fs ProcFile.NFCONNTRACK with
        | ok => simp [h1, h2]
        | error e2 =>
          by_cases he2 : e2 = ENOENT
          · subst he2
            cases h3 : fs ProcFile.IPCONNTRACK with
            | ok => simp [h1, h2, h3]
            | error e3 =>
              by_cases he3 : e3 = ENOENT
              · subst he3
                cases b.libnfct <;> simp [h1, h2, h3]
              · simp [h1, h2, h3, he3]
          · simp [h1, h2, he2]
      · simp [h1, he1]
  · unfold core_init
    cases hb : b.MASQ_SUPPORT <;> cases hm : s.opt_MASQ <;> try simp
    cases h1 : fs ProcFile.MASQFILE with
    | ok => simp
    | error e1 =>
      by_cases he1 : e1 = ENOENT
      · subst he1
        cases h2 : fs ProcFile.NFCONNTRACK with
        | ok => simp
        | error e2 =>
          by_cases he2 : e2 = ENOENT
          · subst he2
            cases h3 : fs ProcFile.IPCONNTRACK with
            | ok => simp
            | error e3 =>
              by_cases he3 : e3 = ENOENT
              · subst he3
                cases b.libnfct <;> simp
              · simp [he3]
                exact ⟨e3, he3, Or.inr rfl⟩
          · simp [he2]
            exact ⟨e2, he2, Or.inr rfl⟩
      · simp [he1]
  · intro hb hm
    simp [core_init, hb, hm]
  · intro hb
    simp [core_init, hb]
  · unfold core_init
    cases b.MASQ_SUPPORT <;> simp [init_state.start]
  · intro hb hm h1 h2 h3
    cases hl : b.libnfct <;> simp [core_init, hb, hm, h1, h2, h3, hl]

/-- C10 at concrete inputs: a refused `fopen` of the modern table makes `core_init`
fail although the legacy table is there; with no file at all it succeeds, selecting
the live channel in a build with libnfct support and disabling MASQ in a build
without. -/
theorem C10_core_init_failure_witness :
    (core_init build_libnfct fs_denied (init_state.start true)).ret = false ∧
    core_init build_libnfct fs_none (init_state.start true) =
      ⟨true, ⟨true, none, conntrack_t.CT_LIBNFCT⟩,
        [Event.fopen ProcFile.MASQFILE, Event.fopen ProcFile.NFCONNTRACK,
          Event.fopen ProcFile.IPCONNTRACK]⟩ ∧
    core_init build_masq fs_none (init_state.start true) =
      ⟨true, ⟨false, none, conntrack_t.CT_UNKNOWN⟩,
        [Event.fopen ProcFile.MASQFILE, Event.fopen ProcFile.NFCONNTRACK,
          Event.fopen ProcFile.IPCONNTRACK]⟩ ∧
    core_init build_libnfct fs_both_tables (init_state.start false) =
      ⟨true, ⟨false, none, conntrack_t.CT_UNKNOWN⟩, []⟩ :=
  ⟨(C10_core_init_failure build_libnfct fs_denied (init_state.start true)).1.mpr
      ⟨ProcFile.NFCONNTRACK, EACCES, by decide, rfl, by decide⟩,
    (C10_core_init_failure build_libnfct fs_none (init_state.start true)).2.2.2.2.2
      rfl rfl rfl rfl rfl,
    (C10_core_init_failure build_masq fs_none (init_state.start true)).2.2.2.2.2
      rfl rfl rfl rfl rfl,
    (C10_core_init_failure build_libnfct fs_both_tables (init_state.start false)).2.2.1
      rfl rfl⟩

/-! ## Auxiliary facts on the masquerade resolver -/

theorem lines_handled_append (a b : List MasqEvent) :
    lines_handled (a ++ b) = lines_handled a ++ lines_handled b := by
  induction a with
  | nil => rfl
  | cons x xs ih => cases x <;> simp [lines_handled, ih]

theorem record_events_append (a b : List MasqEvent) :
    record_events (a ++ b) = record_events a ++ record_events b := by
  simp [record_events, List.filter_append]

theorem lines_handled_sys (tr : List Event) : lines_handled (tr.map MasqEvent.sys) = [] := by
  induction tr with
  | nil => rfl
  | cons x xs ih => simp [lines_handled, ih]

theorem record_events_sys (tr : List Event) :
    record_events (tr.map MasqEvent.sys) = tr.map MasqEvent.sys := by
  induction tr with
  | nil => rfl
  | cons x xs ih =>
    simp only [record_events, List.map_cons] at ih ⊢
    rw [List.filter_cons_of_pos (by rfl), ih]

theorem lines_handled_record_events (tr : List MasqEvent) :
    lines_handled (record_events tr) = lines_handled tr := by
  induction tr with
  | nil => rfl
  | cons x xs ih =>
    cases x <;> simp [record_events, List.filter, is_framing, lines_handled] at ih ⊢ <;>
      exact ih

/-- What `masq_ct_forward` leaves in its trace holds no reading of a table and no
handing over of a line. -/
theorem masq_ct_forward_clean (mc : MasqConfig) (co : Collab) (netlink_sock : Int)
    (env : ct_env) (sock : Int) (lport fport : Nat) (r : ct_record) :
    (masq_ct_forward mc co netlink_sock env sock lport fport r).netlink_sock = netlink_sock ∧
    lines_handled (masq_ct_forward mc co netlink_sock env sock lport fport r).trace = [] ∧
    record_events (masq_ct_forward mc co netlink_sock env sock lport fport r).trace =
      (masq_ct_forward mc co netlink_sock env sock lport fport r).trace := by
  unfold masq_ct_forward
  simp only
  split_ifs <;> exact ⟨rfl, rfl, rfl⟩

theorem masq_ct_local_nat_clean (mc : MasqConfig) (co : Collab) (netlink_sock : Int)
    (env : ct_env) (sock : Int) (lport fport : Nat) (laddr faddr : sockaddr_storage)
    (r : ct_record) (res : ct_result)
    (h : masq_ct_local_nat mc co netlink_sock env sock lport fport laddr faddr r = some res) :
    res.ret ≠ 1 ∧ lines_handled res.trace = [] ∧ record_events res.trace = res.trace := by
  unfold masq_ct_local_nat at h
  simp only at h
  split_ifs at h with hf
  · cases hg : get_user4 mc.base netlink_sock env.os
        ⟨htons mc.base.big_endian (r.masq_lport_temp % 65536),
          htons mc.base.big_endian (r.masq_fport_temp % 65536), laddr,
          sin_setv4 (htonl mc.base.big_endian r.remotem)⟩ env.uid env.inode with
    | none => rw [hg] at h; exact Option.noConfusion h
    | some g =>
      rw [hg] at h
      simp only at h
      have hcalled : ∀ tail : List MasqEvent, lines_handled tail = [] →
          record_events tail = tail →
          lines_handled ((MasqEvent.get_user4 (htons mc.base.big_endian (r.masq_lport_temp % 65536))
            (htons mc.base.big_endian (r.masq_fport_temp % 65536)) laddr
            (sin_setv4 (htonl mc.base.big_endian r.remotem)) ::
              List.map MasqEvent.sys g.trace) ++ tail) = [] ∧
          record_events ((MasqEvent.get_user4 (htons mc.base.big_endian (r.masq_lport_temp % 65536))
            (htons mc.base.big_endian (r.masq_fport_temp % 65536)) laddr
            (sin_setv4 (htonl mc.base.big_endian r.remotem)) ::
              List.map MasqEvent.sys g.trace) ++ tail) =
            (MasqEvent.get_user4 (htons mc.base.big_endian (r.masq_lport_temp % 65536))
            (htons mc.base.big_endian (r.masq_fport_temp % 65536)) laddr
            (sin_setv4 (htonl mc.base.big_endian r.remotem)) ::
              List.map MasqEvent.sys g.trace) ++ tail := by
        intro tail h1 h2
        constructor
        · simp [lines_handled, lines_handled_append, lines_handled_sys, h1]
        · rw [List.cons_append]
          simp only [record_events] at h2 ⊢
          rw [List.filter_cons_of_pos (by rfl), List.filter_append, h2]
          have := record_events_sys g.trace
          simp only [record_events] at this
          rw [this]
      split_ifs at h with hu
      · simp only [Option.some.injEq] at h
        subst h
        have := hcalled [] rfl rfl
        simp only [List.append_nil] at this
        exact ⟨(by decide : (-1 : Int) ≠ 1), this⟩
      · cases hpw : co.getpwuid g.uid with
        | none =>
          rw [hpw] at h
          simp only [Option.some.injEq] at h
          subst h
          exact ⟨(by decide : (0 : Int) ≠ 1), hcalled _ rfl rfl⟩
        | some pw =>
          rw [hpw] at h
          simp only at h
          split_ifs at h
          · simp only [Option.some.injEq] at h
            subst h
            exact ⟨(by decide : (0 : Int) ≠ 1), hcalled _ rfl rfl⟩
          · simp only [Option.some.injEq] at h
            subst h
            exact ⟨(by decide : (0 : Int) ≠ 1), hcalled _ rfl rfl⟩
  · simp only [Option.some.injEq] at h
    subst h
    exact ⟨(by decide : (-1 : Int) ≠ 1), rfl, rfl⟩

/-- A result of `masq_ct_line`: its trace holds no reading of a table and no handing
over of a line, and when it is 1 the value of `netlink_sock` is unchanged. -/
theorem masq_ct_line_clean (mc : MasqConfig) (co : Collab) (netlink_sock : Int)
    (env : ct_env) (line : List Char) (sock : Int) (lport fport : Nat)
    (laddr faddr : sockaddr_storage) (res : ct_result)
    (h : masq_ct_line mc co netlink_sock env line sock lport fport laddr faddr = some res) :
    (res.ret = 1 → res.netlink_sock = netlink_sock) ∧ lines_handled res.trace = [] ∧
      record_events res.trace = res.trace := by
  have one : ∀ x : ct_result, x = ⟨1, netlink_sock, []⟩ →
      (x.ret = 1 → x.netlink_sock = netlink_sock) ∧ lines_handled x.trace = [] ∧
        record_events x.trace = x.trace := by
    intro x hx; subst hx; exact ⟨fun _ => rfl, rfl, rfl⟩
  have fwd : ∀ r, (masq_ct_forward mc co netlink_sock env sock lport fport r).ret = 1 →
      (masq_ct_forward mc co netlink_sock env sock lport fport r).netlink_sock = netlink_sock :=
    fun r _ => (masq_ct_forward_clean mc co netlink_sock env sock lport fport r).1
  unfold masq_ct_line at h
  cases hp : masq_ct_parse mc.libnfct mc.conntrack env line with
  | error =>
    rw [hp] at h
    simp only [Option.some.injEq] at h
    subst h
    exact ⟨fun _ => rfl, rfl, rfl⟩
  | reject =>
    rw [hp] at h
    simp only [Option.some.injEq] at h
    exact one res h.symm
  | record r =>
    rw [hp] at h
    simp only at h
    unfold masq_ct_checks at h
    by_cases h1 : ¬ strcasecmp_eq r.proto "tcp"
    · rw [if_pos h1] at h
      simp only [Option.some.injEq] at h; exact one res h.symm
    rw [if_neg h1] at h
    by_cases h2 : r.mport_temp % 65536 ≠ lport
    · rw [if_pos h2] at h
      simp only [Option.some.injEq] at h; exact one res h.symm
    rw [if_neg h2] at h
    by_cases h3 : r.nport_temp % 65536 ≠ fport
    · rw [if_pos h3] at h
      simp only [Option.some.injEq] at h; exact one res h.symm
    rw [if_neg h3] at h
    unfold masq_ct_resolve at h
    by_cases h4 : r.localm = r.remoten
    · rw [if_pos h4] at h
      have := masq_ct_local_nat_clean mc co netlink_sock env sock lport fport laddr faddr r
        res h
      exact ⟨fun h1 => absurd h1 this.1, this.2⟩
    rw [if_neg h4] at h
    have hfwd : some (masq_ct_forward mc co netlink_sock env sock lport fport r) = some res →
        (res.ret = 1 → res.netlink_sock = netlink_sock) ∧ lines_handled res.trace = [] ∧
          record_events res.trace = res.trace := by
      intro h
      simp only [Option.some.injEq] at h
      subst h
      exact ⟨fwd r, (masq_ct_forward_clean mc co netlink_sock env sock lport fport r).2⟩
    by_cases h5 : r.localn ≠ ntohl mc.base.big_endian faddr.s_addr
    · rw [if_pos h5] at h
      by_cases h6 : ¬ mc.base.opt_PROXY = true
      · rw [if_pos h6] at h
        simp only [Option.some.injEq] at h; exact one res h.symm
      rw [if_neg h6] at h
      by_cases h7 : faddr.s_addr ≠ mc.base.proxy.s_addr
      · rw [if_pos h7] at h
        simp only [Option.some.injEq] at h; exact one res h.symm
      rw [if_neg h7] at h
      by_cases h8 : r.localn = mc.base.proxy.s_addr
      · rw [if_pos h8] at h
        simp only [Option.some.injEq] at h; exact one res h.symm
      rw [if_neg h8] at h
      exact hfwd h
    · rw [if_neg h5] at h
      exact hfwd h

/-- The file loop over lines that all give 1, followed by a line that gives something
else: that line decides, and what follows it is not read. -/
theorem masq_file_loop_decided (mc : MasqConfig) (co : Collab) (sock : Int)
    (lport fport : Nat) (laddr faddr : sockaddr_storage) (netlink_sock : Int)
    (pre : List (List Char × ct_env)) (line : List Char) (env : ct_env) (r : ct_result)
    (hpre : ∀ p ∈ pre, ∃ x,
      masq_ct_line mc co netlink_sock p.2 p.1 sock lport fport laddr faddr = some x ∧
        x.ret = 1)
    (hline : masq_ct_line mc co netlink_sock env line sock lport fport laddr faddr = some r)
    (hret : r.ret ≠ 1) :
    ∃ tr, lines_handled tr = pre.map Prod.fst ++ [line] ∧
      ∀ rest, masq_file_loop mc co sock lport fport laddr faddr netlink_sock
        (pre ++ (line, env) :: rest) = some ⟨decide (r.ret = 0), r.netlink_sock, tr⟩ := by
  induction pre with
  | nil =>
    refine ⟨MasqEvent.fgets :: MasqEvent.ct_line line :: r.trace, ?_, ?_⟩
    · simp [lines_handled,
        (masq_ct_line_clean mc co netlink_sock env line sock lport fport laddr faddr r hline).2.1]
    · intro rest
      simp only [List.nil_append, masq_file_loop, hline, if_neg hret]
  | cons p ps ih =>
    obtain ⟨x, hx, hx1⟩ := hpre p (List.mem_cons_self p ps)
    obtain ⟨tr, htr, hloop⟩ := ih (fun q hq => hpre q (List.mem_cons_of_mem p hq))
    have hclean := masq_ct_line_clean mc co netlink_sock p.2 p.1 sock lport fport laddr faddr
      x hx
    refine ⟨MasqEvent.fgets :: MasqEvent.ct_line p.1 :: (x.trace ++ tr), ?_, ?_⟩
    · simp [lines_handled, lines_handled_append, hclean.2.1, htr]
    · intro rest
      obtain ⟨l, e⟩ := p
      simp only at hx
      rw [List.cons_append, masq_file_loop, hx]
      simp only [if_pos hx1, hclean.1 hx1, hloop rest]

/-- The file loop over lines that all give 1 returns false at the end of the file. -/
theorem masq_file_loop_exhausted (mc : MasqConfig) (co : Collab) (sock : Int)
    (lport fport : Nat) (laddr faddr : sockaddr_storage) (netlink_sock : Int)
    (lines : List (List Char × ct_env))
    (hall : ∀ p ∈ lines, ∃ x,
      masq_ct_line mc co netlink_sock p.2 p.1 sock lport fport laddr faddr = some x ∧
        x.ret = 1) :
    ∃ tr, lines_handled tr = lines.map Prod.fst ∧
      masq_file_loop mc co sock lport fport laddr faddr netlink_sock lines =
        some ⟨false, netlink_sock, tr⟩ := by
  induction lines with
  | nil => exact ⟨[MasqEvent.fgets], rfl, rfl⟩
  | cons p ps ih =>
    obtain ⟨x, hx, hx1⟩ := hall p (List.mem_cons_self p ps)
    obtain ⟨tr, htr, hloop⟩ := ih (fun q hq => hall q (List.mem_cons_of_mem p hq))
    have hclean := masq_ct_line_clean mc co netlink_sock p.2 p.1 sock lport fport laddr faddr
      x hx
    refine ⟨MasqEvent.fgets :: MasqEvent.ct_line p.1 :: (x.trace ++ tr), ?_, ?_⟩
    · simp [lines_handled, lines_handled_append, hclean.2.1, htr]
    · obtain ⟨l, e⟩ := p
      simp only [masq_file_loop]
      simp only at hx
      rw [hx]
      simp only [if_pos hx1, hclean.1 hx1, hloop]

/-- The dump loop, like the file loop: a record that gives something else than 1 after
records that all give 1 decides. -/
theorem nfct_dump_loop_decided (mc : MasqConfig) (co : Collab) (sock : Int)
    (lport fport : Nat) (laddr faddr : sockaddr_storage) (netlink_sock status : Int)
    (pre : List (List Char × ct_env)) (line : List Char) (env : ct_env) (r : ct_result)
    (hpre : ∀ p ∈ pre, ∃ x,
      masq_ct_line mc co netlink_sock p.2 p.1 sock lport fport laddr faddr = some x ∧
        x.ret = 1)
    (hline : masq_ct_line mc co netlink_sock env line sock lport fport laddr faddr = some r)
    (hret : r.ret ≠ 1) :
    ∃ tr, lines_handled tr = pre.map Prod.fst ++ [line] ∧
      ∀ rest, nfct_dump_loop mc co sock lport fport laddr faddr netlink_sock status
        (pre ++ (line, env) :: rest) = some (r.ret, r.netlink_sock, tr) := by
  induction pre with
  | nil =>
    refine ⟨MasqEvent.callback_nfct :: MasqEvent.ct_line line :: r.trace, ?_, ?_⟩
    · simp [lines_handled,
        (masq_ct_line_clean mc co netlink_sock env line sock lport fport laddr faddr r hline).2.1]
    · intro rest
      simp only [List.nil_append, nfct_dump_loop, hline, if_neg hret]
  | cons p ps ih =>
    obtain ⟨x, hx, hx1⟩ := hpre p (List.mem_cons_self p ps)
    obtain ⟨tr, htr, hloop⟩ := ih (fun q hq => hpre q (List.mem_cons_of_mem p hq))
    have hclean := masq_ct_line_clean mc co netlink_sock p.2 p.1 sock lport fport laddr faddr
      x hx
    refine ⟨MasqEvent.callback_nfct :: MasqEvent.ct_line p.1 :: (x.trace ++ tr), ?_, ?_⟩
    · simp [lines_handled, lines_handled_append, hclean.2.1, htr]
    · intro rest
      obtain ⟨l, e⟩ := p
      simp only at hx
      rw [List.cons_append, nfct_dump_loop, hx]
      simp only [if_pos hx1, hclean.1 hx1, hloop rest]

/-- The dump loop over records that all give 1 leaves `status` as it was. -/
theorem nfct_dump_loop_exhausted (mc : MasqConfig) (co : Collab) (sock : Int)
    (lport fport : Nat) (laddr faddr : sockaddr_storage) (netlink_sock status : Int)
    (lines : List (List Char × ct_env))
    (hall : ∀ p ∈ lines, ∃ x,
      masq_ct_line mc co netlink_sock p.2 p.1 sock lport fport laddr faddr = some x ∧
        x.ret = 1) :
    ∃ tr, lines_handled tr = lines.map Prod.fst ∧
      nfct_dump_loop mc co sock lport fport laddr faddr netlink_sock status lines =
        some (status, netlink_sock, tr) := by
  induction lines with
  | nil => exact ⟨[], rfl, rfl⟩
  | cons p ps ih =>
    obtain ⟨x, hx, hx1⟩ := hall p (List.mem_cons_self p ps)
    obtain ⟨tr, htr, hloop⟩ := ih (fun q hq => hall q (List.mem_cons_of_mem p hq))
    have hclean := masq_ct_line_clean mc co netlink_sock p.2 p.1 sock lport fport laddr faddr
      x hx
    refine ⟨MasqEvent.callback_nfct :: MasqEvent.ct_line p.1 :: (x.trace ++ tr), ?_, ?_⟩
    · simp [lines_handled, lines_handled_append, hclean.2.1, htr]
    · obtain ⟨l, e⟩ := p
      simp only [nfct_dump_loop]
      simp only at hx
      rw [hx]
      simp only [if_pos hx1, hclean.1 hx1, hloop]

/-- The parse of the live-channel variant is that of the modern-table variant. -/
theorem masq_ct_parse_libnfct (env : ct_env) (line : List Char) :
    masq_ct_parse true conntrack_t.CT_LIBNFCT env line =
      masq_ct_parse true conntrack_t.CT_NFCONNTRACK env line := by
  unfold masq_ct_parse
  simp

theorem masq_ct_line_libnfct (mc : MasqConfig) (co : Collab) (netlink_sock : Int)
    (env : ct_env) (line : List Char) (sock : Int) (lport fport : Nat)
    (laddr faddr : sockaddr_storage) (hlib : mc.libnfct = true) :
    masq_ct_line { mc with conntrack := conntrack_t.CT_LIBNFCT } co netlink_sock env line sock
        lport fport laddr faddr =
      masq_ct_line { mc with conntrack := conntrack_t.CT_NFCONNTRACK } co netlink_sock env line
        sock lport fport laddr faddr := by
  unfold masq_ct_line
  simp only [hlib, masq_ct_parse_libnfct]
  rfl

/-- The dump loop of the live channel and the file loop of the modern table, on the
same lines: the same return value of `masq`, the same `netlink_sock`, the same events
of handling records. -/
theorem nfct_dump_loop_eq_file_loop (mc : MasqConfig) (co : Collab) (sock : Int)
    (lport fport : Nat) (laddr faddr : sockaddr_storage) (hlib : mc.libnfct = true)
    (lines : List (List Char × ct_env)) (netlink_sock : Int) :
    Option.map (fun x => (decide (x.1 = 0), x.2.1, record_events x.2.2))
        (nfct_dump_loop { mc with conntrack := conntrack_t.CT_LIBNFCT } co sock lport fport
          laddr faddr netlink_sock 1 lines) =
      Option.map (fun m => (m.ret, m.netlink_sock, record_events m.trace))
        (masq_file_loop { mc with conntrack := conntrack_t.CT_NFCONNTRACK } co sock lport
          fport laddr faddr netlink_sock lines) := by
  induction lines generalizing netlink_sock with
  | nil => rfl
  | cons p ps ih =>
    obtain ⟨l, e⟩ := p
    simp only [nfct_dump_loop, masq_file_loop, masq_ct_line_libnfct mc co netlink_sock e l
      sock lport fport laddr faddr hlib]
    cases hx : masq_ct_line { mc with conntrack := conntrack_t.CT_NFCONNTRACK } co
        netlink_sock e l sock lport fport laddr faddr with
    | none => rfl
    | some x =>
      have hclean := masq_ct_line_clean _ co netlink_sock e l sock lport fport laddr faddr x hx
      simp only
      by_cases h1 : x.ret = 1
      · simp only [if_pos h1]
        have ih1 := ih x.netlink_sock
        cases hd : nfct_dump_loop { mc with conntrack := conntrack_t.CT_LIBNFCT } co sock
            lport fport laddr faddr x.netlink_sock 1 ps with
        | none =>
          rw [hd] at ih1
          cases hf : masq_file_loop { mc with conntrack := conntrack_t.CT_NFCONNTRACK } co
              sock lport fport laddr faddr x.netlink_sock ps with
          | none => rfl
          | some m => rw [hf] at ih1; exact Option.noConfusion ih1
        | some d =>
          rw [hd] at ih1
          cases hf : masq_file_loop { mc with conntrack := conntrack_t.CT_NFCONNTRACK } co
              sock lport fport laddr faddr x.netlink_sock ps with
          | none => rw [hf] at ih1; exact Option.noConfusion ih1
          | some m =>
            rw [hf] at ih1
            simp only [Option.map_some', Option.some.injEq, Prod.mk.injEq] at ih1 ⊢
            obtain ⟨st, ns, tr⟩ := d
            simp only at ih1 ⊢
            refine ⟨ih1.1, ih1.2.1, ?_⟩
            simp only [record_events] at ih1 ⊢
            rw [List.filter_cons_of_neg (by simp [is_framing]),
              List.filter_cons_of_pos (by simp [is_framing]),
              List.filter_cons_of_neg (by simp [is_framing]),
              List.filter_cons_of_pos (by simp [is_framing]),
              List.filter_append, List.filter_append, ih1.2.2]
      · simp only [if_neg h1, Option.map_some', Option.some.injEq, Prod.mk.injEq, true_and]
        simp only [record_events]
        rw [List.filter_cons_of_neg (by simp [is_framing]),
          List.filter_cons_of_pos (by simp [is_framing]),
          List.filter_cons_of_neg (by simp [is_framing]),
          List.filter_cons_of_pos (by simp [is_framing])]

theorem takeWhile_append_stop {α : Type} (p : α → Bool) (xs next : List α)
    (hxs : ∀ x ∈ xs, p x = true)
    (hnext : match next with | [] => True | y :: _ => p y = false) :
    (xs ++ next).takeWhile p = xs := by
  induction xs with
  | nil =>
    cases next with
    | nil => rfl
    | cons y ys => simp only [List.nil_append, List.takeWhile_cons, hnext]; rfl
  | cons x xs ih =>
    rw [List.cons_append, List.takeWhile_cons, hxs x (List.mem_cons_self x xs),
      ih (fun y hy => hxs y (List.mem_cons_of_mem x hy))]
    rfl

theorem isspace_of_isdigit (c : Char) (hc : isdigit c = true) : isspace c = false := by
  unfold isdigit at hc
  unfold isspace
  simp only [Bool.and_eq_true, decide_eq_true_eq] at hc
  simp only [Bool.or_eq_false_iff, Bool.and_eq_false_iff, decide_eq_false_iff_not]
  omega

theorem dropWhile_isspace_number (ds next : List Char) (h : is_number ds) :
    (ds ++ next).dropWhile isspace = ds ++ next := by
  obtain ⟨hne, hd⟩ := h
  cases ds with
  | nil => exact absurd rfl hne
  | cons c cs =>
    rw [List.cons_append, List.dropWhile_cons,
      isspace_of_isdigit c (hd c (List.mem_cons_self c cs))]
    rfl

/-- A `%d` conversion on a number followed by something that is no digit. -/
theorem scan_step_number (suppress : Bool) (ds next : List Char) (h : is_number ds)
    (hnext : starts_nondigit next) :
    scan_step (directive.conv suppress none conv_kind.d) (ds ++ next) =
      step_result.ok next
        (if suppress then none else some (scan_value.int (strtol_int false ds))) := by
  have hdrop := dropWhile_isspace_number ds next h
  obtain ⟨hne, hd⟩ := h
  have htake : (ds ++ next).takeWhile isdigit = ds :=
    takeWhile_append_stop isdigit ds next hd (by
      cases next with
      | nil => trivial
      | cons y ys => exact hnext)
  have hsign : read_sign (ds ++ next) = (false, ds ++ next) := by
    cases ds with
    | nil => exact absurd rfl hne
    | cons c cs =>
      have hc : isdigit c = true := hd c (List.mem_cons_self c cs)
      have h1 : c ≠ '-' := by
        intro e; rw [e] at hc; exact absurd hc (by decide)
      have h2 : c ≠ '+' := by
        intro e; rw [e] at hc; exact absurd hc (by decide)
      simp only [List.cons_append, read_sign, if_neg h1, if_neg h2]
  have hnil : ds ++ next ≠ [] := by
    cases ds with
    | nil => exact absurd rfl hne
    | cons c cs => simp
  simp only [scan_step, hdrop, scan_conv, if_neg hnil, field, hsign, htake, if_neg hne,
    Nat.sub_self, Nat.zero_add, List.drop_left]

/-- A `%15s` conversion on a name followed by a space. -/
theorem scan_step_name (s next : List Char) (h : is_name s) :
    scan_step (directive.conv false (some 15) conv_kind.s) (s ++ ' ' :: next) =
      step_result.ok (' ' :: next) (some (scan_value.str s)) := by
  obtain ⟨hne, hlen, hs⟩ := h
  have hdrop : (s ++ ' ' :: next).dropWhile isspace = s ++ ' ' :: next := by
    cases s with
    | nil => exact absurd rfl hne
    | cons c cs =>
      rw [List.cons_append, List.dropWhile_cons, hs c (List.mem_cons_self c cs)]
      rfl
  have hnil : s ++ ' ' :: next ≠ [] := by
    cases s with
    | nil => exact absurd rfl hne
    | cons c cs => simp
  have htake : ((s ++ ' ' :: next).take 15).takeWhile (fun c => !isspace c) = s := by
    rw [List.take_append_eq_append_take, List.take_of_length_le hlen]
    apply takeWhile_append_stop
    · intro x hx
      rw [hs x hx]; rfl
    · cases hk : 15 - s.length with
      | zero => simp
      | succ k => simp only [List.take_succ_cons]; decide
  simp only [scan_step, hdrop, scan_conv, if_neg hnil, field, htake, List.drop_left]
  rfl

theorem sscanf_go_lit (c : Char) (fmt : List directive) (next : List Char)
    (vals : List scan_value) :
    sscanf_go (directive.lit c :: fmt) (c :: next) vals = sscanf_go fmt next vals := by
  simp only [sscanf_go, scan_step, if_true]

theorem sscanf_go_lits (s : List Char) (fmt : List directive) (next : List Char)
    (vals : List scan_value) :
    sscanf_go (s.map directive.lit ++ fmt) (s ++ next) vals = sscanf_go fmt next vals := by
  induction s with
  | nil => rfl
  | cons c cs ih =>
    rw [List.map_cons, List.cons_append, List.cons_append, sscanf_go_lit, ih]

theorem sscanf_go_name (s next : List Char) (fmt : List directive) (vals : List scan_value)
    (h : is_name s) :
    sscanf_go (directive.conv false (some 15) conv_kind.s :: fmt) (s ++ ' ' :: next) vals =
      sscanf_go fmt (' ' :: next) (vals ++ [scan_value.str s]) := by
  rw [sscanf_go, scan_step_name s next h]

theorem sscanf_go_number (ds next : List Char) (fmt : List directive)
    (vals : List scan_value) (h : is_number ds) (hnext : starts_nondigit next) :
    sscanf_go (directive.conv false none conv_kind.d :: fmt) (ds ++ next) vals =
      sscanf_go fmt next (vals ++ [scan_value.int (strtol_int false ds)]) := by
  rw [sscanf_go, scan_step_number false ds next h hnext]
  rfl

theorem sscanf_go_number_suppressed (ds next : List Char) (fmt : List directive)
    (vals : List scan_value) (h : is_number ds) (hnext : starts_nondigit next) :
    sscanf_go (directive.conv true none conv_kind.d :: fmt) (ds ++ next) vals =
      sscanf_go fmt next vals := by
  rw [sscanf_go, scan_step_number true ds next h hnext]
  rfl

/-- White space in the format on white space in the input. -/
theorem sscanf_go_ws (sp next : List Char) (fmt : List directive) (vals : List scan_value)
    (hsp : ∀ c ∈ sp, isspace c = true) (hnext : starts_nonspace next) :
    sscanf_go (directive.ws :: fmt) (sp ++ next) vals = sscanf_go fmt next vals := by
  have hdrop : (sp ++ next).dropWhile isspace = next := by
    induction sp with
    | nil =>
      cases next with
      | nil => rfl
      | cons y ys =>
        have hy : isspace y = false := hnext
        rw [List.nil_append, List.dropWhile_cons, hy]
        rfl
    | cons x xs ih =>
      rw [List.cons_append, List.dropWhile_cons, hsp x (List.mem_cons_self x xs)]
      exact ih (fun y hy => hsp y (List.mem_cons_of_mem x hy))
  rw [sscanf_go]
  simp only [scan_step, hdrop]

theorem starts_nonspace_number (ds next : List Char) (h : is_number ds) :
    starts_nonspace (ds ++ next) := by
  obtain ⟨hne, hd⟩ := h
  cases ds with
  | nil => exact absurd rfl hne
  | cons c cs => exact isspace_of_isdigit c (hd c (List.mem_cons_self c cs))

theorem starts_nonspace_name (s next : List Char) (h : is_name s) :
    starts_nonspace (s ++ next) := by
  obtain ⟨hne, _, hs⟩ := h
  cases s with
  | nil => exact absurd rfl hne
  | cons c cs => exact hs c (List.mem_cons_self c cs)

theorem sscanf_go_space (next : List Char) (fmt : List directive) (vals : List scan_value)
    (hnext : starts_nonspace next) :
    sscanf_go (directive.ws :: fmt) (' ' :: next) vals = sscanf_go fmt next vals :=
  sscanf_go_ws [' '] next fmt vals (by decide) hnext

theorem sscanf_go_pad (n : Nat) (next : List Char) (fmt : List directive)
    (vals : List scan_value) (hnext : starts_nonspace next) :
    sscanf_go (directive.ws :: fmt) (' ' :: (List.replicate n ' ' ++ next)) vals =
      sscanf_go fmt next vals := by
  have h := sscanf_go_ws (' ' :: List.replicate n ' ') next fmt vals (by
    intro c hc
    rcases List.mem_cons.mp hc with h | h
    · rw [h]; decide
    · rw [(List.mem_replicate.mp h).2]; decide) hnext
  rw [List.cons_append] at h
  exact h

/-- The directives of the four formats of the connection-tracking tables. -/
theorem fmt_ip_eq :
    parse_format FMT_IPCONNTRACK = fmt_head_legacy ++ (fmt_tuple ++ (fmt_tuple ++ [])) := by
  decide

theorem fmt_ip_acct_eq :
    parse_format FMT_IPCONNTRACK_ACCT =
      fmt_head_legacy ++ (fmt_tuple ++ (fmt_acct ++ (fmt_tuple ++ []))) := by
  decide

theorem fmt_nf_eq :
    parse_format FMT_NFCONNTRACK =
      fmt_head_modern ++ (fmt_tuple ++ (fmt_tuple ++ [])) := by
  decide

theorem fmt_nf_acct_eq :
    parse_format FMT_NFCONNTRACK_ACCT =
      fmt_head_modern ++ (fmt_tuple ++ (fmt_acct ++ (fmt_tuple ++ []))) := by
  decide

theorem starts_nondigit_dot (next : List Char) : starts_nondigit ('.' :: next) := by
  show isdigit '.' = false
  decide

theorem starts_nondigit_space (next : List Char) : starts_nondigit (' ' :: next) := by
  show isdigit ' ' = false
  decide

/-- White space and a word in the format on a space and the same word. -/
theorem sscanf_go_space_word (w next : List Char) (fmt : List directive)
    (vals : List scan_value) (hw : starts_nonspace w) (hne : w ≠ []) :
    sscanf_go (directive.ws :: (w.map directive.lit ++ fmt)) (' ' :: (w ++ next)) vals =
      sscanf_go fmt next vals := by
  have h : starts_nonspace (w ++ next) := by
    cases w with
    | nil => exact absurd rfl hne
    | cons c cs => exact hw
  rw [sscanf_go_space _ _ _ h, sscanf_go_lits]

/-- The directives of `%d.%d.%d.%d` on four numbers separated by dots. -/
theorem sscanf_go_quad (a b c d next : List Char) (fmt : List directive)
    (vals : List scan_value) (ha : is_number a) (hb : is_number b) (hc : is_number c)
    (hd : is_number d) (hnext : starts_nondigit next) :
    sscanf_go (fmt_quad ++ fmt) (a ++ '.' :: (b ++ '.' :: (c ++ '.' :: (d ++ next)))) vals =
      sscanf_go fmt next (vals ++ [scan_value.int (strtol_int false a),
        scan_value.int (strtol_int false b), scan_value.int (strtol_int false c),
        scan_value.int (strtol_int false d)]) := by
  simp only [fmt_quad, List.cons_append, List.nil_append]
  rw [sscanf_go_number a _ _ _ ha (starts_nondigit_dot _), sscanf_go_lit,
    sscanf_go_number b _ _ _ hb (starts_nondigit_dot _), sscanf_go_lit,
    sscanf_go_number c _ _ _ hc (starts_nondigit_dot _), sscanf_go_lit,
    sscanf_go_number d _ _ _ hd hnext]
  simp only [List.append_assoc, List.cons_append, List.nil_append]

theorem tuple_render_append (t : tuple_text) (next : List Char) :
    t.render ++ next =
      ' ' :: ("src=".toList ++ (t.s1 ++ '.' :: (t.s2 ++ '.' :: (t.s3 ++ '.' :: (t.s4 ++
      ' ' :: ("dst=".toList ++ (t.d1 ++ '.' :: (t.d2 ++ '.' :: (t.d3 ++ '.' :: (t.d4 ++
      ' ' :: ("sport=".toList ++ (t.sport ++
      ' ' :: ("dport=".toList ++ (t.dport ++ next)))))))))))))) := by
  simp only [tuple_text.render, List.append_assoc, List.cons_append]

/-- The directives of a tuple on the text of a tuple. -/
theorem sscanf_go_tuple (t : tuple_text) (next : List Char) (fmt : List directive)
    (vals : List scan_value) (ht : t.well_formed) (hnext : starts_nondigit next) :
    sscanf_go (fmt_tuple ++ fmt) (t.render ++ next) vals =
      sscanf_go fmt next (vals ++ t.vals) := by
  obtain ⟨h1, h2, h3, h4, h5, h6, h7, h8, h9, h10⟩ := ht
  rw [tuple_render_append]
  simp only [fmt_tuple, lits, List.cons_append, List.append_assoc, List.nil_append]
  rw [sscanf_go_space_word "src=".toList _ _ _ (by decide) (by decide),
    sscanf_go_quad _ _ _ _ _ _ _ h1 h2 h3 h4 (starts_nondigit_space _),
    sscanf_go_space_word "dst=".toList _ _ _ (by decide) (by decide),
    sscanf_go_quad _ _ _ _ _ _ _ h5 h6 h7 h8 (starts_nondigit_space _),
    sscanf_go_space_word "sport=".toList _ _ _ (by decide) (by decide),
    sscanf_go_number _ _ _ _ h9 (starts_nondigit_space _),
    sscanf_go_space_word "dport=".toList _ _ _ (by decide) (by decide),
    sscanf_go_number _ _ _ _ h10 hnext]
  simp only [tuple_text.vals, List.append_assoc, List.cons_append, List.nil_append]

theorem acct_render_append (t : ct_tokens) (next : List Char) :
    t.render_acct ++ next =
      ' ' :: ("packets=".toList ++ (t.packets ++ ' ' :: ("bytes=".toList ++
        (t.bytes ++ next)))) := by
  simp only [ct_tokens.render_acct, List.append_assoc, List.cons_append]

/-- The directives of the counters on the text of the counters. -/
theorem sscanf_go_acct (t : ct_tokens) (next : List Char) (fmt : List directive)
    (vals : List scan_value) (hp : is_number t.packets) (hb : is_number t.bytes)
    (hnext : starts_nondigit next) :
    sscanf_go (fmt_acct ++ fmt) (t.render_acct ++ next) vals = sscanf_go fmt next vals := by
  rw [acct_render_append]
  simp only [fmt_acct, lits, List.cons_append, List.append_assoc, List.nil_append]
  rw [sscanf_go_space_word "packets=".toList _ _ _ (by decide) (by decide),
    sscanf_go_number_suppressed _ _ _ _ hp (starts_nondigit_space _),
    sscanf_go_space_word "bytes=".toList _ _ _ (by decide) (by decide),
    sscanf_go_number_suppressed _ _ _ _ hb hnext]

/-- The directives of a tuple stop at the text of the counters: `src=` does not match
`packets=`. -/
theorem sscanf_go_tuple_on_acct (t : ct_tokens) (next : List Char) (fmt : List directive)
    (vals : List scan_value) :
    sscanf_go (fmt_tuple ++ fmt) (t.render_acct ++ next) vals = ⟨vals.length, vals⟩ := by
  rw [acct_render_append]
  simp only [fmt_tuple, lits, List.cons_append, List.append_assoc, List.nil_append]
  rw [sscanf_go_space _ _ _ (show starts_nonspace ("packets=".toList ++ _) from
    (by decide : isspace 'p' = false))]
  rfl

/-- The directives of the counters stop at the text of a tuple: `packets=` does not
match `src=`. -/
theorem sscanf_go_acct_on_tuple (t : tuple_text) (next : List Char) (fmt : List directive)
    (vals : List scan_value) :
    sscanf_go (fmt_acct ++ fmt) (t.render ++ next) vals = ⟨vals.length, vals⟩ := by
  rw [tuple_render_append]
  simp only [fmt_acct, lits, List.cons_append, List.append_assoc, List.nil_append]
  rw [sscanf_go_space _ _ _ (show starts_nonspace ("src=".toList ++ _) from
    (by decide : isspace 's' = false))]
  rfl

/-- The directives `%15s %*d %*d ESTABLISHED` on the head of a line. -/
theorem sscanf_go_head_legacy (name num1 num2 : List Char) (pad : Nat) (next : List Char)
    (fmt : List directive) (vals : List scan_value) (hname : is_name name)
    (h1 : is_number num1) (h2 : is_number num2) :
    sscanf_go (fmt_head_legacy ++ fmt)
        (name ++ ' ' :: (List.replicate pad ' ' ++ (num1 ++ ' ' :: (num2 ++
          ' ' :: ("ESTABLISHED".toList ++ next))))) vals =
      sscanf_go fmt next (vals ++ [scan_value.str name]) := by
  simp only [fmt_head_legacy, lits, List.cons_append, List.append_assoc, List.nil_append]
  rw [sscanf_go_name _ _ _ _ hname,
    sscanf_go_pad _ _ _ _ (starts_nonspace_number _ _ h1),
    sscanf_go_number_suppressed _ _ _ _ h1 (starts_nondigit_space _),
    sscanf_go_space _ _ _ (starts_nonspace_number _ _ h2),
    sscanf_go_number_suppressed _ _ _ _ h2 (starts_nondigit_space _),
    sscanf_go_space_word "ESTABLISHED".toList _ _ _ (by decide) (by decide)]

/-- The directives `%15s %*d %15s %*d %*d ESTABLISHED` on the head of a line. -/
theorem sscanf_go_head_modern (family l3num name num1 num2 : List Char) (fpad pad : Nat)
    (next : List Char) (fmt : List directive) (vals : List scan_value)
    (hfamily : is_name family) (hl3 : is_number l3num) (hname : is_name name)
    (h1 : is_number num1) (h2 : is_number num2) :
    sscanf_go (fmt_head_modern ++ fmt)
        (family ++ ' ' :: (List.replicate fpad ' ' ++ (l3num ++ ' ' ::
          (name ++ ' ' :: (List.replicate pad ' ' ++ (num1 ++ ' ' :: (num2 ++
          ' ' :: ("ESTABLISHED".toList ++ next)))))))) vals =
      sscanf_go fmt next (vals ++ [scan_value.str family, scan_value.str name]) := by
  have h := sscanf_go_head_legacy name num1 num2 pad next fmt
    (vals ++ [scan_value.str family]) hname h1 h2
  simp only [fmt_head_modern, List.cons_append]
  rw [sscanf_go_name _ _ _ _ hfamily,
    sscanf_go_pad _ _ _ _ (starts_nonspace_number _ _ hl3),
    sscanf_go_number_suppressed _ _ _ _ hl3 (starts_nondigit_space _),
    sscanf_go_space _ _ _ (starts_nonspace_name _ _ hname), h]
  simp only [List.append_assoc, List.cons_append, List.nil_append]

theorem starts_nondigit_tuple (t : tuple_text) (next : List Char) :
    starts_nondigit (t.render ++ next) := by
  show isdigit ' ' = false
  decide

theorem starts_nondigit_acct (t : ct_tokens) (next : List Char) :
    starts_nondigit (t.render_acct ++ next) := by
  show isdigit ' ' = false
  decide

/-- The first legacy format on a legacy line without counters. -/
theorem sscanf_legacy_plain (t : ct_tokens) (tail : List Char) (ht : t.well_formed)
    (htail : starts_nondigit tail) :
    sscanf (t.legacy_line false tail) FMT_IPCONNTRACK = ⟨21, legacy_vals t⟩ := by
  obtain ⟨_, _, hproto, hnum, htime, horig, _, _, hreply⟩ := ht
  unfold sscanf
  rw [fmt_ip_eq]
  simp only [ct_tokens.legacy_line, ct_tokens.render_tuples, Bool.false_eq_true, if_false,
    List.nil_append]
  rw [sscanf_go_head_legacy _ _ _ _ _ _ _ hproto hnum htime,
    sscanf_go_tuple _ _ _ _ horig (starts_nondigit_tuple _ _),
    sscanf_go_tuple _ _ _ _ hreply htail]
  rfl

/-- The first legacy format on a legacy line with counters stops after the first
tuple. -/
theorem sscanf_legacy_plain_on_acct (t : ct_tokens) (tail : List Char) (ht : t.well_formed) :
    (sscanf (t.legacy_line true tail) FMT_IPCONNTRACK).ret = 11 := by
  obtain ⟨_, _, hproto, hnum, htime, horig, _, _, hreply⟩ := ht
  unfold sscanf
  rw [fmt_ip_eq]
  simp only [ct_tokens.legacy_line, ct_tokens.render_tuples, if_true]
  rw [sscanf_go_head_legacy _ _ _ _ _ _ _ hproto hnum htime,
    sscanf_go_tuple _ _ _ _ horig (starts_nondigit_acct _ _),
    sscanf_go_tuple_on_acct]
  rfl

/-- The second legacy format on a legacy line with counters. -/
theorem sscanf_legacy_acct (t : ct_tokens) (tail : List Char) (ht : t.well_formed)
    (htail : starts_nondigit tail) :
    sscanf (t.legacy_line true tail) FMT_IPCONNTRACK_ACCT = ⟨21, legacy_vals t⟩ := by
  obtain ⟨_, _, hproto, hnum, htime, horig, hp, hb, hreply⟩ := ht
  unfold sscanf
  rw [fmt_ip_acct_eq]
  simp only [ct_tokens.legacy_line, ct_tokens.render_tuples, if_true]
  rw [sscanf_go_head_legacy _ _ _ _ _ _ _ hproto hnum htime,
    sscanf_go_tuple _ _ _ _ horig (starts_nondigit_acct _ _),
    sscanf_go_acct _ _ _ _ hp hb (starts_nondigit_tuple _ _),
    sscanf_go_tuple _ _ _ _ hreply htail]
  rfl

/-- The first modern format on a modern line with counters. -/
theorem sscanf_modern_acct (t : ct_tokens) (tail : List Char) (ht : t.well_formed)
    (htail : starts_nondigit tail) :
    sscanf (t.modern_line true tail) FMT_NFCONNTRACK_ACCT = ⟨22, modern_vals t⟩ := by
  obtain ⟨hfam, hl3, hproto, hnum, htime, horig, hp, hb, hreply⟩ := ht
  unfold sscanf
  rw [fmt_nf_acct_eq]
  simp only [ct_tokens.modern_line, ct_tokens.legacy_line, ct_tokens.render_tuples, if_true]
  rw [sscanf_go_head_modern _ _ _ _ _ _ _ _ _ _ hfam hl3 hproto hnum htime,
    sscanf_go_tuple _ _ _ _ horig (starts_nondigit_acct _ _),
    sscanf_go_acct _ _ _ _ hp hb (starts_nondigit_tuple _ _),
    sscanf_go_tuple _ _ _ _ hreply htail]
  rfl

/-- The first modern format on a modern line without counters stops after the first
tuple. -/
theorem sscanf_modern_acct_on_plain (t : ct_tokens) (tail : List Char)
    (ht : t.well_formed) :
    (sscanf (t.modern_line false tail) FMT_NFCONNTRACK_ACCT).ret = 12 := by
  obtain ⟨hfam, hl3, hproto, hnum, htime, horig, hp, hb, hreply⟩ := ht
  unfold sscanf
  rw [fmt_nf_acct_eq]
  simp only [ct_tokens.modern_line, ct_tokens.legacy_line, ct_tokens.render_tuples,
    Bool.false_eq_true, if_false, List.nil_append]
  rw [sscanf_go_head_modern _ _ _ _ _ _ _ _ _ _ hfam hl3 hproto hnum htime,
    sscanf_go_tuple _ _ _ _ horig (starts_nondigit_tuple _ _),
    sscanf_go_acct_on_tuple]
  rfl

/-- The second modern format on a modern line without counters. -/
theorem sscanf_modern_plain (t : ct_tokens) (tail : List Char) (ht : t.well_formed)
    (htail : starts_nondigit tail) :
    sscanf (t.modern_line false tail) FMT_NFCONNTRACK = ⟨22, modern_vals t⟩ := by
  obtain ⟨hfam, hl3, hproto, hnum, htime, horig, hp, hb, hreply⟩ := ht
  unfold sscanf
  rw [fmt_nf_eq]
  simp only [ct_tokens.modern_line, ct_tokens.legacy_line, ct_tokens.render_tuples,
    Bool.false_eq_true, if_false, List.nil_append]
  rw [sscanf_go_head_modern _ _ _ _ _ _ _ _ _ _ hfam hl3 hproto hnum htime,
    sscanf_go_tuple _ _ _ _ horig (starts_nondigit_tuple _ _),
    sscanf_go_tuple _ _ _ _ hreply htail]
  rfl

theorem ct_record_of_legacy_vals (t : ct_tokens) :
    ct_record_of (legacy_vals t) 0 = t.record := rfl

theorem ct_record_of_modern_vals (t : ct_tokens) :
    ct_record_of (modern_vals t) 1 = t.record := rfl

/-- A well-formed legacy line, with or without counters, parses into its record. -/
theorem masq_ct_parse_legacy (libnfct : Bool) (env : ct_env) (t : ct_tokens) (acct : Bool)
    (tail : List Char) (ht : t.well_formed) (htail : starts_nondigit tail) :
    masq_ct_parse libnfct conntrack_t.CT_IPCONNTRACK env (t.legacy_line acct tail) =
      parse_result.record t.record := by
  unfold masq_ct_parse
  rw [if_neg (by decide), if_pos rfl]
  cases acct with
  | false =>
    simp only [sscanf_legacy_plain t tail ht htail, ne_eq, not_true_eq_false, if_false,
      ct_record_of_legacy_vals]
  | true =>
    simp only [sscanf_legacy_plain_on_acct t tail ht, sscanf_legacy_acct t tail ht htail,
      ne_eq, not_true_eq_false, if_false, ct_record_of_legacy_vals]
    simp only [show ¬ ((11 : Int) = 21) by decide, not_false_eq_true, if_true,
      if_false, not_true_eq_false]
    rw [ct_record_of_legacy_vals]

/-- A well-formed modern line, with or without counters, parses into its record when
its family is "ipv4" and is passed over otherwise. -/
theorem masq_ct_parse_modern (libnfct : Bool) (conntrack : conntrack_t) (env : ct_env)
    (t : ct_tokens) (acct : Bool) (tail : List Char)
    (hc : conntrack = conntrack_t.CT_NFCONNTRACK ∨
      (libnfct = true ∧ conntrack = conntrack_t.CT_LIBNFCT))
    (ht : t.well_formed) (htail : starts_nondigit tail) :
    masq_ct_parse libnfct conntrack env (t.modern_line acct tail) =
      if strcasecmp_eq t.family "ipv4" then parse_result.record t.record
      else parse_result.reject := by
  have h1 : conntrack ≠ conntrack_t.CT_MASQFILE := by
    rcases hc with h | ⟨_, h⟩ <;> rw [h] <;> decide
  have h2 : conntrack ≠ conntrack_t.CT_IPCONNTRACK := by
    rcases hc with h | ⟨_, h⟩ <;> rw [h] <;> decide
  have hstr : str_at (modern_vals t) 0 = t.family := rfl
  unfold masq_ct_parse
  rw [if_neg h1, if_neg h2, if_pos hc]
  cases acct with
  | true =>
    simp only [sscanf_modern_acct t tail ht htail, ne_eq, not_true_eq_false, if_false,
      ct_record_of_modern_vals, hstr]
    by_cases hf : strcasecmp_eq t.family "ipv4"
    · simp [hf]
    · simp [hf]
  | false =>
    simp only [sscanf_modern_acct_on_plain t tail ht, sscanf_modern_plain t tail ht htail,
      ne_eq, not_true_eq_false, if_false, ct_record_of_modern_vals, hstr]
    simp only [show ¬ ((12 : Int) = 22) by decide, not_false_eq_true, if_true,
      if_false, not_true_eq_false]
    rw [hstr, ct_record_of_modern_vals]
    by_cases hf : strcasecmp_eq t.family "ipv4"
    · simp [hf]
    · simp [hf]

/-- The end of `masq_ct_line` always records a call of `find_masq_entry`. -/
theorem masq_ct_forward_trace_ne_nil (mc : MasqConfig) (co : Collab) (netlink_sock : Int)
    (env : ct_env) (sock : Int) (lport fport : Nat) (r : ct_record) :
    (masq_ct_forward mc co netlink_sock env sock lport fport r).trace ≠ [] := by
  unfold masq_ct_forward
  simp only
  split_ifs <;> simp

/-! ## The properties of the masquerade resolver -/

theorem masq_ct_line_of_record (mc : MasqConfig) (co : Collab) (netlink_sock : Int)
    (env : ct_env) (line : List Char) (sock : Int) (lport fport : Nat)
    (laddr faddr : sockaddr_storage) (r : ct_record)
    (hparse : masq_ct_parse mc.libnfct mc.conntrack env line = parse_result.record r) :
    masq_ct_line mc co netlink_sock env line sock lport fport laddr faddr =
      masq_ct_checks mc co netlink_sock env sock lport fport laddr faddr r := by
  unfold masq_ct_line
  rw [hparse]

/-- C11 (record rejection in `masq_ct_line`). For a line that parses into a record and
a query with ports in host byte order: if the protocol name is not "tcp" up to case, or
the port `mport` differs from the query's local port, or the port `nport` differs from
the query's foreign port, `masq_ct_line` returns 1, leaves `netlink_sock` alone, writes
nothing to the socket and calls none of `get_user4`, `find_masq_entry`, `fwd_request`
(its trace is empty). Conversely a TCP record with `mport` equal to the local port and
`nport` equal to the foreign port passes these tests: the result is that of the rest
of the function. -/
theorem C11_record_rejection (mc : MasqConfig) (co : Collab) (netlink_sock : Int)
    (env : ct_env) (line : List Char) (sock : Int) (lport fport : Nat)
    (laddr faddr : sockaddr_storage) (r : ct_record)
    (hparse : masq_ct_parse mc.libnfct mc.conntrack env line = parse_result.record r) :
    ((¬ strcasecmp_eq r.proto "tcp" ∨ r.mport_temp % 65536 ≠ lport ∨
        r.nport_temp % 65536 ≠ fport) →
      masq_ct_line mc co netlink_sock env line sock lport fport laddr faddr =
        some ⟨1, netlink_sock, []⟩) ∧
    (strcasecmp_eq r.proto "tcp" → r.mport_temp % 65536 = lport →
      r.nport_temp % 65536 = fport →
      masq_ct_line mc co netlink_sock env line sock lport fport laddr faddr =
        masq_ct_resolve mc co netlink_sock env sock lport fport laddr faddr r) := by
  rw [masq_ct_line_of_record mc co netlink_sock env line sock lport fport laddr faddr r hparse]
  unfold masq_ct_checks
  constructor
  · intro h
    by_cases hp : strcasecmp_eq r.proto "tcp"
    · by_cases hm : r.mport_temp % 65536 = lport
      · by_cases hn : r.nport_temp % 65536 = fport
        · rcases h with h | h | h
          · exact absurd hp h
          · exact absurd hm h
          · exact absurd hn h
        · rw [if_neg (not_not.mpr hp), if_neg (not_not.mpr hm), if_pos hn]
      · rw [if_neg (not_not.mpr hp), if_pos hm]
    · rw [if_pos hp]
  · intro hp hm hn
    rw [if_neg (not_not.mpr hp), if_neg (not_not.mpr hm), if_neg (not_not.mpr hn)]

set_option maxRecDepth 100000 in
/-- C11 at concrete inputs: the legacy line of scenario 3, queried with local port 5000
and foreign port 80, passes the protocol and port tests and is resolved as a local NAT
loop with a USERID answer; queried with local port 5001 it gives 1 with nothing done,
and so does a UDP line. -/
theorem C11_record_rejection_witness :
    masq_ct_line (sample_mc conntrack_t.CT_IPCONNTRACK false false false) sample_co (-1)
        sample_env scenario3_line 9 5000 80 sample_laddr (ipv4_le 1 2 3 4) =
      some ⟨0, -1,
        [MasqEvent.get_user4 (htons_le 4000) (htons_le 4000) sample_laddr (ipv4_le 1 2 3 4),
          MasqEvent.sys (Event.fopen ProcFile.CFILE),
          MasqEvent.sockprintf 9 "5000,80:USERID:UNIX:alice\r\n"]⟩ ∧
    masq_ct_line (sample_mc conntrack_t.CT_IPCONNTRACK false false false) sample_co (-1)
        sample_env scenario3_line 9 5001 80 sample_laddr (ipv4_le 1 2 3 4) =
      some ⟨1, -1, []⟩ :=
  ⟨((C11_record_rejection (sample_mc conntrack_t.CT_IPCONNTRACK false false false) sample_co
      (-1) sample_env scenario3_line 9 5000 80 sample_laddr (ipv4_le 1 2 3 4)
      ⟨"tcp".toList, 5000, 80, 4000, 4000, 3232235786, 16909060, 16909060, 3232235786⟩
      (by decide)).2 (by decide) (by decide) (by decide)).trans (by decide),
    (C11_record_rejection (sample_mc conntrack_t.CT_IPCONNTRACK false false false) sample_co
      (-1) sample_env scenario3_line 9 5001 80 sample_laddr (ipv4_le 1 2 3 4)
      ⟨"tcp".toList, 5000, 80, 4000, 4000, 3232235786, 16909060, 16909060, 3232235786⟩
      (by decide)).1 (Or.inr (Or.inl (by decide)))⟩

/-- C13 (IPv6 is rejected immediately). For a query whose foreign address family is
not `AF_INET`, `masq` returns false with an empty trace: no line of a tracking table is
read, no libnfct call is made, nothing is written to the client socket, whatever the
active variant, the table and the dump hold. -/
theorem C13_ipv6_rejected (mc : MasqConfig) (co : Collab) (netlink_sock : Int)
    (file : List (List Char × ct_env)) (nf : nfct_env) (sock : Int) (lport fport : Nat)
    (laddr faddr : sockaddr_storage) (hfamily : faddr.ss_family ≠ AF_INET) :
    masq mc co netlink_sock file nf sock lport fport laddr faddr =
      some ⟨false, netlink_sock, []⟩ := by
  unfold masq
  rw [if_pos hfamily]

/-- C13 at concrete inputs: the IPv6 query of the samples against a legacy table that
holds the masqueraded connection. -/
theorem C13_ipv6_rejected_witness :
    masq (sample_mc conntrack_t.CT_IPCONNTRACK false false false) sample_co (-1)
        [(masq_line, sample_env)] ⟨true, 0, 0, 0, [(masq_line, sample_env)]⟩ 9
        (htons_le 5000) (htons_le 80) sample_query6.laddr sample_query6.faddr =
      some ⟨false, -1, []⟩ :=
  C13_ipv6_rejected (sample_mc conntrack_t.CT_IPCONNTRACK false false false) sample_co (-1)
    [(masq_line, sample_env)] ⟨true, 0, 0, 0, [(masq_line, sample_env)]⟩ 9
    (htons_le 5000) (htons_le 80) sample_query6.laddr sample_query6.faddr (by decide)

/-- C12 (accounting counters are optional). Take a well-formed ESTABLISHED line: the
names are names, every number is a non-empty run of digits, and what follows the second
tuple does not start with a digit. For the legacy variant, the line with the text
` packets=N bytes=M` after its first tuple and the line without it both parse into the
same record, the one the texts stand for; for the modern variant (the file
`nf_conntrack` or, in a libnfct build, the live channel) both parse into that record when
the family is "ipv4" up to case and both are passed over otherwise. Hence
`masq_ct_line` gives the same result on both shapes: the same return value, the same
`netlink_sock` and the same actions. -/
theorem C12_counters_optional (mc : MasqConfig) (co : Collab) (netlink_sock : Int)
    (env : ct_env) (t : ct_tokens) (tail1 tail2 : List Char) (sock : Int)
    (lport fport : Nat) (laddr faddr : sockaddr_storage) (ht : t.well_formed)
    (h1 : starts_nondigit tail1) (h2 : starts_nondigit tail2) :
    (mc.conntrack = conntrack_t.CT_IPCONNTRACK →
      masq_ct_parse mc.libnfct mc.conntrack env (t.legacy_line true tail1) =
        parse_result.record t.record ∧
      masq_ct_parse mc.libnfct mc.conntrack env (t.legacy_line false tail2) =
        parse_result.record t.record ∧
      masq_ct_line mc co netlink_sock env (t.legacy_line true tail1) sock lport fport laddr
          faddr =
        masq_ct_line mc co netlink_sock env (t.legacy_line false tail2) sock lport fport
          laddr faddr) ∧
    (mc.conntrack = conntrack_t.CT_NFCONNTRACK ∨
        (mc.libnfct = true ∧ mc.conntrack = conntrack_t.CT_LIBNFCT) →
      masq_ct_parse mc.libnfct mc.conntrack env (t.modern_line true tail1) =
        (if strcasecmp_eq t.family "ipv4" then parse_result.record t.record
          else parse_result.reject) ∧
      masq_ct_parse mc.libnfct mc.conntrack env (t.modern_line false tail2) =
        (if strcasecmp_eq t.family "ipv4" then parse_result.record t.record
          else parse_result.reject) ∧
      masq_ct_line mc co netlink_sock env (t.modern_line true tail1) sock lport fport laddr
          faddr =
        masq_ct_line mc co netlink_sock env (t.modern_line false tail2) sock lport fport
          laddr faddr) := by
  constructor
  · intro hc
    have p1 := masq_ct_parse_legacy mc.libnfct env t true tail1 ht h1
    have p2 := masq_ct_parse_legacy mc.libnfct env t false tail2 ht h2
    rw [← hc] at p1 p2
    refine ⟨p1, p2, ?_⟩
    unfold masq_ct_line
    rw [p1, p2]
  · intro hc
    have p1 := masq_ct_parse_modern mc.libnfct mc.conntrack env t true tail1 hc ht h1
    have p2 := masq_ct_parse_modern mc.libnfct mc.conntrack env t false tail2 hc ht h2
    refine ⟨p1, p2, ?_⟩
    unfold masq_ct_line
    rw [p1, p2]

set_option maxRecDepth 100000 in
/-- The line of scenario 3 is the legacy line of `sample_tokens` without counters. -/
theorem sample_tokens_legacy_line :
    sample_tokens.legacy_line false sample_tail = scenario3_line ∧
    sample_tokens.legacy_line true sample_tail =
      "tcp      6 431999 ESTABLISHED src=192.168.1.10 dst=1.2.3.4 sport=4000 dport=4000 packets=5 bytes=300 src=1.2.3.4 dst=192.168.1.10 sport=80 dport=5000 [ASSURED] use=1\n".toList ∧
    sample_tokens.modern_line true sample_tail =
      "ipv4     2 tcp      6 431999 ESTABLISHED src=192.168.1.10 dst=1.2.3.4 sport=4000 dport=4000 packets=5 bytes=300 src=1.2.3.4 dst=192.168.1.10 sport=80 dport=5000 [ASSURED] use=1\n".toList := by
  decide

set_option maxRecDepth 100000 in
/-- C12 on the line of scenario 3: the legacy line with counters is handled like the
line without them, and so is the modern line. -/
theorem C12_counters_optional_witness :
    sample_tokens.well_formed ∧ starts_nondigit sample_tail ∧
    masq_ct_parse true conntrack_t.CT_IPCONNTRACK sample_env
        (sample_tokens.legacy_line true sample_tail) =
      parse_result.record
        ⟨"tcp".toList, 5000, 80, 4000, 4000, 3232235786, 16909060, 16909060, 3232235786⟩ ∧
    masq_ct_line (sample_mc conntrack_t.CT_IPCONNTRACK false false false) sample_co (-1)
        sample_env (sample_tokens.legacy_line true sample_tail) 9 5000 80 sample_laddr
        (ipv4_le 1 2 3 4) =
      masq_ct_line (sample_mc conntrack_t.CT_IPCONNTRACK false false false) sample_co (-1)
        sample_env (sample_tokens.legacy_line false sample_tail) 9 5000 80 sample_laddr
        (ipv4_le 1 2 3 4) ∧
    masq_ct_line (sample_mc conntrack_t.CT_NFCONNTRACK false false false) sample_co (-1)
        sample_env (sample_tokens.modern_line true sample_tail) 9 5000 80 sample_laddr
        (ipv4_le 1 2 3 4) =
      masq_ct_line (sample_mc conntrack_t.CT_NFCONNTRACK false false false) sample_co (-1)
        sample_env (sample_tokens.modern_line false sample_tail) 9 5000 80 sample_laddr
        (ipv4_le 1 2 3 4) :=
  ⟨by decide, by decide,
    ((C12_counters_optional (sample_mc conntrack_t.CT_IPCONNTRACK false false false)
      sample_co (-1) sample_env sample_tokens sample_tail sample_tail 9 5000 80 sample_laddr
      (ipv4_le 1 2 3 4) (by decide) (by decide) (by decide)).1 rfl).1.trans (by decide),
    ((C12_counters_optional (sample_mc conntrack_t.CT_IPCONNTRACK false false false)
      sample_co (-1) sample_env sample_tokens sample_tail sample_tail 9 5000 80 sample_laddr
      (ipv4_le 1 2 3 4) (by decide) (by decide) (by decide)).1 rfl).2.2,
    ((C12_counters_optional (sample_mc conntrack_t.CT_NFCONNTRACK false false false)
      sample_co (-1) sample_env sample_tokens sample_tail sample_tail 9 5000 80 sample_laddr
      (ipv4_le 1 2 3 4) (by decide) (by decide) (by decide)).2 (Or.inl rfl)).2.2⟩

set_option maxRecDepth 100000 in
/-- C14 as stated fails: on the legacy line of scenario 3, a local NAT loop that passes
the protocol and port tests, with a socket table that does not hold the inner
connection, the inner lookup gives `MISSING_UID` and `masq_ct_line` returns -1 without
writing anything to the socket. -/
theorem C14_silent_counterexample :
    masq_ct_parse true conntrack_t.CT_IPCONNTRACK sample_env_empty scenario3_line =
      parse_result.record
        ⟨"tcp".toList, 5000, 80, 4000, 4000, 3232235786, 16909060, 16909060, 3232235786⟩ ∧
    masq_ct_line (sample_mc conntrack_t.CT_IPCONNTRACK false false false) sample_co (-1)
        sample_env_empty scenario3_line 9 5000 80 sample_laddr (ipv4_le 1 2 3 4) =
      some ⟨-1, -1,
        [MasqEvent.get_user4 (htons_le 4000) (htons_le 4000) sample_laddr (ipv4_le 1 2 3 4),
          MasqEvent.sys (Event.fopen ProcFile.CFILE)]⟩ := by
  decide

/-- C14, amended (local NAT loop outcome). For a record that has passed the protocol
and port tests and whose `localm` equals `remoten`, the rest of `masq_ct_line` never
calls `find_masq_entry` or `fwd_request`. With an IPv4 foreign address it calls
`get_user4` for the inner connection; when that lookup gives a uid other than
`MISSING_UID` it writes exactly one line to the socket, as its last action, and
returns 0: the NO-USER error line when the uid has no password entry, the HIDDEN-USER
error line when `get_ident` returns -1, and otherwise the USERID line with `ret_os` and
the name `get_ident` reports. When the lookup gives `MISSING_UID` it writes nothing and
returns -1. -/
theorem C14_local_nat_amended (mc : MasqConfig) (co : Collab) (netlink_sock : Int)
    (env : ct_env) (sock : Int) (lport fport : Nat) (laddr faddr : sockaddr_storage)
    (r : ct_record) (g : lookup_result)
    (hloop : r.localm = r.remoten) (hfamily : faddr.ss_family = AF_INET)
    (hinner : get_user4 mc.base netlink_sock env.os
      ⟨htons mc.base.big_endian (r.masq_lport_temp % 65536),
        htons mc.base.big_endian (r.masq_fport_temp % 65536), laddr,
        sin_setv4 (htonl mc.base.big_endian r.remotem)⟩ env.uid env.inode = some g) :
    ∃ res, masq_ct_resolve mc co netlink_sock env sock lport fport laddr faddr r = some res ∧
      (∀ e ∈ res.trace, (∀ addr, e ≠ MasqEvent.find_masq_entry addr) ∧
        ∀ a b c d e1 f, e ≠ MasqEvent.fwd_request a b c d e1 f) ∧
      (g.uid = MISSING_UID →
        res.ret = -1 ∧ res.trace.filter is_sockprintf = []) ∧
      (g.uid ≠ MISSING_UID →
        res.ret = 0 ∧
        ∃ text, res.trace.filter is_sockprintf = [MasqEvent.sockprintf sock text] ∧
          res.trace.getLast? = some (MasqEvent.sockprintf sock text) ∧
          (text = error_line lport fport (mc.ERROR "NO-USER") ∨
            text = error_line lport fport (mc.ERROR "HIDDEN-USER") ∨
            ∃ user, text = userid_line lport fport mc.ret_os user) ∧
          (co.getpwuid g.uid = none →
            text = error_line lport fport (mc.ERROR "NO-USER")) ∧
          (∀ pw, co.getpwuid g.uid = some pw →
            (co.get_ident pw (r.masq_lport_temp % 65536) (r.masq_fport_temp % 65536) laddr
              (sin_setv4 (htonl mc.base.big_endian r.remotem))).1 = -1 →
            text = error_line lport fport (mc.ERROR "HIDDEN-USER")) ∧
          (∀ pw, co.getpwuid g.uid = some pw →
            (co.get_ident pw (r.masq_lport_temp % 65536) (r.masq_fport_temp % 65536) laddr
              (sin_setv4 (htonl mc.base.big_endian r.remotem))).1 ≠ -1 →
            text = userid_line lport fport mc.ret_os
              (co.get_ident pw (r.masq_lport_temp % 65536) (r.masq_fport_temp % 65536) laddr
                (sin_setv4 (htonl mc.base.big_endian r.remotem))).2)) := by
  have hsys : ∀ (tr : List Event), (tr.map MasqEvent.sys).filter is_sockprintf = [] := by
    intro tr
    induction tr with
    | nil => rfl
    | cons x xs ih => simp [List.filter, is_sockprintf]
  have hmem : ∀ (tr : List Event) (e : MasqEvent), e ∈ tr.map MasqEvent.sys →
      (∀ addr, e ≠ MasqEvent.find_masq_entry addr) ∧
      ∀ a b c d e1 f, e ≠ MasqEvent.fwd_request a b c d e1 f := by
    intro tr e he
    rw [List.mem_map] at he
    obtain ⟨x, _, rfl⟩ := he
    exact ⟨fun _ h => MasqEvent.noConfusion h, fun _ _ _ _ _ _ h => MasqEvent.noConfusion h⟩
  unfold masq_ct_resolve
  rw [if_pos hloop]
  unfold masq_ct_local_nat
  simp only [if_pos hfamily, hinner]
  by_cases hu : g.uid = MISSING_UID
  · simp only [if_pos hu]
    refine ⟨_, rfl, ?_, ?_, ?_⟩
    · intro e he
      rcases List.mem_cons.mp he with h | h
      · subst h
        exact ⟨fun _ h => MasqEvent.noConfusion h,
          fun _ _ _ _ _ _ h => MasqEvent.noConfusion h⟩
      · exact hmem _ e h
    · intro _
      refine ⟨rfl, ?_⟩
      simp [List.filter, is_sockprintf, hsys]
    · intro h; exact absurd hu h
  · simp only [if_neg hu]
    have key : ∀ text : String,
        (∀ e ∈ (MasqEvent.get_user4 (htons mc.base.big_endian (r.masq_lport_temp % 65536))
            (htons mc.base.big_endian (r.masq_fport_temp % 65536)) laddr
            (sin_setv4 (htonl mc.base.big_endian r.remotem)) ::
            List.map MasqEvent.sys g.trace) ++ [MasqEvent.sockprintf sock text],
          (∀ addr, e ≠ MasqEvent.find_masq_entry addr) ∧
          ∀ a b c d e1 f, e ≠ MasqEvent.fwd_request a b c d e1 f) ∧
        ((MasqEvent.get_user4 (htons mc.base.big_endian (r.masq_lport_temp % 65536))
            (htons mc.base.big_endian (r.masq_fport_temp % 65536)) laddr
            (sin_setv4 (htonl mc.base.big_endian r.remotem)) ::
            List.map MasqEvent.sys g.trace) ++ [MasqEvent.sockprintf sock text]).filter
          is_sockprintf = [MasqEvent.sockprintf sock text] ∧
        ((MasqEvent.get_user4 (htons mc.base.big_endian (r.masq_lport_temp % 65536))
            (htons mc.base.big_endian (r.masq_fport_temp % 65536)) laddr
            (sin_setv4 (htonl mc.base.big_endian r.remotem)) ::
            List.map MasqEvent.sys g.trace) ++ [MasqEvent.sockprintf sock text]).getLast? =
          some (MasqEvent.sockprintf sock text) := by
      intro text
      refine ⟨?_, ?_, ?_⟩
      · intro e he
        rcases List.mem_append.mp he with h | h
        · rcases List.mem_cons.mp h with h | h
          · subst h
            exact ⟨fun _ h => MasqEvent.noConfusion h,
              fun _ _ _ _ _ _ h => MasqEvent.noConfusion h⟩
          · exact hmem _ e h
        · rw [List.mem_singleton] at h
          subst h
          exact ⟨fun _ h => MasqEvent.noConfusion h,
            fun _ _ _ _ _ _ h => MasqEvent.noConfusion h⟩
      · rw [List.filter_append]
        simp [List.filter, is_sockprintf, hsys]
      · rw [List.getLast?_append]
        rfl
    cases hpw : co.getpwuid g.uid with
    | none =>
      refine ⟨_, rfl, (key _).1, fun h => absurd h hu, fun _ => ⟨rfl, ?_⟩⟩
      refine ⟨_, (key _).2.1, (key _).2.2, Or.inl rfl, fun _ => rfl, ?_, ?_⟩
      · intro pw h; exact Option.noConfusion h
      · intro pw h; exact Option.noConfusion h
    | some pw =>
      simp only
      by_cases hid : (co.get_ident pw (r.masq_lport_temp % 65536) (r.masq_fport_temp % 65536)
          laddr (sin_setv4 (htonl mc.base.big_endian r.remotem))).1 = -1
      · rw [if_pos hid]
        refine ⟨_, rfl, (key _).1, fun h => absurd h hu, fun _ => ⟨rfl, ?_⟩⟩
        refine ⟨_, (key _).2.1, (key _).2.2, Or.inr (Or.inl rfl),
          fun h => Option.noConfusion h, ?_, ?_⟩
        · intro pw1 h _
          rfl
        · intro pw1 h hne
          rw [Option.some.injEq] at h
          subst h
          exact absurd hid hne
      · rw [if_neg hid]
        refine ⟨_, rfl, (key _).1, fun h => absurd h hu, fun _ => ⟨rfl, ?_⟩⟩
        refine ⟨_, (key _).2.1, (key _).2.2, Or.inr (Or.inr ⟨_, rfl⟩),
          fun h => Option.noConfusion h, ?_, ?_⟩
        · intro pw1 h heq
          rw [Option.some.injEq] at h
          subst h
          exact absurd heq hid
        · intro pw1 h _
          rw [Option.some.injEq] at h
          subst h
          rfl

set_option maxRecDepth 100000 in
/-- C14, amended, at concrete inputs: on the legacy line of scenario 3 with a socket
table that holds the inner connection for uid 1000, the answer written is the USERID
line for alice, and 0 is returned. -/
theorem C14_local_nat_amended_witness :
    ∃ res, masq_ct_resolve (sample_mc conntrack_t.CT_IPCONNTRACK false false false) sample_co
        (-1) sample_env 9 5000 80 sample_laddr (ipv4_le 1 2 3 4)
        ⟨"tcp".toList, 5000, 80, 4000, 4000, 3232235786, 16909060, 16909060, 3232235786⟩ =
          some res ∧
      res.ret = 0 ∧
      res.trace.filter is_sockprintf =
        [MasqEvent.sockprintf 9 "5000,80:USERID:UNIX:alice\r\n"] := by
  obtain ⟨res, h1, _, _, h3⟩ :=
    C14_local_nat_amended (sample_mc conntrack_t.CT_IPCONNTRACK false false false) sample_co
      (-1) sample_env 9 5000 80 sample_laddr (ipv4_le 1 2 3 4)
      ⟨"tcp".toList, 5000, 80, 4000, 4000, 3232235786, 16909060, 16909060, 3232235786⟩
      ⟨1000, -1, [Event.fopen ProcFile.CFILE]⟩ (by decide) (by decide) (by decide)
  obtain ⟨h0, text, hf, _, _, _, _, hu⟩ := h3 (by decide)
  refine ⟨res, h1, h0, ?_⟩
  rw [hf, hu ⟨"alice", 1000⟩ (by decide) (by decide)]
  decide

set_option maxRecDepth 100000 in
/-- C15 as stated fails: with the PROXY option enabled, the proxy at 10.0.0.10 and a
query from the proxy, take the legacy line whose first tuple goes from 192.168.1.10 to
the proxy 10.0.0.10 and whose second tuple goes from 7.7.7.7 to 8.8.8.8. It passes the
protocol and port tests, is no local NAT loop, and neither address of its second tuple
is the query's foreign address; the foreign address of its first tuple is the proxy
address, yet `masq_ct_line` accepts the record: it looks up the override table and
answers. The tests of the code are all on the source address of the second tuple. -/
theorem C15_proxy_exception_counterexample :
    masq_ct_parse true conntrack_t.CT_IPCONNTRACK sample_env
        "tcp      6 431999 ESTABLISHED src=192.168.1.10 dst=10.0.0.10 sport=4000 dport=3128 src=7.7.7.7 dst=8.8.8.8 sport=80 dport=5000 [ASSURED] use=1\n".toList =
      parse_result.record
        ⟨"tcp".toList, 5000, 80, 4000, 3128, 3232235786, 167772170, 117901063, 134744072⟩ ∧
    (ipv4_le 10 0 0 10).s_addr = 167772170 ∧
    ntohl false (ipv4_le 10 0 0 10).s_addr = 167772170 ∧
    (sample_mc conntrack_t.CT_IPCONNTRACK true false false).base.proxy = ipv4_le 10 0 0 10 ∧
    masq_ct_line (sample_mc conntrack_t.CT_IPCONNTRACK true false false) sample_co (-1)
        sample_env
        "tcp      6 431999 ESTABLISHED src=192.168.1.10 dst=10.0.0.10 sport=4000 dport=3128 src=7.7.7.7 dst=8.8.8.8 sport=80 dport=5000 [ASSURED] use=1\n".toList
        9 5000 80 sample_laddr (ipv4_le 10 0 0 10) =
      some ⟨0, -1,
        [MasqEvent.find_masq_entry (ipv4_le 192 168 1 10),
          MasqEvent.sockprintf 9 "5000,80:USERID:UNIX:bob\r\n"]⟩ := by
  decide

/-- C15, amended (proxy exception in the resolver). For a record that has passed the
protocol and port tests and is no local NAT loop, the tests are on `localn`, the source
address of the second tuple. When `localn` differs from the query's foreign address in
host byte order, the record is accepted (the override table is looked up) only if the
PROXY option is enabled and the query's foreign address equals the proxy address: when
either fails, 1 is returned and nothing is done. When both hold, the record is accepted
provided the values of `localn` and of the proxy's `s_addr` differ; nothing is said
here of the case in which these two values coincide. When `localn` equals the query's
foreign address in host byte order the record is accepted with no proxy condition. -/
theorem C15_proxy_exception_amended (mc : MasqConfig) (co : Collab) (netlink_sock : Int)
    (env : ct_env) (sock : Int) (lport fport : Nat) (laddr faddr : sockaddr_storage)
    (r : ct_record) (hloop : r.localm ≠ r.remoten) :
    (r.localn ≠ ntohl mc.base.big_endian faddr.s_addr →
      mc.base.opt_PROXY = true ∧ faddr.s_addr = mc.base.proxy.s_addr ∧
        r.localn ≠ mc.base.proxy.s_addr →
      masq_ct_resolve mc co netlink_sock env sock lport fport laddr faddr r =
        some (masq_ct_forward mc co netlink_sock env sock lport fport r)) ∧
    (r.localn ≠ ntohl mc.base.big_endian faddr.s_addr →
      ¬ (mc.base.opt_PROXY = true ∧ faddr.s_addr = mc.base.proxy.s_addr) →
      masq_ct_resolve mc co netlink_sock env sock lport fport laddr faddr r =
        some ⟨1, netlink_sock, []⟩) ∧
    (r.localn = ntohl mc.base.big_endian faddr.s_addr →
      masq_ct_resolve mc co netlink_sock env sock lport fport laddr faddr r =
        some (masq_ct_forward mc co netlink_sock env sock lport fport r)) ∧
    (masq_ct_resolve mc co netlink_sock env sock lport fport laddr faddr r =
        some (masq_ct_forward mc co netlink_sock env sock lport fport r) →
      r.localn = ntohl mc.base.big_endian faddr.s_addr ∨
        (mc.base.opt_PROXY = true ∧ faddr.s_addr = mc.base.proxy.s_addr)) ∧
    (masq_ct_forward mc co netlink_sock env sock lport fport r).trace.head? =
      some (MasqEvent.find_masq_entry (sin_setv4 (htonl mc.base.big_endian r.localm))) := by
  have hreject : r.localn ≠ ntohl mc.base.big_endian faddr.s_addr →
      ¬ (mc.base.opt_PROXY = true ∧ faddr.s_addr = mc.base.proxy.s_addr) →
      masq_ct_resolve mc co netlink_sock env sock lport fport laddr faddr r =
        some ⟨1, netlink_sock, []⟩ := by
    intro hne hcond
    unfold masq_ct_resolve
    rw [if_neg hloop, if_pos hne]
    by_cases hp : mc.base.opt_PROXY = true
    · rw [if_neg (not_not.mpr hp)]
      by_cases hq : faddr.s_addr = mc.base.proxy.s_addr
      · exact absurd ⟨hp, hq⟩ hcond
      · rw [if_pos hq]
    · rw [if_pos hp]
  refine ⟨?_, hreject, ?_, ?_, ?_⟩
  · rintro hne ⟨hp, hq, hl⟩
    unfold masq_ct_resolve
    rw [if_neg hloop, if_pos hne, if_neg (not_not.mpr hp), if_neg (not_not.mpr hq), if_neg hl]
  · intro heq
    unfold masq_ct_resolve
    rw [if_neg hloop, if_neg (not_not.mpr heq)]
  · intro hacc
    by_contra hcon
    have hne : r.localn ≠ ntohl mc.base.big_endian faddr.s_addr := fun h => hcon (Or.inl h)
    have hcond : ¬ (mc.base.opt_PROXY = true ∧ faddr.s_addr = mc.base.proxy.s_addr) :=
      fun h => hcon (Or.inr h)
    rw [hreject hne hcond] at hacc
    have ht := masq_ct_forward_trace_ne_nil mc co netlink_sock env sock lport fport r
    rw [← Option.some.inj hacc] at ht
    exact ht rfl
  · unfold masq_ct_forward
    simp only
    split_ifs <;> rfl

set_option maxRecDepth 100000 in
/-- C15, amended, at concrete inputs: the masqueraded connection to 1.2.3.4 is accepted
for a query from 1.2.3.4 without proxy support, rejected for a query from 9.9.9.9
without proxy support, and accepted for a query from the proxy 10.0.0.10 with proxy
support. -/
theorem C15_proxy_exception_amended_witness :
    masq_ct_resolve (sample_mc conntrack_t.CT_IPCONNTRACK false false false) sample_co (-1)
        sample_env 9 5000 80 sample_laddr (ipv4_le 1 2 3 4)
        ⟨"tcp".toList, 5000, 80, 4000, 80, 3232235786, 16909060, 16909060, 84281096⟩ =
      some ⟨0, -1, [MasqEvent.find_masq_entry (ipv4_le 192 168 1 10),
        MasqEvent.sockprintf 9 "5000,80:USERID:UNIX:bob\r\n"]⟩ ∧
    masq_ct_resolve (sample_mc conntrack_t.CT_IPCONNTRACK false false false) sample_co (-1)
        sample_env 9 5000 80 sample_laddr (ipv4_le 9 9 9 9)
        ⟨"tcp".toList, 5000, 80, 4000, 80, 3232235786, 16909060, 16909060, 84281096⟩ =
      some ⟨1, -1, []⟩ ∧
    masq_ct_resolve (sample_mc conntrack_t.CT_IPCONNTRACK true false false) sample_co (-1)
        sample_env 9 5000 80 sample_laddr (ipv4_le 10 0 0 10)
        ⟨"tcp".toList, 5000, 80, 4000, 80, 3232235786, 16909060, 16909060, 84281096⟩ =
      some ⟨0, -1, [MasqEvent.find_masq_entry (ipv4_le 192 168 1 10),
        MasqEvent.sockprintf 9 "5000,80:USERID:UNIX:bob\r\n"]⟩ :=
  ⟨((C15_proxy_exception_amended (sample_mc conntrack_t.CT_IPCONNTRACK false false false)
      sample_co (-1) sample_env 9 5000 80 sample_laddr (ipv4_le 1 2 3 4)
      ⟨"tcp".toList, 5000, 80, 4000, 80, 3232235786, 16909060, 16909060, 84281096⟩
      (by decide)).2.2.1 (by decide)).trans (by decide),
    (C15_proxy_exception_amended (sample_mc conntrack_t.CT_IPCONNTRACK false false false)
      sample_co (-1) sample_env 9 5000 80 sample_laddr (ipv4_le 9 9 9 9)
      ⟨"tcp".toList, 5000, 80, 4000, 80, 3232235786, 16909060, 16909060, 84281096⟩
      (by decide)).2.1 (by decide) (by decide),
    ((C15_proxy_exception_amended (sample_mc conntrack_t.CT_IPCONNTRACK true false false)
      sample_co (-1) sample_env 9 5000 80 sample_laddr (ipv4_le 10 0 0 10)
      ⟨"tcp".toList, 5000, 80, 4000, 80, 3232235786, 16909060, 16909060, 84281096⟩
      (by decide)).1 (by decide) (by decide)).trans (by decide)⟩

/-- C16 (forward or override, for an accepted record that is no local NAT loop). With
`found` the result of `find_masq_entry` on the internal address and `fwd` the result of
`fwd_request`: `fwd_request` is called exactly when the FORWARD option is enabled and
the override lookup failed or the MASQ_OVERRIDE option is disabled. When it is called
and succeeds, 0 is returned and no line is written, even if the override lookup had
succeeded. When it is not called or fails and the override lookup succeeded, the
USERID line with the query's ports and the operating system and user of the override
table is written and 0 is returned. -/
theorem C16_forward_or_override (mc : MasqConfig) (co : Collab) (netlink_sock : Int)
    (env : ct_env) (sock : Int) (lport fport : Nat) (r : ct_record)
    (ss : sockaddr_storage) (found : Int × String × String) (fwd : Int)
    (hss : ss = sin_setv4 (htonl mc.base.big_endian r.localm))
    (hfound : found = co.find_masq_entry ss)
    (hfwd : fwd = co.fwd_request sock lport (r.masq_lport_temp % 65536) fport
      (r.masq_fport_temp % 65536) ss) :
    ((∃ a b c d e f, MasqEvent.fwd_request a b c d e f ∈
        (masq_ct_forward mc co netlink_sock env sock lport fport r).trace) ↔
      (mc.opt_FORWARD = true ∧ (found.1 ≠ 0 ∨ mc.opt_MASQ_OVERRIDE = false))) ∧
    (mc.opt_FORWARD = true ∧ (found.1 ≠ 0 ∨ mc.opt_MASQ_OVERRIDE = false) → fwd = 0 →
      masq_ct_forward mc co netlink_sock env sock lport fport r =
        ⟨0, netlink_sock,
          [MasqEvent.find_masq_entry ss,
            MasqEvent.fwd_request sock lport (r.masq_lport_temp % 65536) fport
              (r.masq_fport_temp % 65536) ss]⟩) ∧
    (mc.opt_FORWARD = true ∧ (found.1 ≠ 0 ∨ mc.opt_MASQ_OVERRIDE = false) → fwd ≠ 0 →
      found.1 = 0 →
      masq_ct_forward mc co netlink_sock env sock lport fport r =
        ⟨0, netlink_sock,
          [MasqEvent.find_masq_entry ss,
            MasqEvent.fwd_request sock lport (r.masq_lport_temp % 65536) fport
              (r.masq_fport_temp % 65536) ss,
            MasqEvent.sockprintf sock (userid_line lport fport found.2.2 found.2.1)]⟩) ∧
    (¬ (mc.opt_FORWARD = true ∧ (found.1 ≠ 0 ∨ mc.opt_MASQ_OVERRIDE = false)) →
      found.1 = 0 →
      masq_ct_forward mc co netlink_sock env sock lport fport r =
        ⟨0, netlink_sock,
          [MasqEvent.find_masq_entry ss,
            MasqEvent.sockprintf sock (userid_line lport fport found.2.2 found.2.1)]⟩) := by
  subst hss hfound hfwd
  have hcond : (mc.opt_FORWARD = true ∧
        ((co.find_masq_entry (sin_setv4 (htonl mc.base.big_endian r.localm))).1 ≠ 0 ∨
          ¬ mc.opt_MASQ_OVERRIDE = true)) ↔
      (mc.opt_FORWARD = true ∧
        ((co.find_masq_entry (sin_setv4 (htonl mc.base.big_endian r.localm))).1 ≠ 0 ∨
          mc.opt_MASQ_OVERRIDE = false)) := by
    cases mc.opt_MASQ_OVERRIDE <;> simp
  refine ⟨?_, ?_, ?_, ?_⟩
  · unfold masq_ct_forward
    simp only
    by_cases hc : mc.opt_FORWARD = true ∧
        ((co.find_masq_entry (sin_setv4 (htonl mc.base.big_endian r.localm))).1 ≠ 0 ∨
          ¬ mc.opt_MASQ_OVERRIDE = true)
    · rw [if_pos hc]
      refine ⟨fun _ => hcond.mp hc, fun _ => ?_⟩
      split_ifs <;>
        exact ⟨sock, lport, r.masq_lport_temp % 65536, fport, r.masq_fport_temp % 65536,
          sin_setv4 (htonl mc.base.big_endian r.localm), by simp⟩
    · rw [if_neg hc]
      refine ⟨fun h => ?_, fun h => absurd (hcond.mpr h) hc⟩
      obtain ⟨a, b, c, d, e, f, hmem⟩ := h
      split_ifs at hmem <;> simp at hmem
  · intro hc h0
    unfold masq_ct_forward
    simp only
    rw [if_pos (hcond.mpr hc), if_pos h0]
  · intro hc h0 hf
    unfold masq_ct_forward
    simp only
    rw [if_pos (hcond.mpr hc), if_neg h0, if_pos hf]
  · intro hc hf
    unfold masq_ct_forward
    simp only
    rw [if_neg (fun h => hc (hcond.mp h)), if_pos hf]

/-- C16 at concrete inputs, for the masqueraded connection of 192.168.1.10, which the
override table knows as bob: with FORWARD and MASQ_OVERRIDE enabled the override
answers without forwarding; with FORWARD enabled, MASQ_OVERRIDE disabled and a
forwarding that succeeds nothing is written; with a forwarding that fails the
override answers after it. -/
theorem C16_forward_or_override_witness :
    masq_ct_forward (sample_mc conntrack_t.CT_IPCONNTRACK false true true) sample_co_fwd (-1)
        sample_env 9 5000 80
        ⟨"tcp".toList, 5000, 80, 4000, 80, 3232235786, 16909060, 16909060, 84281096⟩ =
      ⟨0, -1, [MasqEvent.find_masq_entry (ipv4_le 192 168 1 10),
        MasqEvent.sockprintf 9 "5000,80:USERID:UNIX:bob\r\n"]⟩ ∧
    masq_ct_forward (sample_mc conntrack_t.CT_IPCONNTRACK false true false) sample_co_fwd (-1)
        sample_env 9 5000 80
        ⟨"tcp".toList, 5000, 80, 4000, 80, 3232235786, 16909060, 16909060, 84281096⟩ =
      ⟨0, -1, [MasqEvent.find_masq_entry (ipv4_le 192 168 1 10),
        MasqEvent.fwd_request 9 5000 4000 80 80 (ipv4_le 192 168 1 10)]⟩ ∧
    masq_ct_forward (sample_mc conntrack_t.CT_IPCONNTRACK false true false) sample_co (-1)
        sample_env 9 5000 80
        ⟨"tcp".toList, 5000, 80, 4000, 80, 3232235786, 16909060, 16909060, 84281096⟩ =
      ⟨0, -1, [MasqEvent.find_masq_entry (ipv4_le 192 168 1 10),
        MasqEvent.fwd_request 9 5000 4000 80 80 (ipv4_le 192 168 1 10),
        MasqEvent.sockprintf 9 "5000,80:USERID:UNIX:bob\r\n"]⟩ :=
  ⟨((C16_forward_or_override (sample_mc conntrack_t.CT_IPCONNTRACK false true true)
      sample_co_fwd (-1) sample_env 9 5000 80
      ⟨"tcp".toList, 5000, 80, 4000, 80, 3232235786, 16909060, 16909060, 84281096⟩
      (ipv4_le 192 168 1 10) (0, "bob", "UNIX") 0 (by decide) (by decide) (by decide)).2.2.2
      (by decide) rfl).trans (by decide),
    (C16_forward_or_override (sample_mc conntrack_t.CT_IPCONNTRACK false true false)
      sample_co_fwd (-1) sample_env 9 5000 80
      ⟨"tcp".toList, 5000, 80, 4000, 80, 3232235786, 16909060, 16909060, 84281096⟩
      (ipv4_le 192 168 1 10) (0, "bob", "UNIX") 0 (by decide) (by decide) (by decide)).2.1
      (by decide) rfl,
    ((C16_forward_or_override (sample_mc conntrack_t.CT_IPCONNTRACK false true false)
      sample_co (-1) sample_env 9 5000 80
      ⟨"tcp".toList, 5000, 80, 4000, 80, 3232235786, 16909060, 16909060, 84281096⟩
      (ipv4_le 192 168 1 10) (0, "bob", "UNIX") (-1) (by decide) (by decide)
      (by decide)).2.2.1 (by decide) (by decide) rfl).trans (by decide)⟩

/-- C17 (search result of `masq` over a file backend). For an IPv4 query and a variant
read from a file, with `lines` the lines of the table after the header line of the
static table: the lines are handed to `masq_ct_line` in order, up to and including the
first whose result is not 1 and no further; `masq` returns true exactly when that
result is 0, so false when it is -1; it returns false when every line gives 1; and
with the variant `CT_UNKNOWN` it returns false whatever the table holds. -/
theorem C17_masq_file_search (mc : MasqConfig) (co : Collab) (netlink_sock : Int)
    (file lines : List (List Char × ct_env)) (nf : nfct_env) (sock : Int)
    (lport fport : Nat) (laddr faddr : sockaddr_storage)
    (hfamily : faddr.ss_family = AF_INET)
    (hvariant : ¬ (mc.libnfct = true ∧ mc.conntrack = conntrack_t.CT_LIBNFCT))
    (hlines : lines = if mc.conntrack = conntrack_t.CT_MASQFILE then file.drop 1 else file) :
    (∀ pre line env rest r, lines = pre ++ (line, env) :: rest →
      (∀ p ∈ pre, ∃ x,
        masq_ct_line mc co netlink_sock p.2 p.1 sock (ntohs mc.base.big_endian lport)
          (ntohs mc.base.big_endian fport) laddr faddr = some x ∧ x.ret = 1) →
      masq_ct_line mc co netlink_sock env line sock (ntohs mc.base.big_endian lport)
        (ntohs mc.base.big_endian fport) laddr faddr = some r →
      r.ret ≠ 1 →
      ∃ tr, masq mc co netlink_sock file nf sock lport fport laddr faddr =
          some ⟨decide (r.ret = 0), r.netlink_sock, tr⟩ ∧
        lines_handled tr = pre.map Prod.fst ++ [line]) ∧
    ((∀ p ∈ lines, ∃ x,
        masq_ct_line mc co netlink_sock p.2 p.1 sock (ntohs mc.base.big_endian lport)
          (ntohs mc.base.big_endian fport) laddr faddr = some x ∧ x.ret = 1) →
      ∃ tr, masq mc co netlink_sock file nf sock lport fport laddr faddr =
          some ⟨false, netlink_sock, tr⟩ ∧
        lines_handled tr = lines.map Prod.fst) ∧
    (mc.conntrack = conntrack_t.CT_UNKNOWN →
      ∃ tr, masq mc co netlink_sock file nf sock lport fport laddr faddr =
        some ⟨false, netlink_sock, tr⟩) := by
  have hmasq : ∀ m : masq_result,
      masq_file_loop mc co sock (ntohs mc.base.big_endian lport)
        (ntohs mc.base.big_endian fport) laddr faddr netlink_sock lines = some m →
      ∃ tr, masq mc co netlink_sock file nf sock lport fport laddr faddr =
          some ⟨m.ret, m.netlink_sock, tr⟩ ∧ lines_handled tr = lines_handled m.trace := by
    intro m hm
    unfold masq
    rw [if_neg (not_not.mpr hfamily), if_neg hvariant]
    by_cases hmf : mc.conntrack = conntrack_t.CT_MASQFILE
    · rw [if_pos hmf] at hlines
      rw [if_pos hmf, ← hlines, hm]
      exact ⟨_, rfl, rfl⟩
    · rw [if_neg hmf] at hlines
      rw [if_neg hmf, ← hlines, hm]
      exact ⟨_, rfl, rfl⟩
  refine ⟨?_, ?_, ?_⟩
  · intro pre line env rest r hsplit hpre hline hret
    obtain ⟨tr, htr, hloop⟩ := masq_file_loop_decided mc co sock
      (ntohs mc.base.big_endian lport) (ntohs mc.base.big_endian fport) laddr faddr
      netlink_sock pre line env r hpre hline hret
    obtain ⟨tr1, h1, h2⟩ := hmasq _ (by rw [hsplit]; exact hloop rest)
    exact ⟨tr1, h1, h2.trans htr⟩
  · intro hall
    obtain ⟨tr, htr, hloop⟩ := masq_file_loop_exhausted mc co sock
      (ntohs mc.base.big_endian lport) (ntohs mc.base.big_endian fport) laddr faddr
      netlink_sock lines hall
    obtain ⟨tr1, h1, h2⟩ := hmasq _ hloop
    exact ⟨tr1, h1, h2.trans htr⟩
  · intro hunknown
    have herr : ∀ env line, masq_ct_line mc co netlink_sock env line sock
        (ntohs mc.base.big_endian lport) (ntohs mc.base.big_endian fport) laddr faddr =
          some ⟨-1, netlink_sock, []⟩ := by
      intro env line
      unfold masq_ct_line masq_ct_parse
      simp [hunknown]
    cases hl : lines with
    | nil =>
      obtain ⟨tr1, h1, _⟩ := hmasq ⟨false, netlink_sock, [MasqEvent.fgets]⟩ (by rw [hl]; rfl)
      exact ⟨tr1, h1⟩
    | cons p ps =>
      obtain ⟨tr, _, hloop⟩ := masq_file_loop_decided mc co sock
        (ntohs mc.base.big_endian lport) (ntohs mc.base.big_endian fport) laddr faddr
        netlink_sock [] p.1 p.2 ⟨-1, netlink_sock, []⟩ (fun q hq => absurd hq (List.not_mem_nil q))
        (herr p.2 p.1) (by decide : (-1 : Int) ≠ 1)
      obtain ⟨tr1, h1, _⟩ := hmasq _ (by rw [hl]; exact hloop ps)
      exact ⟨tr1, h1⟩

set_option maxRecDepth 100000 in
/-- C17 at concrete inputs: in a legacy table holding a UDP line, the masqueraded
connection and then the line of scenario 3, the query for ports 5000 and 80 from
1.2.3.4 is answered from the second line and the third is not handed over; on a table
holding only the UDP line `masq` returns false. -/
theorem C17_masq_file_search_witness :
    (∃ tr, masq (sample_mc conntrack_t.CT_IPCONNTRACK false false false) sample_co (-1)
        [(udp_line, sample_env), (masq_line, sample_env), (scenario3_line, sample_env)]
        ⟨true, 0, 0, 0, []⟩ 9 (htons_le 5000) (htons_le 80) sample_laddr (ipv4_le 1 2 3 4) =
          some ⟨true, -1, tr⟩ ∧
      lines_handled tr = [udp_line, masq_line]) ∧
    (∃ tr, masq (sample_mc conntrack_t.CT_IPCONNTRACK false false false) sample_co (-1)
        [(udp_line, sample_env)]
        ⟨true, 0, 0, 0, []⟩ 9 (htons_le 5000) (htons_le 80) sample_laddr (ipv4_le 1 2 3 4) =
          some ⟨false, -1, tr⟩ ∧
      lines_handled tr = [udp_line]) :=
  ⟨(C17_masq_file_search (sample_mc conntrack_t.CT_IPCONNTRACK false false false) sample_co
      (-1) [(udp_line, sample_env), (masq_line, sample_env), (scenario3_line, sample_env)]
      [(udp_line, sample_env), (masq_line, sample_env), (scenario3_line, sample_env)]
      ⟨true, 0, 0, 0, []⟩ 9 (htons_le 5000) (htons_le 80) sample_laddr (ipv4_le 1 2 3 4)
      (by decide) (by decide) rfl).1 [(udp_line, sample_env)] masq_line sample_env
      [(scenario3_line, sample_env)]
      ⟨0, -1, [MasqEvent.find_masq_entry (ipv4_le 192 168 1 10),
        MasqEvent.sockprintf 9 "5000,80:USERID:UNIX:bob\r\n"]⟩ rfl
      (fun p hp => ⟨⟨1, -1, []⟩, by
        rw [List.mem_singleton] at hp
        subst hp
        decide, rfl⟩)
      (by decide) (by decide),
    (C17_masq_file_search (sample_mc conntrack_t.CT_IPCONNTRACK false false false) sample_co
      (-1) [(udp_line, sample_env)] [(udp_line, sample_env)]
      ⟨true, 0, 0, 0, []⟩ 9 (htons_le 5000) (htons_le 80) sample_laddr (ipv4_le 1 2 3 4)
      (by decide) (by decide) rfl).2.1
      (fun p hp => ⟨⟨1, -1, []⟩, by
        rw [List.mem_singleton] at hp
        subst hp
        decide, rfl⟩)⟩

/-- The function `masq` with the live-channel variant, when the libnfct calls
succeed: the dump loop between the opening calls and `nfct_close`. -/
theorem masq_libnfct_eq (mc : MasqConfig) (co : Collab) (netlink_sock : Int)
    (file : List (List Char × ct_env)) (nf : nfct_env) (sock : Int) (lport fport : Nat)
    (laddr faddr : sockaddr_storage) (hlib : mc.libnfct = true)
    (hfamily : faddr.ss_family = AF_INET) (hopen : nf.open_ok = true)
    (hreg : nf.register_ret = 0) (hquery : nf.query_ret = 0) (hclose : nf.close_ret = 0) :
    masq { mc with conntrack := conntrack_t.CT_LIBNFCT } co netlink_sock file nf sock lport
        fport laddr faddr =
      match nfct_dump_loop { mc with conntrack := conntrack_t.CT_LIBNFCT } co sock
          (ntohs mc.base.big_endian lport) (ntohs mc.base.big_endian fport) laddr faddr
          netlink_sock 1 nf.dump with
      | none => none
      | some (status, ns, tr) =>
        some ⟨decide (status = 0), ns,
          MasqEvent.nfct_open :: MasqEvent.nfct_callback_register :: MasqEvent.nfct_query ::
            (tr ++ [MasqEvent.nfct_close])⟩ := by
  unfold masq
  rw [if_neg (not_not.mpr hfamily), if_pos ⟨hlib, rfl⟩]
  unfold dispatch_libnfct_query
  simp only [hopen, hreg, hquery, hclose, Bool.true_eq_false, if_false, ne_eq,
    not_true_eq_false]

/-- C18 (the live channel behaves like the file loop). In a build with libnfct
support, for an IPv4 query, when `nfct_open`, `nfct_callback_register`, `nfct_query`
and `nfct_close` succeed and the dump delivers the records rendered as `lines`:
`masq` with the variant `CT_LIBNFCT` and `masq` with the variant `CT_NFCONNTRACK`
over a file holding the same lines both return or both do not, with the same return
value, the same `netlink_sock` and the same events of handling records (which lines are
handed to `masq_ct_line` and what it does on each). The dispatch stops at the first
record whose result is not 1 and returns true exactly when that result is 0; when every
record gives 1 it goes to the end of the dump and returns false. -/
theorem C18_live_channel_like_file (mc : MasqConfig) (co : Collab) (netlink_sock : Int)
    (file lines : List (List Char × ct_env)) (nf : nfct_env) (sock : Int)
    (lport fport : Nat) (laddr faddr : sockaddr_storage) (hlib : mc.libnfct = true)
    (hfamily : faddr.ss_family = AF_INET) (hopen : nf.open_ok = true)
    (hreg : nf.register_ret = 0) (hquery : nf.query_ret = 0) (hclose : nf.close_ret = 0)
    (hdump : nf.dump = lines) :
    Option.map (fun m => (m.ret, m.netlink_sock, record_events m.trace))
        (masq { mc with conntrack := conntrack_t.CT_LIBNFCT } co netlink_sock file nf sock
          lport fport laddr faddr) =
      Option.map (fun m => (m.ret, m.netlink_sock, record_events m.trace))
        (masq { mc with conntrack := conntrack_t.CT_NFCONNTRACK } co netlink_sock lines nf
          sock lport fport laddr faddr) ∧
    (∀ pre line env rest r, lines = pre ++ (line, env) :: rest →
      (∀ p ∈ pre, ∃ x,
        masq_ct_line { mc with conntrack := conntrack_t.CT_LIBNFCT } co netlink_sock p.2 p.1
          sock (ntohs mc.base.big_endian lport) (ntohs mc.base.big_endian fport) laddr
          faddr = some x ∧ x.ret = 1) →
      masq_ct_line { mc with conntrack := conntrack_t.CT_LIBNFCT } co netlink_sock env line
        sock (ntohs mc.base.big_endian lport) (ntohs mc.base.big_endian fport) laddr faddr =
          some r →
      r.ret ≠ 1 →
      ∃ tr, masq { mc with conntrack := conntrack_t.CT_LIBNFCT } co netlink_sock file nf sock
          lport fport laddr faddr = some ⟨decide (r.ret = 0), r.netlink_sock, tr⟩ ∧
        lines_handled tr = pre.map Prod.fst ++ [line]) ∧
    ((∀ p ∈ lines, ∃ x,
        masq_ct_line { mc with conntrack := conntrack_t.CT_LIBNFCT } co netlink_sock p.2 p.1
          sock (ntohs mc.base.big_endian lport) (ntohs mc.base.big_endian fport) laddr
          faddr = some x ∧ x.ret = 1) →
      ∃ tr, masq { mc with conntrack := conntrack_t.CT_LIBNFCT } co netlink_sock file nf sock
          lport fport laddr faddr = some ⟨false, netlink_sock, tr⟩ ∧
        lines_handled tr = lines.map Prod.fst) := by
  have hL := masq_libnfct_eq mc co netlink_sock file nf sock lport fport laddr faddr hlib
    hfamily hopen hreg hquery hclose
  rw [hdump] at hL
  have hframe : ∀ tr : List MasqEvent,
      lines_handled (MasqEvent.nfct_open :: MasqEvent.nfct_callback_register ::
        MasqEvent.nfct_query :: (tr ++ [MasqEvent.nfct_close])) = lines_handled tr := by
    intro tr
    simp [lines_handled, lines_handled_append]
  refine ⟨?_, ?_, ?_⟩
  · rw [hL]
    have hN : masq { mc with conntrack := conntrack_t.CT_NFCONNTRACK } co netlink_sock lines
        nf sock lport fport laddr faddr =
        match masq_file_loop { mc with conntrack := conntrack_t.CT_NFCONNTRACK } co sock
            (ntohs mc.base.big_endian lport) (ntohs mc.base.big_endian fport) laddr faddr
            netlink_sock lines with
        | none => none
        | some m => some ⟨m.ret, m.netlink_sock, MasqEvent.rewind :: m.trace⟩ := by
      unfold masq
      rw [if_neg (not_not.mpr hfamily),
        if_neg (fun h => conntrack_t.noConfusion h.2),
        if_neg (fun h => conntrack_t.noConfusion h)]
    rw [hN]
    have heq := nfct_dump_loop_eq_file_loop mc co sock (ntohs mc.base.big_endian lport)
      (ntohs mc.base.big_endian fport) laddr faddr hlib lines netlink_sock
    cases hd : nfct_dump_loop { mc with conntrack := conntrack_t.CT_LIBNFCT } co sock
        (ntohs mc.base.big_endian lport) (ntohs mc.base.big_endian fport) laddr faddr
        netlink_sock 1 lines with
    | none =>
      rw [hd] at heq
      cases hf : masq_file_loop { mc with conntrack := conntrack_t.CT_NFCONNTRACK } co sock
          (ntohs mc.base.big_endian lport) (ntohs mc.base.big_endian fport) laddr faddr
          netlink_sock lines with
      | none => rfl
      | some m => rw [hf] at heq; exact Option.noConfusion heq
    | some d =>
      rw [hd] at heq
      cases hf : masq_file_loop { mc with conntrack := conntrack_t.CT_NFCONNTRACK } co sock
          (ntohs mc.base.big_endian lport) (ntohs mc.base.big_endian fport) laddr faddr
          netlink_sock lines with
      | none => rw [hf] at heq; exact Option.noConfusion heq
      | some m =>
        rw [hf] at heq
        obtain ⟨st, ns, tr⟩ := d
        simp only [Option.map_some', Option.some.injEq, Prod.mk.injEq] at heq ⊢
        refine ⟨heq.1, heq.2.1, ?_⟩
        have h1 : record_events (MasqEvent.nfct_open :: MasqEvent.nfct_callback_register ::
            MasqEvent.nfct_query :: (tr ++ [MasqEvent.nfct_close])) = record_events tr := by
          simp [record_events, List.filter, is_framing]
        have h2 : record_events (MasqEvent.rewind :: m.trace) = record_events m.trace := by
          simp [record_events, List.filter, is_framing]
        rw [h1, h2, heq.2.2]
  · intro pre line env rest r hsplit hpre hline hret
    obtain ⟨tr, htr, hloop⟩ := nfct_dump_loop_decided
      { mc with conntrack := conntrack_t.CT_LIBNFCT } co sock
      (ntohs mc.base.big_endian lport) (ntohs mc.base.big_endian fport) laddr faddr
      netlink_sock 1 pre line env r hpre hline hret
    rw [hL, hsplit, hloop rest]
    exact ⟨_, rfl, (hframe tr).trans htr⟩
  · intro hall
    obtain ⟨tr, htr, hloop⟩ := nfct_dump_loop_exhausted
      { mc with conntrack := conntrack_t.CT_LIBNFCT } co sock
      (ntohs mc.base.big_endian lport) (ntohs mc.base.big_endian fport) laddr faddr
      netlink_sock 1 lines hall
    rw [hL, hloop]
    exact ⟨_, rfl, (hframe tr).trans htr⟩

set_option maxRecDepth 100000 in
/-- C18 on a dump of two records: the live channel and the file loop over the same two
lines agree; both pass over the first record and answer on the second. -/
theorem C18_live_channel_like_file_witness :
    Option.map (fun m => (m.ret, m.netlink_sock, record_events m.trace))
        (masq (sample_mc conntrack_t.CT_LIBNFCT false false true) sample_co (-1) []
          sample_nf 9 (htons_le 5000) (htons_le 80) sample_laddr (ipv4_le 1 2 3 4)) =
      Option.map (fun m => (m.ret, m.netlink_sock, record_events m.trace))
        (masq (sample_mc conntrack_t.CT_NFCONNTRACK false false true) sample_co (-1)
          sample_nf.dump sample_nf 9 (htons_le 5000) (htons_le 80) sample_laddr
          (ipv4_le 1 2 3 4)) ∧
    Option.map (fun m => (m.ret, lines_handled m.trace))
        (masq (sample_mc conntrack_t.CT_LIBNFCT false false true) sample_co (-1) []
          sample_nf 9 (htons_le 5000) (htons_le 80) sample_laddr (ipv4_le 1 2 3 4)) =
      some (true, [nf_other_line, nf_masq_line]) :=
  ⟨(C18_live_channel_like_file (sample_mc conntrack_t.CT_LIBNFCT false false true)
      sample_co (-1) [] sample_nf.dump sample_nf 9 (htons_le 5000) (htons_le 80)
      sample_laddr (ipv4_le 1 2 3 4) rfl rfl rfl rfl rfl rfl rfl).1,
    by decide⟩

/-- C19 (privilege retention in `drop_privs_libnfct`). With another variant than
`CT_LIBNFCT` the function returns true, makes no library call and leaves both options
as they were. With `CT_LIBNFCT` it returns false exactly when `capng_update` fails or
the `capng_change_id` it then makes fails, and leaves both options as they were in
that case; when both succeed it returns true with `CHANGE_UID` and `CHANGE_GID`
disabled. The ids handed to `capng_change_id` are `uid` when `CHANGE_UID` is enabled
and `MISSING_UID` otherwise, `gid` when `CHANGE_GID` is enabled and `MISSING_GID`
otherwise. -/
theorem C19_privilege_retention (conntrack : conntrack_t) (update_ret : Int)
    (change_id_ret : Nat → Nat → Int) (s : privs_state) (uid gid uid1 gid1 : Nat)
    (huid : uid1 = if s.opt_CHANGE_UID = true then uid else MISSING_UID)
    (hgid : gid1 = if s.opt_CHANGE_GID = true then gid else MISSING_GID) :
    (conntrack ≠ conntrack_t.CT_LIBNFCT →
      drop_privs_libnfct conntrack update_ret change_id_ret s uid gid = ⟨true, s, []⟩) ∧
    (conntrack = conntrack_t.CT_LIBNFCT → update_ret ≠ 0 →
      drop_privs_libnfct conntrack update_ret change_id_ret s uid gid =
        ⟨false, s, [CapEvent.capng_clear, CapEvent.capng_update]⟩) ∧
    (conntrack = conntrack_t.CT_LIBNFCT → update_ret = 0 → change_id_ret uid1 gid1 ≠ 0 →
      drop_privs_libnfct conntrack update_ret change_id_ret s uid gid =
        ⟨false, s,
          [CapEvent.capng_clear, CapEvent.capng_update, CapEvent.capng_change_id uid1 gid1]⟩) ∧
    (conntrack = conntrack_t.CT_LIBNFCT → update_ret = 0 → change_id_ret uid1 gid1 = 0 →
      drop_privs_libnfct conntrack update_ret change_id_ret s uid gid =
        ⟨true, ⟨false, false⟩,
          [CapEvent.capng_clear, CapEvent.capng_update, CapEvent.capng_change_id uid1 gid1]⟩) ∧
    ((drop_privs_libnfct conntrack update_ret change_id_ret s uid gid).ret = false ↔
      conntrack = conntrack_t.CT_LIBNFCT ∧
        (update_ret ≠ 0 ∨ change_id_ret uid1 gid1 ≠ 0)) ∧
    ((drop_privs_libnfct conntrack update_ret change_id_ret s uid gid).state =
      if conntrack = conntrack_t.CT_LIBNFCT ∧ update_ret = 0 ∧ change_id_ret uid1 gid1 = 0
      then ⟨false, false⟩ else s) := by
  subst huid hgid
  unfold drop_privs_libnfct
  by_cases hc : conntrack = conntrack_t.CT_LIBNFCT
  · by_cases hu : update_ret = 0
    · by_cases hi : change_id_ret (if s.opt_CHANGE_UID = true then uid else MISSING_UID)
          (if s.opt_CHANGE_GID = true then gid else MISSING_GID) = 0
      · simp [hc, hu, hi]
      · simp [hc, hu, hi]
    · simp [hc, hu]
  · simp [hc]

/-- C19 at concrete inputs: with the live channel and both library calls succeeding,
both options end disabled and the ids handed over are those given; with a failing id
transition the options stay; with the legacy table nothing is done. -/
theorem C19_privilege_retention_witness :
    drop_privs_libnfct conntrack_t.CT_LIBNFCT 0 (fun _ _ => 0) ⟨true, false⟩ 65534 65533 =
      ⟨true, ⟨false, false⟩,
        [CapEvent.capng_clear, CapEvent.capng_update,
          CapEvent.capng_change_id 65534 MISSING_GID]⟩ ∧
    drop_privs_libnfct conntrack_t.CT_LIBNFCT 0 (fun _ _ => -1) ⟨true, true⟩ 65534 65533 =
      ⟨false, ⟨true, true⟩,
        [CapEvent.capng_clear, CapEvent.capng_update, CapEvent.capng_change_id 65534 65533]⟩ ∧
    drop_privs_libnfct conntrack_t.CT_IPCONNTRACK 0 (fun _ _ => 0) ⟨true, true⟩ 65534 65533 =
      ⟨true, ⟨true, true⟩, []⟩ :=
  ⟨(C19_privilege_retention conntrack_t.CT_LIBNFCT 0 (fun _ _ => 0) ⟨true, false⟩ 65534 65533
      65534 MISSING_GID rfl rfl).2.2.2.1 rfl rfl rfl,
    (C19_privilege_retention conntrack_t.CT_LIBNFCT 0 (fun _ _ => -1) ⟨true, true⟩ 65534 65533
      65534 65533 rfl rfl).2.2.1 rfl rfl (by decide),
    (C19_privilege_retention conntrack_t.CT_IPCONNTRACK 0 (fun _ _ => 0) ⟨true, true⟩ 65534
      65533 65534 65533 rfl rfl).1 (by decide)⟩

theorem accepted4_shift (cfg : Config) (laddr4 faddr4 lport fport : Nat) (l : scan4)
    (k1 k2 : Nat) :
    accepted4 cfg laddr4 faddr4 lport fport
        { l with portl_temp := l.portl_temp + 65536 * k1,
                 portf_temp := l.portf_temp + 65536 * k2 } ↔
      accepted4 cfg laddr4 faddr4 lport fport l := by
  unfold accepted4 proxy_rule exact_rule
  simp only [Nat.add_mul_mod_self_left]

theorem accepted6_shift (laddr faddr : sockaddr_storage) (lport fport : Nat) (l : scan6)
    (k1 k2 : Nat) :
    accepted6 laddr faddr lport fport
        { l with portl_temp := l.portl_temp + 65536 * k1,
                 portf_temp := l.portf_temp + 65536 * k2 } ↔
      accepted6 laddr faddr lport fport l := by
  unfold accepted6 match6
  simp only [Nat.add_mul_mod_self_left]

theorem find_shift {α : Type} (p : α → Bool) (f : α → Nat) (pre rest : List α) (l l1 : α)
    (hp : p l1 = p l) (hf : f l1 = f l) :
    ((pre ++ l1 :: rest).find? p).map f = ((pre ++ l :: rest).find? p).map f := by
  induction pre with
  | nil =>
    simp only [List.nil_append, List.find?_cons, hp]
    cases p l with
    | true => simp [hf]
    | false => rfl
  | cons x xs ih =>
    simp only [List.cons_append, List.find?_cons]
    cases p x with
    | true => rfl
    | false => exact ih

/-- C20 (ports are compared modulo 2^16). In `get_user4` and `get_user6` a line can be
accepted only if each of its two port fields, reduced modulo 65536, equals the query's
port, and a fully parsed line with the query's addresses is accepted exactly then;
adding multiples of 65536 to the port fields of a line changes nothing in the result of
the scan. In `masq_ct_line` a TCP record passes the port tests exactly when `mport` and
`nport` modulo 65536 equal the query's ports, and adding multiples of 65536 to the
four port fields of a record changes nothing in the result. -/
theorem C20_ports_modulo_65536 (cfg : Config) (q : query) (uid inode : Nat)
    (mc : MasqConfig) (co : Collab) (netlink_sock : Int) (env : ct_env) (sock : Int)
    (lport fport : Nat) (laddr faddr : sockaddr_storage) :
    (∀ laddr4 faddr4 l, accepted4 cfg laddr4 faddr4 lport fport l →
      l.portl_temp % 65536 = lport ∧ l.portf_temp % 65536 = fport) ∧
    (∀ l, l.ret = 6 → l.local_ = q.laddr.s_addr → l.remote = q.faddr.s_addr →
      (accepted4 cfg q.laddr.s_addr q.faddr.s_addr lport fport l ↔
        l.portl_temp % 65536 = lport ∧ l.portf_temp % 65536 = fport)) ∧
    (∀ hdr pre l rest k1 k2,
      get_user4_scan cfg (some (hdr :: (pre ++
          { l with portl_temp := l.portl_temp + 65536 * k1,
                   portf_temp := l.portf_temp + 65536 * k2 } :: rest))) q uid inode =
        get_user4_scan cfg (some (hdr :: (pre ++ l :: rest))) q uid inode) ∧
    (∀ l, accepted6 laddr faddr lport fport l →
      l.portl_temp % 65536 = lport ∧ l.portf_temp % 65536 = fport) ∧
    (∀ (hdr : scan6) pre l rest k1 k2,
      get_user6_scan cfg (some (hdr :: (pre ++
          { l with portl_temp := l.portl_temp + 65536 * k1,
                   portf_temp := l.portf_temp + 65536 * k2 } :: rest))) q =
        get_user6_scan cfg (some (hdr :: (pre ++ l :: rest))) q) ∧
    (∀ r, strcasecmp_eq r.proto "tcp" →
      (r.mport_temp % 65536 = lport ∧ r.nport_temp % 65536 = fport →
        masq_ct_checks mc co netlink_sock env sock lport fport laddr faddr r =
          masq_ct_resolve mc co netlink_sock env sock lport fport laddr faddr r) ∧
      (¬ (r.mport_temp % 65536 = lport ∧ r.nport_temp % 65536 = fport) →
        masq_ct_checks mc co netlink_sock env sock lport fport laddr faddr r =
          some ⟨1, netlink_sock, []⟩)) ∧
    (∀ r k1 k2 k3 k4,
      masq_ct_checks mc co netlink_sock env sock lport fport laddr faddr
          { r with mport_temp := r.mport_temp + 65536 * k1,
                   nport_temp := r.nport_temp + 65536 * k2,
                   masq_lport_temp := r.masq_lport_temp + 65536 * k3,
                   masq_fport_temp := r.masq_fport_temp + 65536 * k4 } =
        masq_ct_checks mc co netlink_sock env sock lport fport laddr faddr r) := by
  refine ⟨?_, ?_, ?_, ?_, ?_, ?_, ?_⟩
  · rintro laddr4 faddr4 l ⟨_, h | h⟩
    · exact ⟨h.2.2.2.1.symm, h.2.2.2.2.symm⟩
    · exact ⟨h.2.2.1, h.2.2.2⟩
  · intro l hret hl hr
    constructor
    · rintro ⟨_, h | h⟩
      · exact ⟨h.2.2.2.1.symm, h.2.2.2.2.symm⟩
      · exact ⟨h.2.2.1, h.2.2.2⟩
    · intro h
      exact ⟨hret, Or.inr ⟨hl, hr, h.1, h.2⟩⟩
  · intro hdr pre l rest k1 k2
    rw [get_user4_scan_eq, get_user4_scan_eq]
    simp only [deciding_record4, List.drop_succ_cons, List.drop_zero]
    have h := find_shift
      (fun l => decide (accepted4 cfg q.laddr.s_addr q.faddr.s_addr
        (ntohs cfg.big_endian q.lport) (ntohs cfg.big_endian q.fport) l))
      (fun l => out_success l.uid l.inode) pre rest l
      { l with portl_temp := l.portl_temp + 65536 * k1,
               portf_temp := l.portf_temp + 65536 * k2 }
      (by simp only [accepted4_shift]) rfl
    revert h
    cases List.find? _ (pre ++ _ :: rest) <;> cases List.find? _ (pre ++ l :: rest) <;>
      simp
  · rintro l ⟨_, h⟩
    exact ⟨h.2.2.1, h.2.2.2⟩
  · intro hdr pre l rest k1 k2
    rw [get_user6_scan_eq, get_user6_scan_eq]
    simp only [deciding_record6, List.drop_succ_cons, List.drop_zero]
    have h := find_shift
      (fun l => decide (accepted6 q.laddr q.faddr
        (ntohs cfg.big_endian q.lport) (ntohs cfg.big_endian q.fport) l))
      (fun l => if l.inode = 0 ∧ l.uid = 0 then MISSING_UID else l.uid) pre rest l
      { l with portl_temp := l.portl_temp + 65536 * k1,
               portf_temp := l.portf_temp + 65536 * k2 }
      (by simp only [accepted6_shift]) rfl
    revert h
    cases List.find? _ (pre ++ _ :: rest) <;> cases List.find? _ (pre ++ l :: rest) <;>
      simp
  · intro r hp
    constructor
    · rintro ⟨h1, h2⟩
      unfold masq_ct_checks
      rw [if_neg (not_not.mpr hp), if_neg (not_not.mpr h1), if_neg (not_not.mpr h2)]
    · intro h
      unfold masq_ct_checks
      rw [if_neg (not_not.mpr hp)]
      by_cases h1 : r.mport_temp % 65536 = lport
      · rw [if_neg (not_not.mpr h1), if_pos (fun h2 => h ⟨h1, h2⟩)]
      · rw [if_pos h1]
  · intro r k1 k2 k3 k4
    unfold masq_ct_checks masq_ct_resolve masq_ct_local_nat masq_ct_forward
    simp only [Nat.add_mul_mod_self_left]

set_option maxRecDepth 100000 in
/-- The line `wide_port_line` parses into a record whose port `mport` is 70536. -/
theorem wide_port_line_record :
    masq_ct_parse true conntrack_t.CT_IPCONNTRACK sample_env wide_port_line =
      parse_result.record
        ⟨"tcp".toList, 70536, 80, 4000, 80, 3232235786, 16909060, 16909060, 84281096⟩ := by
  decide

/-- C20 on samples: a socket-table line whose port fields are 65536 + 4000 and
65536 + 80 is found for the query with ports 4000 and 80 and gives uid 1000, and a
record whose port `mport` is 65536 + 5000 is handled for the query port 5000 like the
record with 5000, which is answered from the override table. -/
theorem C20_ports_modulo_65536_witness :
    get_user4_scan sample_cfg
        (some [header4, other_line, ⟨6, 0x0500000A, 69536, 0x22D8B85D, 65616, 1000, 55⟩])
        sample_query 7 7 = 1000 ∧
    masq_ct_checks (sample_mc conntrack_t.CT_IPCONNTRACK false false true) sample_co (-1)
        sample_env 9 5000 80 sample_laddr (ipv4_le 1 2 3 4)
        ⟨"tcp".toList, 70536, 80, 4000, 80, 3232235786, 16909060, 16909060, 84281096⟩ =
      some ⟨0, -1, [MasqEvent.find_masq_entry (ipv4_le 192 168 1 10),
        MasqEvent.sockprintf 9 "5000,80:USERID:UNIX:bob\r\n"]⟩ :=
  ⟨((C20_ports_modulo_65536 sample_cfg sample_query 7 7
      (sample_mc conntrack_t.CT_IPCONNTRACK false false true) sample_co (-1) sample_env 9
      5000 80 sample_laddr (ipv4_le 1 2 3 4)).2.2.1 header4 [other_line] sample_line [] 1
      1).trans (by decide),
    ((C20_ports_modulo_65536 sample_cfg sample_query 7 7
      (sample_mc conntrack_t.CT_IPCONNTRACK false false true) sample_co (-1) sample_env 9
      5000 80 sample_laddr (ipv4_le 1 2 3 4)).2.2.2.2.2.2
      ⟨"tcp".toList, 5000, 80, 4000, 80, 3232235786, 16909060, 16909060, 84281096⟩ 1 0 0
      0).trans (by decide)⟩

/-- The expression `a << 24 | b << 16 | c << 8 | d` on four octets is the number with
these four bytes, the first one the most significant. -/
theorem pack_octets_eq (a b c d : Nat) (ha : a < 256) (hb : b < 256) (hc : c < 256)
    (hd : d < 256) :
    pack_octets a b c d = a * 16777216 + b * 65536 + c * 256 + d := by
  unfold pack_octets
  have e1 : a <<< 24 = 2 ^ 24 * a := by rw [Nat.shiftLeft_eq, Nat.mul_comm]
  have e2 : b <<< 16 = 2 ^ 16 * b := by rw [Nat.shiftLeft_eq, Nat.mul_comm]
  have e3 : c <<< 8 = 2 ^ 8 * c := by rw [Nat.shiftLeft_eq, Nat.mul_comm]
  rw [e1, e2, e3, Nat.mod_eq_of_lt (by omega), Nat.mod_eq_of_lt (by omega),
    Nat.mod_eq_of_lt (by omega)]
  rw [← Nat.mul_add_lt_is_or (by omega : 2 ^ 16 * b < 2 ^ 24) a]
  have s2 : 2 ^ 24 * a + 2 ^ 16 * b = 2 ^ 16 * (256 * a + b) := by omega
  rw [s2, ← Nat.mul_add_lt_is_or (by omega : 2 ^ 8 * c < 2 ^ 16) (256 * a + b)]
  have s3 : 2 ^ 16 * (256 * a + b) + 2 ^ 8 * c = 2 ^ 8 * (65536 * a + 256 * b + c) := by
    omega
  rw [s3, ← Nat.mul_add_lt_is_or (by omega : d < 2 ^ 8) (65536 * a + 256 * b + c)]
  omega

/-- Two 32-bit values with the same octets are equal. -/
theorem octets_of_host_inj (x y : Nat) (hx : x < 4294967296) (hy : y < 4294967296)
    (h : octets_of_host x = octets_of_host y) : x = y := by
  unfold octets_of_host at h
  simp only [List.cons.injEq, and_true] at h
  omega

/-- On a little-endian host the octets of a network-order value, reversed, are the
octets of the same value read in host order. -/
theorem octets_of_net_reverse (x : Nat) :
    (octets_of_net false x).reverse = octets_of_host x := by
  simp [octets_of_net, octets_of_host]

/-- The octets of the number with four given bytes. -/
theorem octets_of_host_sum (a b c d : Nat) (ha : a < 256) (hb : b < 256) (hc : c < 256)
    (hd : d < 256) :
    octets_of_host (a * 16777216 + b * 65536 + c * 256 + d) = [a, b, c, d] := by
  unfold octets_of_host
  simp only [List.cons.injEq, and_true]
  omega

/-- The octets of a network-order value are those of the value `ntohl` gives. -/
theorem octets_of_net_eq (big_endian : Bool) (x : Nat) (hx : x < 4294967296) :
    octets_of_net big_endian x = octets_of_host (ntohl big_endian x) := by
  unfold octets_of_net ntohl htonl
  cases big_endian with
  | true =>
    simp only [if_true, Nat.mod_eq_of_lt hx]
  | false =>
    simp only [Bool.false_eq_true, if_false]
    rw [octets_of_host_sum _ _ _ _ (Nat.mod_lt _ (by decide)) (Nat.mod_lt _ (by decide))
      (Nat.mod_lt _ (by decide)) (Nat.mod_lt _ (by decide))]

/-- On 32-bit values `htonl` is its own inverse. -/
theorem htonl_involutive (big_endian : Bool) (x : Nat) (hx : x < 4294967296) :
    htonl big_endian (htonl big_endian x) = x := by
  unfold htonl
  cases big_endian with
  | true =>
    simp only [if_true, Nat.mod_mod, Nat.mod_eq_of_lt hx]
  | false =>
    simp only [Bool.false_eq_true, if_false]
    have h0 : x % 256 < 256 := Nat.mod_lt _ (by decide)
    have h1 : x / 256 % 256 < 256 := Nat.mod_lt _ (by decide)
    have h2 : x / 65536 % 256 < 256 := Nat.mod_lt _ (by decide)
    have h3 : x / 16777216 % 256 < 256 := Nat.mod_lt _ (by decide)
    have hx1 : x = x / 16777216 % 256 * 16777216 + x / 65536 % 256 * 65536 +
        x / 256 % 256 * 256 + x % 256 := by omega
    generalize x % 256 = d0 at h0 hx1 ⊢
    generalize x / 256 % 256 = d1 at h1 hx1 ⊢
    generalize x / 65536 % 256 = d2 at h2 hx1 ⊢
    generalize x / 16777216 % 256 = d3 at h3 hx1 ⊢
    have hs := octets_of_host_sum d0 d1 d2 d3 h0 h1 h2 h3
    unfold octets_of_host at hs
    simp only [List.cons.injEq, and_true] at hs
    obtain ⟨e0, e1, e2, e3⟩ := hs
    rw [e0, e1, e2, e3]
    omega

theorem ntohl_lt (big_endian : Bool) (x : Nat) : ntohl big_endian x < 4294967296 := by
  unfold ntohl htonl
  cases big_endian with
  | true => simp only [if_true]; omega
  | false => simp only [Bool.false_eq_true, if_false]; omega

/-- C21 (the third proxy test of `masq_ct_line` compares a host-order address with a
network-order one). The variable `localn` holds the source address of the second tuple
in host byte order: for four octets it is the number whose octets, most significant
first, are these. Take a record that is no local NAT loop and for which the third test
is reached: `localn` differs from `ntohl` of the query's foreign address, the PROXY
option is enabled and the query's foreign address is the proxy address; `localn` and
the proxy's `s_addr` are 32-bit values. Then the address `localn` stands for is not the
proxy's address (as octets, and likewise as the value `htonl(localn)` against the
proxy's `s_addr`). The test `localn == proxy.s_addr` decides the outcome: the function
returns 1 without doing anything exactly when the two values are equal, and goes on to
the override table otherwise. On a big-endian host the two values are never equal, so
the record is always accepted; on a little-endian host they are equal exactly when the
octets of the record's address are the octets of the proxy's address in reverse
order. -/
theorem C21_proxy_check_byte_order (mc : MasqConfig) (co : Collab) (netlink_sock : Int)
    (env : ct_env) (sock : Int) (lport fport : Nat) (laddr faddr : sockaddr_storage)
    (r : ct_record) (hloop : r.localm ≠ r.remoten)
    (hreach : r.localn ≠ ntohl mc.base.big_endian faddr.s_addr)
    (hproxy : mc.base.opt_PROXY = true) (hq : faddr.s_addr = mc.base.proxy.s_addr)
    (hl : r.localn < 4294967296) (hp : mc.base.proxy.s_addr < 4294967296) :
    (∀ a b c d, a < 256 → b < 256 → c < 256 → d < 256 →
      pack_octets a b c d < 4294967296 ∧ octets_of_host (pack_octets a b c d) = [a, b, c, d]) ∧
    octets_of_host r.localn ≠ octets_of_net mc.base.big_endian mc.base.proxy.s_addr ∧
    htonl mc.base.big_endian r.localn ≠ mc.base.proxy.s_addr ∧
    (masq_ct_resolve mc co netlink_sock env sock lport fport laddr faddr r =
        some ⟨1, netlink_sock, []⟩ ↔ r.localn = mc.base.proxy.s_addr) ∧
    (r.localn ≠ mc.base.proxy.s_addr →
      masq_ct_resolve mc co netlink_sock env sock lport fport laddr faddr r =
        some (masq_ct_forward mc co netlink_sock env sock lport fport r)) ∧
    (mc.base.big_endian = true →
      r.localn ≠ mc.base.proxy.s_addr ∧
      masq_ct_resolve mc co netlink_sock env sock lport fport laddr faddr r =
        some (masq_ct_forward mc co netlink_sock env sock lport fport r)) ∧
    (mc.base.big_endian = false →
      (masq_ct_resolve mc co netlink_sock env sock lport fport laddr faddr r =
          some ⟨1, netlink_sock, []⟩ ↔
        octets_of_host r.localn =
          (octets_of_net false mc.base.proxy.s_addr).reverse)) := by
  rw [hq] at hreach
  have hfire : r.localn = mc.base.proxy.s_addr →
      masq_ct_resolve mc co netlink_sock env sock lport fport laddr faddr r =
        some ⟨1, netlink_sock, []⟩ := by
    intro h
    unfold masq_ct_resolve
    rw [hq, if_neg hloop, if_pos hreach, if_neg (not_not.mpr hproxy),
      if_neg (not_not.mpr rfl), if_pos h]
  have hpass : r.localn ≠ mc.base.proxy.s_addr →
      masq_ct_resolve mc co netlink_sock env sock lport fport laddr faddr r =
        some (masq_ct_forward mc co netlink_sock env sock lport fport r) := by
    intro h
    unfold masq_ct_resolve
    rw [hq, if_neg hloop, if_pos hreach, if_neg (not_not.mpr hproxy),
      if_neg (not_not.mpr rfl), if_neg h]
  have hiff : masq_ct_resolve mc co netlink_sock env sock lport fport laddr faddr r =
      some ⟨1, netlink_sock, []⟩ ↔ r.localn = mc.base.proxy.s_addr := by
    constructor
    · intro h
      by_contra hne
      rw [hpass hne] at h
      have ht := masq_ct_forward_trace_ne_nil mc co netlink_sock env sock lport fport r
      rw [Option.some.inj h] at ht
      exact ht rfl
    · exact hfire
  refine ⟨?_, ?_, ?_, hiff, hpass, ?_, ?_⟩
  · intro a b c d ha hb hc hd
    rw [pack_octets_eq a b c d ha hb hc hd]
    refine ⟨by omega, ?_⟩
    unfold octets_of_host
    simp only [List.cons.injEq, and_true]
    omega
  · intro h
    rw [octets_of_net_eq _ _ hp] at h
    exact hreach (octets_of_host_inj _ _ hl (ntohl_lt _ _) h)
  · intro h
    apply hreach
    rw [← h]
    unfold ntohl
    rw [htonl_involutive _ _ hl]
  · intro hbe
    have hne : r.localn ≠ mc.base.proxy.s_addr := by
      intro h
      apply hreach
      rw [hbe] at *
      unfold ntohl htonl
      simp only [if_true, Nat.mod_eq_of_lt hp]
      exact h
    exact ⟨hne, hpass hne⟩
  · intro _
    rw [hiff, octets_of_net_reverse]
    constructor
    · intro h
      rw [h]
    · exact octets_of_host_inj _ _ hl hp

set_option maxRecDepth 100000 in
/-- C21 on a little-endian host with the proxy 192.0.2.1 and a query from the proxy:
the record whose second tuple has the source address 1.2.0.192 reaches the third test
and is passed over, as is its line in the legacy table, while the record of `masq_line`,
with the source address 1.2.3.4, is accepted and answered from the override table. On a
big-endian host the record with the source address 1.2.0.192 is accepted. -/
theorem C21_proxy_check_byte_order_witness :
    octets_of_host 16908480 = [1, 2, 0, 192] ∧
    octets_of_net false sample_mc_proxy.base.proxy.s_addr = [192, 0, 2, 1] ∧
    masq_ct_parse true conntrack_t.CT_IPCONNTRACK sample_env reversed_proxy_line =
      parse_result.record
        ⟨"tcp".toList, 5000, 80, 4000, 80, 3232235786, 16908480, 16908480, 84281096⟩ ∧
    masq_ct_resolve sample_mc_proxy sample_co (-1) sample_env 9 5000 80 sample_laddr
        (ipv4_le 192 0 2 1)
        ⟨"tcp".toList, 5000, 80, 4000, 80, 3232235786, 16908480, 16908480, 84281096⟩ =
      some ⟨1, -1, []⟩ ∧
    masq_ct_line sample_mc_proxy sample_co (-1) sample_env reversed_proxy_line 9 5000 80
        sample_laddr (ipv4_le 192 0 2 1) = some ⟨1, -1, []⟩ ∧
    masq_ct_line sample_mc_proxy sample_co (-1) sample_env masq_line 9 5000 80
        sample_laddr (ipv4_le 192 0 2 1) =
      some ⟨0, -1, [MasqEvent.find_masq_entry (ipv4_le 192 168 1 10),
        MasqEvent.sockprintf 9 "5000,80:USERID:UNIX:bob\r\n"]⟩ ∧
    octets_of_net true sample_mc_proxy_be.base.proxy.s_addr = [192, 0, 2, 1] ∧
    masq_ct_resolve sample_mc_proxy_be sample_co (-1) sample_env 9 5000 80 sample_laddr
        ⟨AF_INET, 0xC0000201, []⟩
        ⟨"tcp".toList, 5000, 80, 4000, 80, 3232235786, 16908480, 16908480, 84281096⟩ =
      some (masq_ct_forward sample_mc_proxy_be sample_co (-1) sample_env 9 5000 80
        ⟨"tcp".toList, 5000, 80, 4000, 80, 3232235786, 16908480, 16908480, 84281096⟩) :=
  ⟨by decide, by decide, by decide,
    (C21_proxy_check_byte_order sample_mc_proxy sample_co (-1) sample_env 9 5000 80
      sample_laddr (ipv4_le 192 0 2 1)
      ⟨"tcp".toList, 5000, 80, 4000, 80, 3232235786, 16908480, 16908480, 84281096⟩
      (by decide) (by decide) rfl rfl (by decide) (by decide)).2.2.2.1.mpr (by decide),
    by decide, by decide, by decide,
    ((C21_proxy_check_byte_order sample_mc_proxy_be sample_co (-1) sample_env 9 5000 80
      sample_laddr ⟨AF_INET, 0xC0000201, []⟩
      ⟨"tcp".toList, 5000, 80, 4000, 80, 3232235786, 16908480, 16908480, 84281096⟩
      (by decide) (by decide) rfl rfl (by decide) (by decide)).2.2.2.2.2.1 rfl).2⟩

end Oidentd
